import Mathlib

/-!
The difacto SGD model store and optimizer: a shallow embedding.

Source: `src/model/sgd.cc` (with the commented reference implementation in
`src/model/sgd.h`).

Conventions of the embedding.

* A `dmlc::Stream` is the list of the bytes that remain to be read (input) or
  that have been written (output).  `Stream::Read(void*, size_t n)` takes up to
  `n` bytes and returns how many it got; the typed `Stream::Read(T*)` and
  `Stream::Write(const T&)` move `sizeof(T)` bytes of a plain value, least
  significant byte first.
* `feaid_t` is a 64 bit unsigned integer, `int` is 32 bit two's complement,
  `real_t` is a 4 byte float.  In the stream half of the development a
  `real_t` is represented by its bit pattern (a natural number below `2^32`);
  a float compares equal to `0` exactly when its pattern is `+0` or `-0`.
  In the optimizer half a `real_t` is an element of an ordered field `R`, the
  number the float stands for, so that the definitions run on `ℚ`; comparisons
  are exact.  The arithmetic of `Update` and `InitV` is exact (their numerical
  properties are stated for exact arithmetic); the addition `fea_cnt +=
  fea_cnts[i]` of `AddCount` is a parameter `add` of the definitions, which
  covers the rounded sum of two floats as well as the exact sum.
* `CHECK_*` macros abort the process: outcome `Res.fatal`.  Executions that
  read an uninitialised variable or negate `INT_MIN` have no behaviour defined
  by the source: outcome `Res.undef`.
* `V_dim` is a natural number and buffer sizes are computed exactly; this is
  what the C++ `int` arithmetic computes as long as
  `(2 * V_dim + 10) * sizeof(real_t) < 2^31`.
* The source is work in progress and has slips of the pen that the embedding
  reads as intended: `len > 0 : len : -len` for `len > 0 ? len : -len`
  (line 28), `++i` for `++id` and `model_` for `model_map_` (lines 50, 54),
  `entry->V` for `entry.V` (line 90), `e.w[0]` for `e.w` (lines 131, 184).
-/

namespace difacto

/-! ## Outcomes -/

/-- Outcome of a call: a value, a failed `CHECK` (`fatal`), an execution the
source leaves undefined (`undef`), or an exhausted recursion budget of the
model (`nofuel`, never produced with the budgets used below). -/
inductive Res (α : Type) where
  | ok (a : α)
  | fatal
  | undef
  | nofuel
  deriving DecidableEq

/-! ## Bytes and machine integers -/

/-- The `k` low bytes of `x`, least significant first. -/
def toLE : Nat → Nat → List Nat
  | 0, _ => []
  | k + 1, x => (x % 256) :: toLE k (x / 256)

/-- The number whose little-endian bytes are given. -/
def fromLE : List Nat → Nat
  | [] => 0
  | b :: bs => b + 256 * fromLE bs

/-- Value of `sizeof(real_t)`. -/
def sizeof_real_t : Nat := 4

/-- Value of `sizeof(feaid_t)`. -/
def sizeof_feaid_t : Nat := 8

/-- Value of `sizeof(int)`. -/
def sizeof_int : Nat := 4

/-- Smallest `int`. -/
def INT_MIN : Int := -(2 ^ 31)

/-- Two's complement reading of a 32 bit pattern. -/
def toInt32 (u : Nat) : Int :=
  if u % 2 ^ 32 < 2 ^ 31 then ((u % 2 ^ 32 : Nat) : Int) else ((u % 2 ^ 32 : Nat) : Int) - 2 ^ 32

/-- Bit pattern of an `int`. -/
def ofInt32 (i : Int) : Nat := (i % 2 ^ 32).toNat

/-- A `bool` used as an integer, as in `1 + save_aux`. -/
def b2n (b : Bool) : Nat := if b then 1 else 0

/-- Float comparison `x == 0` on a bit pattern: true for `+0` and `-0`. -/
def isZeroBits (x : Nat) : Bool := x % 2 ^ 31 == 0

/-- Typed `Stream::Read(T*)` into an object of `k` bytes that currently holds
`old`: the bytes that are available overwrite the low bytes of the object, the
others keep their value.  Returns the new value and the rest of the stream. -/
def readObj (k : Nat) (old : Nat) (fi : List Nat) : Nat × List Nat :=
  (fromLE (fi.take k ++ (toLE k old).drop (fi.take k).length), fi.drop k)

/-- Bytes of an array of floats. -/
def bytesOfReals (v : List Nat) : List Nat := v.flatMap (toLE sizeof_real_t)

/-- The first `n` floats stored in a byte buffer. -/
def realsOfBytes : Nat → List Nat → List Nat
  | 0, _ => []
  | n + 1, bs => fromLE (bs.take sizeof_real_t) :: realsOfBytes n (bs.drop sizeof_real_t)

/-- Bytes of a buffer of `n` bytes just returned by `new`: unspecified by the
language, given by `fresh`. -/
def freshBytes (fresh : Nat → Nat) (n : Nat) : List Nat := (List.range n).map fresh

/-! ## Entries and the store -/

/-- Modelled from the spec: the declaration of `SGDEntry` used by `sgd.cc` is
missing (`sgd.h` only has a commented older one).  Fields as `sgd.cc` uses them
and as section 3 of the spec lists them: `fea_cnt`, `w`, the FTRL state
`sqrt_g`, `z`, and the optional owned array `V` (a null pointer is `none`; a
non-null pointer is `some` of the floats of the allocation). -/
structure SGDEntry (R : Type) where
  fea_cnt : R
  w : R
  sqrt_g : R
  z : R
  V : Option (List R)
  deriving DecidableEq

/-- A default constructed entry: counters and weights zero, no embedding. -/
def SGDEntry.empty {R : Type} [Zero R] : SGDEntry R :=
  { fea_cnt := 0, w := 0, sqrt_g := 0, z := 0, V := none }

/-- State of `SGDModel`: the id range, the representation flag, the dense
vector, the sparse map (an association list in the iteration order of the
`unordered_map`, which the language leaves open), and `param_.V_dim`. -/
structure SGDModel (R : Type) where
  start_id_ : Nat
  end_id_ : Nat
  dense_ : Bool
  model_vec_ : List (SGDEntry R)
  model_map_ : List (Nat × SGDEntry R)
  V_dim : Nat
  deriving DecidableEq

/-- Source function `SGDModel::Init` (sgd.cc 4-15). -/
def SGDModel.Init {R : Type} [Zero R] (V_dim : Nat) (start_id end_id : Nat) : Res (SGDModel R) :=
  if ¬ (end_id > start_id) then .fatal
  else if end_id - start_id < 10 ^ 8 then
    .ok { start_id_ := start_id, end_id_ := end_id, dense_ := true,
          model_vec_ := List.replicate (end_id - start_id) SGDEntry.empty,
          model_map_ := [], V_dim := V_dim }
  else
    .ok { start_id_ := start_id, end_id_ := end_id, dense_ := false,
          model_vec_ := [], model_map_ := [], V_dim := V_dim }

/-- Lookup in the sparse map. -/
def mapFind {R : Type} : List (Nat × SGDEntry R) → Nat → Option (SGDEntry R)
  | [], _ => none
  | (k, e) :: l, i => if k = i then some e else mapFind l i

/-- Store under a key of the sparse map: replace the value of an existing key,
else add the key. -/
def mapSet {R : Type} : List (Nat × SGDEntry R) → Nat → SGDEntry R → List (Nat × SGDEntry R)
  | [], i, e => [(i, e)]
  | (k, e0) :: l, i, e => if k = i then (k, e) :: l else (k, e0) :: mapSet l i e

/-- The entry that `model_vec_[i]` or `model_map_[i]` refers to: the slot of
the vector (`none` past its end), or the value of the key in the map, which
`operator[]` default constructs when the key is new. -/
def SGDModel.find {R : Type} [Zero R] (m : SGDModel R) (i : Nat) : Option (SGDEntry R) :=
  if m.dense_ then m.model_vec_[i]?
  else some ((mapFind m.model_map_ i).getD SGDEntry.empty)

/-- Write through the reference `model_vec_[i]` or `model_map_[i]`. -/
def SGDModel.set {R : Type} (m : SGDModel R) (i : Nat) (e : SGDEntry R) : SGDModel R :=
  if m.dense_ then { m with model_vec_ := m.model_vec_.set i e }
  else { m with model_map_ := mapSet m.model_map_ i e }

/-! ## Save -/

/-- Source function `SGDModel::Save(bool, feaid_t, const SGDEntry&, dmlc::Stream*)`
(sgd.cc 83-101): the bytes appended to the stream for one entry. -/
def SGDModel.SaveEntry (V_dim : Nat) (save_aux : Bool) (id : Nat) (entry : SGDEntry Nat) :
    List Nat :=
  if !save_aux && entry.V.isNone && isZeroBits entry.w then
    -- skip empty entry
    []
  else
    let V_len : Nat := (1 + b2n save_aux) * (if entry.V.isSome then V_dim else 0) * sizeof_real_t
    let len : Nat := (1 + b2n save_aux) * 2 * sizeof_real_t + V_len
    toLE sizeof_feaid_t id ++ toLE sizeof_int len
      ++ toLE sizeof_real_t entry.fea_cnt ++ toLE sizeof_real_t entry.w
      ++ (if save_aux then toLE sizeof_real_t entry.sqrt_g ++ toLE sizeof_real_t entry.z else [])
      ++ (if V_len ≠ 0 then (bytesOfReals (entry.V.getD [])).take V_len else [])

/-- The dense loop of `SGDModel::Save` (sgd.cc 50-52) from index `id` on. -/
def SGDModel.SaveVec (V_dim : Nat) (save_aux : Bool) (start_id : Nat) :
    Nat → List (SGDEntry Nat) → List Nat
  | _, [] => []
  | id, e :: es =>
    SGDModel.SaveEntry V_dim save_aux (id + start_id) e
      ++ SGDModel.SaveVec V_dim save_aux start_id (id + 1) es

/-- Source function `SGDModel::Save(bool, dmlc::Stream*)` (sgd.cc 48-58): the
bytes written, in index order for the vector and in iteration order for the
map. -/
def SGDModel.Save (save_aux : Bool) (m : SGDModel Nat) : List Nat :=
  if m.dense_ then
    SGDModel.SaveVec m.V_dim save_aux m.start_id_ 0 m.model_vec_
  else
    m.model_map_.flatMap fun it => SGDModel.SaveEntry m.V_dim save_aux (it.1 + m.start_id_) it.2

/-! ## Load -/

/-- Source function `SGDModel::Load(dmlc::Stream*, int, SGDEntry*)`
(sgd.cc 60-81): decode one record body of declared length `len` into `entry`.
Returns the entry and the rest of the stream.  `fresh` gives the bytes of the
array `new real_t[len]` returns. -/
def SGDModel.LoadEntry (V_dim : Nat) (fresh : Nat → Nat) (fi : List Nat) (len : Int)
    (entry : SGDEntry Nat) : Res (SGDEntry Nat × List Nat) :=
  let has_aux : Bool := decide (len > 0)
  if len = INT_MIN then .undef
  else
    -- len = (len > 0 ? len : - len) / sizeof(real_t)
    let len1 : Nat := (if len > 0 then len else -len).toNat / sizeof_real_t
    if ¬ (len1 ≥ 2) then .fatal
    else
      let r1 := readObj sizeof_real_t entry.fea_cnt fi
      let r2 := readObj sizeof_real_t entry.w r1.2
      let len2 : Nat := len1 - 2
      if has_aux ∧ ¬ (len2 ≥ 2) then .fatal
      else
        let r3 := if has_aux then readObj sizeof_real_t entry.sqrt_g r2.2 else (entry.sqrt_g, r2.2)
        let r4 := if has_aux then readObj sizeof_real_t entry.z r3.2 else (entry.z, r3.2)
        let len3 : Nat := if has_aux then len2 - 2 else len2
        let e1 : SGDEntry Nat :=
          { fea_cnt := r1.1, w := r2.1, sqrt_g := r3.1, z := r4.1, V := entry.V }
        if len3 > 0 then
          if ¬ (len3 = V_dim * (1 + b2n has_aux)) then .fatal
          else
            -- entry->V = new real_t[len]; fi->Read(entry->V, len): `len` bytes
            let got := r4.2.take len3
            let buf := got ++ (freshBytes fresh (len3 * sizeof_real_t)).drop got.length
            .ok ({ e1 with V := some (realsOfBytes len3 buf) }, r4.2.drop len3)
        else .ok (e1, r4.2)

/-- The `while` loop of `SGDModel::Load(dmlc::Stream*, bool*)` (sgd.cc 24-45).
`first` and `has_aux` are the loop variable and the current `*has_aux`.  When
fewer than `sizeof(id) + sizeof(int)` bytes remain (and at least one), the
reads of `id` or `len` come up short, the loop body still runs and reads the
uninitialised `len`. -/
def SGDModel.LoadLoop (fresh : Nat → Nat) :
    Nat → SGDModel Nat → Bool → Bool → List Nat → Res (SGDModel Nat × Bool)
  | 0, _, _, _, _ => .nofuel
  | fuel + 1, m, first, has_aux, fi =>
    if fi.length = 0 then .ok (m, has_aux)
    else if fi.length < sizeof_feaid_t + sizeof_int then .undef
    else
      let id : Nat := fromLE (fi.take sizeof_feaid_t)
      let len : Int := toInt32 (fromLE ((fi.drop sizeof_feaid_t).take sizeof_int))
      let fi1 := fi.drop (sizeof_feaid_t + sizeof_int)
      if id < m.start_id_ ∨ id ≥ m.end_id_ then
        -- skip
        if len = INT_MIN then .undef
        else
          let len1 : Nat := (if len > 0 then len else -len).toNat
          if ¬ (len1 < (m.V_dim * 2 + 10) * sizeof_real_t) then .fatal
          else SGDModel.LoadLoop fresh fuel m first has_aux (fi1.drop len1)
      else
        -- load
        let id1 := id - m.start_id_
        match m.find id1 with
        | none => .undef
        | some e =>
          match SGDModel.LoadEntry m.V_dim fresh fi1 len e with
          | .ok (e1, fi2) =>
            -- update has_aux
            let has_aux_cur : Bool := decide (len > 0)
            if !first ∧ has_aux_cur ≠ has_aux then .fatal
            else SGDModel.LoadLoop fresh fuel (m.set id1 e1) false has_aux_cur fi2
          | .fatal => .fatal
          | .undef => .undef
          | .nofuel => .nofuel

/-- Source function `SGDModel::Load(dmlc::Stream*, bool*)` (sgd.cc 18-46).
`has_aux` is the value `*has_aux` holds at the call; the result is the store
and `*has_aux` at the return.  Every iteration consumes at least 12 bytes, so a budget of
`fi.length + 1` iterations is never exhausted. -/
def SGDModel.Load (fresh : Nat → Nat) (m : SGDModel Nat) (has_aux : Bool) (fi : List Nat) :
    Res (SGDModel Nat × Bool) :=
  SGDModel.LoadLoop fresh (fi.length + 1) m true has_aux fi

/-! ## The optimizer: Get, AddCount, InitV -/

/-- Modelled from the spec: the configuration fields `sgd.cc` reads from
`param_` (`sgd.h` declares only `l1`, `l2`, `V_l2`): the learning rates, the
embedding dimension `V_dim`, the count threshold `V_threshold` and the scale
`init_scale` of the random initial embedding. -/
structure SGDParam (R : Type) where
  l1 : R
  l2 : R
  V_l2 : R
  lr : R
  lr_beta : R
  V_lr : R
  V_lr_beta : R
  V_dim : Nat
  V_threshold : R
  init_scale : R
  deriving DecidableEq

/-- State of `SGDOptimizer`: the store `model_`, `param_`, the counter `new_w_`
of nonzero weights, the flag `has_aux_`, and the number of calls made to
`rand()` so far. -/
structure SGDOptimizer (R : Type) where
  model_ : SGDModel R
  param_ : SGDParam R
  new_w_ : Int
  has_aux_ : Bool
  rand_calls : Nat
  deriving DecidableEq

/-- Modelled from the spec: `SGDModel::operator[]`, which `sgd.cc` calls as
`model_[id]` and which is only present in the commented reference of `sgd.h`
(`CHECK_GE(id, start_id_)`, then the slot `id - start_id_` of the vector or of
the map, created on first access).  Returns the entry referred to and the
store after the access. -/
def SGDModel.index {R : Type} [Zero R] (m : SGDModel R) (id : Nat) :
    Res (SGDEntry R × SGDModel R) :=
  if ¬ (id ≥ m.start_id_) then .fatal
  else
    match m.find (id - m.start_id_) with
    | none => .undef
    | some e => .ok (e, m.set (id - m.start_id_) e)

/-- Effect of `std::vector::resize(n)`: keep the first `n` elements, value-initialise
the new ones. -/
def resize {α : Type} (l : List α) (n : Nat) (fill : α) : List α :=
  l.take n ++ List.replicate (n - l.length) fill

/-- Result of `memcpy(buf + p, src, src.length * sizeof(real_t))`. -/
def copyInto {α : Type} : List α → Nat → List α → List α
  | buf, _, [] => buf
  | buf, p, x :: xs => copyInto (buf.set p x) (p + 1) xs

/-- The `for` loop of `SGDOptimizer::Get` (sgd.cc 112-122) over the ids that
remain, with the loop variables `i` and `p`.  `vector::at` past the end throws
(`fatal`); a `memcpy` past the end of either buffer is `undef`. -/
def SGDOptimizer.GetLoop {R : Type} [Zero R] (V_dim : Nat) :
    SGDModel R → List Nat → Nat → Nat → List R → List Int →
      Res (SGDModel R × List R × List Int)
  | m, [], _, _, weights, weight_lens => .ok (m, weights, weight_lens)
  | m, id :: ids, i, p, weights, weight_lens =>
    match m.index id with
    | .ok (e, m1) =>
      if ¬ (p < weights.length) then .fatal
      else
        let weights1 := weights.set p e.w
        let p1 := p + 1
        if e.V.isSome ∧ ¬ (V_dim ≤ (e.V.getD []).length ∧ p1 + V_dim ≤ weights1.length) then .undef
        else
          let weights2 := if e.V.isSome then copyInto weights1 p1 ((e.V.getD []).take V_dim) else weights1
          let p2 := if e.V.isSome then p1 + V_dim else p1
          if V_dim ≠ 0 then
            if ¬ (i < weight_lens.length) then .fatal
            else
              SGDOptimizer.GetLoop V_dim m1 ids (i + 1) p2 weights2
                (weight_lens.set i (((if e.V.isSome then V_dim else 0) + 1 : Nat) : Int))
          else SGDOptimizer.GetLoop V_dim m1 ids (i + 1) p2 weights2 weight_lens
    | .fatal => .fatal
    | .undef => .undef
    | .nofuel => .nofuel

/-- Source function `SGDOptimizer::Get` (sgd.cc 104-123).  `weights` and
`weight_lens` are the contents of the two output vectors at the call. -/
def SGDOptimizer.Get {R : Type} [Zero R] (o : SGDOptimizer R) (fea_ids : List Nat)
    (weights : List R) (weight_lens : List Int) : Res (SGDOptimizer R × List R × List Int) :=
  let V_dim := o.param_.V_dim
  let size := fea_ids.length
  let weights0 := resize weights (size * (1 + V_dim)) 0
  let weight_lens0 := resize weight_lens (if V_dim = 0 then 0 else size) 0
  match SGDOptimizer.GetLoop V_dim o.model_ fea_ids 0 0 weights0 weight_lens0 with
  | .ok (m, w, wl) => .ok ({ o with model_ := m }, w, wl)
  | .fatal => .fatal
  | .undef => .undef
  | .nofuel => .nofuel

/-- Source function `SGDOptimizer::InitV` (sgd.cc 200-207) on an entry:
`2 * V_dim` floats, the first `V_dim` from `rand()`, the others zeroed.  The `k`-th call of `rand()`
in the run returns `rand k`. -/
def SGDOptimizer.InitV {R : Type} [LinearOrderedField R] (rand : Nat → Nat) (RAND_MAX : Nat)
    (param_ : SGDParam R) (rand_calls : Nat) (e : SGDEntry R) : SGDEntry R × Nat :=
  let n := param_.V_dim
  ({ e with V := some ((List.range n).map (fun i =>
        ((rand (rand_calls + i) : R) / (RAND_MAX : R) - 1 / 2) * param_.init_scale)
      ++ List.replicate n 0) },
   rand_calls + n)

/-- Body of the loop of `SGDOptimizer::AddCount` (sgd.cc 130-133) on the entry
`e` referred to by `model_[fea_ids[i]]`.  The parameter `add` is the addition
of `real_t` that `e.fea_cnt += fea_cnts[i]` performs: the sum of two 4 byte
floats rounded to a float, or the exact sum when the arithmetic is taken to be
exact. -/
def SGDOptimizer.AddCountEntry {R : Type} [LinearOrderedField R] (add : R → R → R)
    (rand : Nat → Nat) (RAND_MAX : Nat) (param_ : SGDParam R) (rand_calls : Nat)
    (e : SGDEntry R) (cnt : R) : SGDEntry R × Nat :=
  let e1 := { e with fea_cnt := add e.fea_cnt cnt }
  if e1.V = none ∧ e1.w ≠ 0 ∧ e1.fea_cnt > param_.V_threshold then
    SGDOptimizer.InitV rand RAND_MAX param_ rand_calls e1
  else (e1, rand_calls)

/-- The `for` loop of `SGDOptimizer::AddCount` (sgd.cc 128-134) over the
pairs `(fea_ids[i], fea_cnts[i])` that remain. -/
def SGDOptimizer.AddCountLoop {R : Type} [LinearOrderedField R] (add : R → R → R)
    (rand : Nat → Nat) (RAND_MAX : Nat) :
    SGDOptimizer R → List (Nat × R) → Res (SGDOptimizer R)
  | o, [] => .ok o
  | o, (id, cnt) :: rest =>
    match o.model_.index id with
    | .ok (e, m1) =>
      let r := SGDOptimizer.AddCountEntry add rand RAND_MAX o.param_ o.rand_calls e cnt
      SGDOptimizer.AddCountLoop add rand RAND_MAX
        { o with model_ := m1.set (id - m1.start_id_) r.1, rand_calls := r.2 } rest
    | .fatal => .fatal
    | .undef => .undef
    | .nofuel => .nofuel

/-- Source function `SGDOptimizer::AddCount` (sgd.cc 125-135). -/
def SGDOptimizer.AddCount {R : Type} [LinearOrderedField R] (add : R → R → R)
    (rand : Nat → Nat) (RAND_MAX : Nat) (o : SGDOptimizer R) (fea_ids : List Nat)
    (fea_cnts : List R) : Res (SGDOptimizer R) :=
  if ¬ (fea_ids.length = fea_cnts.length) then .fatal
  else SGDOptimizer.AddCountLoop add rand RAND_MAX o (fea_ids.zip fea_cnts)

/-! ## Notions used to state the properties -/

/-- The value of an outcome, if there is one. -/
def Res.toOption {α : Type} : Res α → Option α
  | .ok a => some a
  | _ => none

/-- Length field of a written record as `Load` reads it: the `int` that
follows the 8 byte id. -/
def recLen (rec : List Nat) : Int :=
  toInt32 (fromLE ((rec.drop sizeof_feaid_t).take sizeof_int))

/-- Bytes of a written record after the id and the length field. -/
def recPayload (rec : List Nat) : List Nat := rec.drop (sizeof_feaid_t + sizeof_int)

/-- The entry a store holds for the global id `id` (a default one when the
sparse map has no such key yet). -/
def SGDModel.entry {R : Type} [Zero R] (m : SGDModel R) (id : Nat) : SGDEntry R :=
  (m.find (id - m.start_id_)).getD SGDEntry.empty

/-- An embedding, when present, holds at least `V_dim` floats (`Load` and
`InitV` allocate `V_dim` or `2 * V_dim`). -/
def SGDEntry.V_ok {R : Type} (V_dim : Nat) (e : SGDEntry R) : Bool :=
  match e.V with
  | none => true
  | some v => decide (V_dim ≤ v.length)

/-- A dense store has one slot per id of its range, as `Init` builds it. -/
def SGDModel.wf {R : Type} (m : SGDModel R) : Prop :=
  m.dense_ = true → m.model_vec_.length = m.end_id_ - m.start_id_

instance SGDModel.wf_decidable {R : Type} (m : SGDModel R) : Decidable m.wf := by
  unfold SGDModel.wf
  infer_instance

/-- A record of the checkpoint format (spec 4.1): the id, the signed length
field, and the bytes that follow the length field. -/
structure Record where
  id : Nat
  len : Int
  payload : List Nat
  deriving DecidableEq

/-- Bytes of a record in the stream. -/
def Record.encode (r : Record) : List Nat :=
  toLE sizeof_feaid_t r.id ++ toLE sizeof_int (ofInt32 r.len) ++ r.payload

/-- Bytes of a stream of records. -/
def encodeRecords (rs : List Record) : List Nat := rs.flatMap Record.encode

/-- A record whose fields fit their widths and whose payload has exactly
`|len|` bytes. -/
def Record.wellFormed (r : Record) : Prop :=
  r.id < 2 ^ 64 ∧ -(2 ^ 31) < r.len ∧ r.len < 2 ^ 31 ∧ r.payload.length = r.len.natAbs

instance Record.wellFormed_decidable (r : Record) : Decidable r.wellFormed := by
  unfold Record.wellFormed
  infer_instance

/-- The id of the record lies in the range of the store. -/
def Record.inRange (m : SGDModel Nat) (r : Record) : Bool :=
  decide (m.start_id_ ≤ r.id ∧ r.id < m.end_id_)

/-- A record that carries the scalar fields only: 16 bytes with `sqrt_g` and
`z` (positive length), 8 bytes without (negative length). -/
def Record.scalarOnly (r : Record) : Prop := r.len = 16 ∨ r.len = -8

instance Record.scalarOnly_decidable (r : Record) : Decidable r.scalarOnly := by
  unfold Record.scalarOnly
  infer_instance

/-- The entry that decoding a scalar-only record into `e` gives. -/
def Record.decodeScalars (r : Record) (e : SGDEntry Nat) : SGDEntry Nat :=
  if 0 < r.len then
    { fea_cnt := fromLE (r.payload.take 4), w := fromLE ((r.payload.drop 4).take 4),
      sqrt_g := fromLE ((r.payload.drop 8).take 4), z := fromLE ((r.payload.drop 12).take 4),
      V := e.V }
  else
    { fea_cnt := fromLE (r.payload.take 4), w := fromLE ((r.payload.drop 4).take 4),
      sqrt_g := e.sqrt_g, z := e.z, V := e.V }

/-- Whether the loop of `Load` passes every `CHECK_EQ(has_aux_cur, *has_aux)`
on the given sequence of aux flags, from the loop state `first`, `has_aux`. -/
def auxAgree : Bool → Bool → List Bool → Bool
  | _, _, [] => true
  | first, h, b :: bs => (first || (b == h)) && auxAgree false b bs

/-- Value of `*has_aux` after the given sequence of aux flags. -/
def auxFinal : Bool → List Bool → Bool
  | h, [] => h
  | _, b :: bs => auxFinal b bs

/-- Aux flags (`len > 0`) of the in-range records of a stream, in order. -/
def auxFlags (m : SGDModel Nat) (rs : List Record) : List Bool :=
  (rs.filter (Record.inRange m)).map (fun r => decide (r.len > 0))

/-! ## Concrete stores, entries and streams -/

/-- A dense store over `[0, n)` whose slots are the given entries. -/
def denseStore {R : Type} (V_dim : Nat) (es : List (SGDEntry R)) : SGDModel R :=
  { start_id_ := 0, end_id_ := es.length, dense_ := true, model_vec_ := es, model_map_ := [],
    V_dim := V_dim }

/-- An entry with an embedding for `V_dim = 2`: counter 3.0, weight 1.0,
`sqrt_g` 1.0, `z` -1.0, live half (0.5, 0.0), accumulators zero. -/
def c1_entry : SGDEntry Nat :=
  { fea_cnt := 0x40400000, w := 0x3F800000, sqrt_g := 0x3F800000, z := 0xBF800000,
    V := some [0x3F000000, 0, 0, 0] }

/-- An entry with `w == 0` and no embedding whose counter and FTRL state are
not zero: counter 3.0, `sqrt_g` 1.0, `z` 0.5. -/
def c2_entry : SGDEntry Nat :=
  { fea_cnt := 0x40400000, w := 0, sqrt_g := 0x3F800000, z := 0x3F000000, V := none }

/-- An entry with weight 1.0 and no embedding. -/
def c3_entry : SGDEntry Nat :=
  { fea_cnt := 0x40400000, w := 0x3F800000, sqrt_g := 0, z := 0, V := none }

/-- An entry with an embedding for `V_dim = 1`: live value 0.5, accumulator 1.0. -/
def c4_entry : SGDEntry Nat :=
  { fea_cnt := 0x40400000, w := 0x3F800000, sqrt_g := 0x3F800000, z := 0xBF800000,
    V := some [0x3F000000, 0x3F800000] }

/-- An out-of-range record of 40 payload bytes. -/
def c5_long : Record := { id := 5, len := 40, payload := List.replicate 40 0 }

/-- A stream that mixes out-of-range records with an in-range one. -/
def c5_stream : List Record :=
  [{ id := 5, len := 3, payload := [1, 2, 3] },
   { id := 0, len := -8, payload := [0, 0, 64, 64, 0, 0, 128, 63] },
   { id := 7, len := -2, payload := [9, 9] }]

/-- One in-range record with aux state, then an out-of-range record of 48
payload bytes. -/
def c6_long_stream : List Record :=
  [{ id := 0, len := 16, payload := [0, 0, 64, 64, 0, 0, 128, 63, 0, 0, 128, 63, 0, 0, 0, 63] },
   { id := 9, len := -48, payload := List.replicate 48 0 }]

/-- Two in-range records with aux state around an out-of-range record. -/
def c6_stream : List Record :=
  [{ id := 0, len := 16, payload := [0, 0, 64, 64, 0, 0, 128, 63, 0, 0, 128, 63, 0, 0, 0, 63] },
   { id := 9, len := -5, payload := [1, 2, 3, 4, 5] },
   { id := 1, len := 16, payload := [0, 0, 128, 63, 0, 0, 0, 64, 0, 0, 0, 64, 0, 0, 128, 191] }]

/-- A configuration with `V_dim = 2`, `V_threshold = 2`, `init_scale = 1`. -/
def c_param : SGDParam ℚ :=
  { l1 := 1, l2 := 0, V_l2 := 1 / 100, lr := 1, lr_beta := 1, V_lr := 1, V_lr_beta := 1,
    V_dim := 2, V_threshold := 2, init_scale := 1 }

/-- An optimizer over `[0, 2)`: entry 0 has weight 1/2 and no embedding,
entry 1 has weight 2 and the embedding (1/4, 1/8). -/
def c8_opt : SGDOptimizer ℚ :=
  { model_ := denseStore 2
      [{ fea_cnt := 0, w := 1 / 2, sqrt_g := 0, z := 0, V := none },
       { fea_cnt := 5, w := 2, sqrt_g := 0, z := 0, V := some [1 / 4, 1 / 8, 0, 0] }],
    param_ := c_param, new_w_ := 2, has_aux_ := true, rand_calls := 0 }

/-- An optimizer over `[0, 2)` with `V_dim = 2` in which no entry has an
embedding. -/
def c9_opt : SGDOptimizer ℚ :=
  { model_ := denseStore 2
      [{ fea_cnt := 0, w := 1 / 2, sqrt_g := 0, z := 0, V := none },
       { fea_cnt := 1, w := 0, sqrt_g := 0, z := 0, V := none }],
    param_ := c_param, new_w_ := 1, has_aux_ := true, rand_calls := 0 }

/-- An optimizer over `[0, 8)` on a fresh store. -/
def c10_opt : SGDOptimizer ℚ :=
  { model_ := denseStore 2 (List.replicate 8 SGDEntry.empty),
    param_ := c_param, new_w_ := 0, has_aux_ := true, rand_calls := 0 }

/-- An optimizer over `[0, 2)` whose entry 1 has weight 1/2, count 2 and no
embedding. -/
def c10_opt_w : SGDOptimizer ℚ :=
  { model_ := denseStore 2
      [SGDEntry.empty, { fea_cnt := 2, w := 1 / 2, sqrt_g := 1, z := -2, V := none }],
    param_ := c_param, new_w_ := 1, has_aux_ := true, rand_calls := 0 }

/-- The optimizer `c10_opt_w` after `AddCount([0], [5])`. -/
def c10_after : SGDOptimizer ℚ :=
  { model_ := denseStore 2
      [{ fea_cnt := 5, w := 0, sqrt_g := 0, z := 0, V := none },
       { fea_cnt := 2, w := 1 / 2, sqrt_g := 1, z := -2, V := none }],
    param_ := c_param, new_w_ := 1, has_aux_ := true, rand_calls := 0 }

/-! ## The optimizer: Update, UpdateW, UpdateV

The square root is a parameter `sqrt` of the definitions, so that they stay
executable; the numerical properties are stated with `Real.sqrt` over `ℝ`.
In `UpdateW` the source has `sg * gs` for `sg * sg` (line 166). -/

/-- First part of `SGDOptimizer::UpdateW` (sgd.cc 162-177): the entry after
the updates of `sqrt_g`, of `z`, and of `w` by soft shrinkage, for the gradient
`gw`. -/
def SGDOptimizer.UpdateW_shrink {R : Type} [LinearOrderedField R] (sqrt : R → R)
    (param_ : SGDParam R) (gw : R) (e : SGDEntry R) : SGDEntry R :=
  let sg := e.sqrt_g
  let w := e.w
  -- update sqrt_g
  let gw1 := gw + w * param_.l2
  let sqrt_g1 := sqrt (sg * sg + gw1 * gw1)
  -- update z
  let z := e.z - (gw1 - (sqrt_g1 - sg) / param_.lr * w)
  -- update w by soft shrinkage
  let l1 := param_.l1
  let w1 := if z ≤ l1 ∧ z ≥ -l1 then 0
    else (if z > 0 then z - l1 else z + l1) / ((param_.lr_beta + sqrt_g1) / param_.lr)
  { fea_cnt := e.fea_cnt, w := w1, sqrt_g := sqrt_g1, z := z, V := e.V }

/-- Source function `SGDOptimizer::UpdateW` (sgd.cc 161-187) on the entry `e`
with the gradient `gw`: the first part, then the update of the statistics
(lines 178-186), where `w` is the weight before the call.  Returns the entry,
`new_w_` and the number of calls made to `rand()`. -/
def SGDOptimizer.UpdateW {R : Type} [LinearOrderedField R] (sqrt : R → R) (rand : Nat → Nat)
    (RAND_MAX : Nat) (param_ : SGDParam R) (new_w_ : Int) (rand_calls : Nat) (gw : R)
    (e : SGDEntry R) : SGDEntry R × Int × Nat :=
  let w := e.w
  let e1 := SGDOptimizer.UpdateW_shrink sqrt param_ gw e
  -- update statistics
  if w = 0 ∧ e1.w ≠ 0 then
    if e1.V = none ∧ e1.fea_cnt > param_.V_threshold then
      ((SGDOptimizer.InitV rand RAND_MAX param_ rand_calls e1).1, new_w_ + 1,
        (SGDOptimizer.InitV rand RAND_MAX param_ rand_calls e1).2)
    else (e1, new_w_ + 1, rand_calls)
  else if w ≠ 0 ∧ e1.w = 0 then (e1, new_w_ - 1, rand_calls)
  else (e1, new_w_, rand_calls)

/-- Body of the loop of `SGDOptimizer::UpdateV` (sgd.cc 192-196) for the index
`i`, on the array `v` that `e->V` points to, with `n = V_dim`.  A read of `gV`
or of the array past its end is `undef`.  The write to `V[i+n]` leaves `V[i]`
as it is, since the body runs only when `n > 0`. -/
def SGDOptimizer.UpdateVStep {R : Type} [LinearOrderedField R] (sqrt : R → R)
    (param_ : SGDParam R) (gV : List R) (v : List R) (i : Nat) : Res (List R) :=
  let n := param_.V_dim
  match gV[i]?, v[i]?, v[i + n]? with
  | some gi, some vi, some cg =>
    let g := gi + param_.V_l2 * vi
    let acc := sqrt (cg * cg + g * g)
    let eta := param_.V_lr / (acc + param_.V_lr_beta)
    .ok ((v.set (i + n) acc).set i (vi - eta * g))
  | _, _, _ => Res.undef

/-- The `for` loop of `SGDOptimizer::UpdateV` (sgd.cc 191-197): `k` iterations
from the index `i` on. -/
def SGDOptimizer.UpdateVLoop {R : Type} [LinearOrderedField R] (sqrt : R → R)
    (param_ : SGDParam R) (gV : List R) : Nat → Nat → List R → Res (List R)
  | 0, _, v => .ok v
  | k + 1, i, v =>
    match SGDOptimizer.UpdateVStep sqrt param_ gV v i with
    | .ok v1 => SGDOptimizer.UpdateVLoop sqrt param_ gV k (i + 1) v1
    | .fatal => .fatal
    | .undef => .undef
    | .nofuel => .nofuel

/-- Source function `SGDOptimizer::UpdateV` (sgd.cc 189-198): `gV` is the part
of `grads` that starts at the pointer passed.  With `V_dim > 0` a null `e->V`
is dereferenced (`undef`). -/
def SGDOptimizer.UpdateV {R : Type} [LinearOrderedField R] (sqrt : R → R)
    (param_ : SGDParam R) (gV : List R) (e : SGDEntry R) : Res (SGDEntry R) :=
  if param_.V_dim = 0 then .ok e
  else
    match e.V with
    | none => .undef
    | some v =>
      match SGDOptimizer.UpdateVLoop sqrt param_ gV param_.V_dim 0 v with
      | .ok v1 => .ok { e with V := some v1 }
      | .fatal => .fatal
      | .undef => .undef
      | .nofuel => .nofuel

/-- The `for` loop of `SGDOptimizer::Update` (sgd.cc 148-156) over the ids
that remain, with the loop variables `i` and `p`.  Returns the optimizer and
`p`.  A read of `grads` or `grad_lens` past the end is `undef`. -/
def SGDOptimizer.UpdateLoop {R : Type} [LinearOrderedField R] (sqrt : R → R) (rand : Nat → Nat)
    (RAND_MAX : Nat) (w_only : Bool) (grads : List R) (grad_lens : List Int) :
    SGDOptimizer R → List Nat → Nat → Nat → Res (SGDOptimizer R × Nat)
  | o, [], _, p => .ok (o, p)
  | o, id :: ids, i, p =>
    match o.model_.index id with
    | .ok (e, m1) =>
      match grads[p]? with
      | none => .undef
      | some gw =>
        let r := SGDOptimizer.UpdateW sqrt rand RAND_MAX o.param_ o.new_w_ o.rand_calls gw e
        let p1 := p + 1
        if w_only then
          SGDOptimizer.UpdateLoop sqrt rand RAND_MAX w_only grads grad_lens
            { o with model_ := m1.set (id - m1.start_id_) r.1, new_w_ := r.2.1,
                     rand_calls := r.2.2 } ids (i + 1) p1
        else
          match grad_lens[i]? with
          | none => .undef
          | some gl =>
            if gl > 1 then
              if ¬ (gl = (o.param_.V_dim : Int)) then .fatal
              else
                match SGDOptimizer.UpdateV sqrt o.param_ (grads.drop p1) r.1 with
                | .ok e2 =>
                  SGDOptimizer.UpdateLoop sqrt rand RAND_MAX w_only grads grad_lens
                    { o with model_ := m1.set (id - m1.start_id_) e2, new_w_ := r.2.1,
                             rand_calls := r.2.2 } ids (i + 1) (p1 + o.param_.V_dim)
                | .fatal => .fatal
                | .undef => .undef
                | .nofuel => .nofuel
            else
              SGDOptimizer.UpdateLoop sqrt rand RAND_MAX w_only grads grad_lens
                { o with model_ := m1.set (id - m1.start_id_) r.1, new_w_ := r.2.1,
                         rand_calls := r.2.2 } ids (i + 1) p1
    | .fatal => .fatal
    | .undef => .undef
    | .nofuel => .nofuel

/-- Source function `SGDOptimizer::Update` (sgd.cc 138-158). -/
def SGDOptimizer.Update {R : Type} [LinearOrderedField R] (sqrt : R → R) (rand : Nat → Nat)
    (RAND_MAX : Nat) (o : SGDOptimizer R) (fea_ids : List Nat) (grads : List R)
    (grad_lens : List Int) : Res (SGDOptimizer R) :=
  if ¬ (o.has_aux_ = true) then .fatal
  else
    let size := fea_ids.length
    let w_only : Bool := grad_lens.isEmpty
    if w_only ∧ ¬ (grads.length = size) then .fatal
    else
      match SGDOptimizer.UpdateLoop sqrt rand RAND_MAX w_only grads grad_lens o fea_ids 0 0 with
      | .ok (o1, p) => if ¬ (p = grads.length) then .fatal else .ok o1
      | .fatal => .fatal
      | .undef => .undef
      | .nofuel => .nofuel

/-! ## Further notions used to state the properties -/

/-- A sequence of `UpdateV` calls on one entry, with the given gradient
vectors in order. -/
def SGDOptimizer.UpdateVs {R : Type} [LinearOrderedField R] (sqrt : R → R)
    (param_ : SGDParam R) : List (List R) → SGDEntry R → Res (SGDEntry R)
  | [], e => .ok e
  | gV :: gs, e =>
    match SGDOptimizer.UpdateV sqrt param_ gV e with
    | .ok e1 => SGDOptimizer.UpdateVs sqrt param_ gs e1
    | .fatal => .fatal
    | .undef => .undef
    | .nofuel => .nofuel

/-- The counts `fea_cnts[i]` of the positions `i` of a batch with
`fea_ids[i] = id`, in the order of the batch. -/
def countsOf {R : Type} (id : Nat) (fea_ids : List Nat) (fea_cnts : List R) : List R :=
  ((fea_ids.zip fea_cnts).filter (fun it => decide (it.1 = id))).map Prod.snd

/-- Number of entries of the store whose weight is not zero. -/
def SGDModel.nonzero {R : Type} [Zero R] [DecidableEq R] (m : SGDModel R) : Nat :=
  if m.dense_ then m.model_vec_.countP (fun e => decide (e.w ≠ 0))
  else m.model_map_.countP (fun it => decide (it.2.w ≠ 0))

/-- The embedding of the entry, when present, has one of the given numbers of
floats. -/
def SGDEntry.V_len_ok {R : Type} (ns : List Nat) (e : SGDEntry R) : Bool :=
  match e.V with
  | none => true
  | some v => decide (v.length ∈ ns)

/-- The entry with every float replaced by its image under `f`. -/
def SGDEntry.map {α β : Type} (f : α → β) (e : SGDEntry α) : SGDEntry β :=
  { fea_cnt := f e.fea_cnt, w := f e.w, sqrt_g := f e.sqrt_g, z := f e.z,
    V := e.V.map (List.map f) }

/-- The configuration with every float replaced by its image under `f`. -/
def SGDParam.map {α β : Type} (f : α → β) (p : SGDParam α) : SGDParam β :=
  { l1 := f p.l1, l2 := f p.l2, V_l2 := f p.V_l2, lr := f p.lr, lr_beta := f p.lr_beta,
    V_lr := f p.V_lr, V_lr_beta := f p.V_lr_beta, V_dim := p.V_dim,
    V_threshold := f p.V_threshold, init_scale := f p.init_scale }

/-- The store with every float replaced by its image under `f`. -/
def SGDModel.map {α β : Type} (f : α → β) (m : SGDModel α) : SGDModel β :=
  { start_id_ := m.start_id_, end_id_ := m.end_id_, dense_ := m.dense_,
    model_vec_ := m.model_vec_.map (SGDEntry.map f),
    model_map_ := m.model_map_.map (fun it => (it.1, SGDEntry.map f it.2)),
    V_dim := m.V_dim }

/-- The slots of `m'` are those of `m`, and the entries of each slot are
related by `Rel`. -/
def SGDModel.related {R : Type} [Zero R] (Rel : SGDEntry R → SGDEntry R → Prop)
    (m m' : SGDModel R) : Prop :=
  ∀ j, (m.find j = none ∧ m'.find j = none)
    ∨ ∃ e e', m.find j = some e ∧ m'.find j = some e' ∧ Rel e e'

/-- States of the optimizer reachable from a freshly constructed store by
`Load`, `Get`, `AddCount` and `Update` calls that return.  `enc` and `dec`
convert a `real_t` to its bit pattern and back; `loadOk` restricts the `Load`
calls by the `has_aux` they report; `add` is the addition of `real_t` in
`AddCount`.  How `SGDOptimizer` sets `has_aux_` after a load is not in
`sgd.cc`: any value is allowed. -/
inductive SGDOptimizer.Reachable {R : Type} [LinearOrderedField R] (sqrt : R → R)
    (add : R → R → R) (rand : Nat → Nat) (RAND_MAX : Nat) (fresh : Nat → Nat) (enc : R → Nat)
    (dec : Nat → R)
    (loadOk : Bool → Prop) : SGDOptimizer R → Prop where
  | init (param_ : SGDParam R) (start_id end_id : Nat) (m : SGDModel R) (has_aux : Bool)
      (rand_calls : Nat) (h : SGDModel.Init param_.V_dim start_id end_id = .ok m) :
      SGDOptimizer.Reachable sqrt add rand RAND_MAX fresh enc dec loadOk
        { model_ := m, param_ := param_, new_w_ := 0, has_aux_ := has_aux,
          rand_calls := rand_calls }
  | load (o : SGDOptimizer R) (fi : List Nat) (has_aux : Bool) (m' : SGDModel Nat)
      (has_aux' b : Bool)
      (ho : SGDOptimizer.Reachable sqrt add rand RAND_MAX fresh enc dec loadOk o)
      (h : SGDModel.Load fresh (o.model_.map enc) has_aux fi = .ok (m', has_aux'))
      (hok : loadOk has_aux') :
      SGDOptimizer.Reachable sqrt add rand RAND_MAX fresh enc dec loadOk
        { o with model_ := m'.map dec, has_aux_ := b }
  | get (o o' : SGDOptimizer R) (fea_ids : List Nat) (weights weights' : List R)
      (weight_lens weight_lens' : List Int)
      (ho : SGDOptimizer.Reachable sqrt add rand RAND_MAX fresh enc dec loadOk o)
      (h : o.Get fea_ids weights weight_lens = .ok (o', weights', weight_lens')) :
      SGDOptimizer.Reachable sqrt add rand RAND_MAX fresh enc dec loadOk o'
  | add_count (o o' : SGDOptimizer R) (fea_ids : List Nat) (fea_cnts : List R)
      (ho : SGDOptimizer.Reachable sqrt add rand RAND_MAX fresh enc dec loadOk o)
      (h : SGDOptimizer.AddCount add rand RAND_MAX o fea_ids fea_cnts = .ok o') :
      SGDOptimizer.Reachable sqrt add rand RAND_MAX fresh enc dec loadOk o'
  | update (o o' : SGDOptimizer R) (fea_ids : List Nat) (grads : List R) (grad_lens : List Int)
      (ho : SGDOptimizer.Reachable sqrt add rand RAND_MAX fresh enc dec loadOk o)
      (h : SGDOptimizer.Update sqrt rand RAND_MAX o fea_ids grads grad_lens = .ok o') :
      SGDOptimizer.Reachable sqrt add rand RAND_MAX fresh enc dec loadOk o'

/-! ## Concrete inputs for the optimizer -/

/-- Largest `k` with `k * k ≤ n`. -/
def natSqrt (n : Nat) : Nat :=
  ((List.range (n + 1)).filter (fun k => decide (k * k ≤ n))).length - 1

/-- A square root on `ℚ` that is exact on the squares of rationals (it takes the
integer square roots of numerator and denominator); it is used to run `Update`
on inputs where every square root taken is that of a square. -/
def qsqrt (q : ℚ) : ℚ := (natSqrt q.num.toNat : ℚ) / (natSqrt q.den : ℚ)

/-- The configuration `c_param` with `V_dim = 1`. -/
def c11_param : SGDParam ℚ := { c_param with V_dim := 1 }

/-- An optimizer over `[0, 1)` with `V_dim = 1` whose entry has the embedding
`(1)` with accumulator `0`. -/
def c11_opt : SGDOptimizer ℚ :=
  { model_ := denseStore 1 [{ fea_cnt := 0, w := 0, sqrt_g := 0, z := 0, V := some [1, 0] }],
    param_ := c11_param, new_w_ := 0, has_aux_ := true, rand_calls := 0 }

/-- A fresh store over `[0, 1)` with `V_dim = 4`, as `Init` builds it. -/
def c16_store : SGDModel Nat := denseStore 4 [SGDEntry.empty]

/-- The bytes `Save` without aux writes for id 0 with `V_dim = 4`: length field
`-24`, counter 3.0, weight 1.0 and the live half (0.5, 0.25, 0.125, 0.0) of the
embedding. -/
def c16_stream : List Nat :=
  [0, 0, 0, 0, 0, 0, 0, 0] ++ [232, 255, 255, 255]
    ++ [0, 0, 64, 64] ++ [0, 0, 128, 63]
    ++ [0, 0, 0, 63] ++ [0, 0, 128, 62] ++ [0, 0, 0, 62] ++ [0, 0, 0, 0]

/-- The optimizer `c10_opt` after `AddCount([0], [5])`. -/
def c16_counted : SGDOptimizer ℚ :=
  { model_ := denseStore 2
      ({ fea_cnt := 5, w := 0, sqrt_g := 0, z := 0, V := none }
        :: List.replicate 7 SGDEntry.empty),
    param_ := c_param, new_w_ := 0, has_aux_ := true, rand_calls := 0 }

/-- The optimizer `c16_counted` after `Update([0], [3], [])` with `rand()`
returning 3 and `RAND_MAX = 10`: the weight of entry 0 is now `-1/2`, the
counter is 1 and the entry has the embedding `InitV` built. -/
def c16_updated : SGDOptimizer ℚ :=
  { model_ := denseStore 2
      ({ fea_cnt := 5, w := -1 / 2, sqrt_g := 3, z := -3,
         V := some [-1 / 5, -1 / 5, 0, 0] }
        :: List.replicate 7 SGDEntry.empty),
    param_ := c_param, new_w_ := 1, has_aux_ := true, rand_calls := 2 }

/-- The optimizer `c8_opt` after `AddCount([1], [-2])`. -/
def c17_after : SGDOptimizer ℚ :=
  { model_ := denseStore 2
      [{ fea_cnt := 0, w := 1 / 2, sqrt_g := 0, z := 0, V := none },
       { fea_cnt := 3, w := 2, sqrt_g := 0, z := 0, V := some [1 / 4, 1 / 8, 0, 0] }],
    param_ := c_param, new_w_ := 2, has_aux_ := true, rand_calls := 0 }

/-- An addition on `ℚ` that rounds as the addition of 4 byte floats does at
`2^24 + 1` (the sum is `2^24`, the nearest float) and is the exact sum
elsewhere; it is used to run `AddCount` on `c17_big`, where no other sum is
taken. -/
def c17_add (x y : ℚ) : ℚ := if x = 16777216 ∧ y = 1 then 16777216 else x + y

/-- An optimizer over `[0, 1)` whose entry has `fea_cnt = 2^24`. -/
def c17_big : SGDOptimizer ℚ :=
  { model_ := denseStore 2 [{ fea_cnt := 16777216, w := 0, sqrt_g := 0, z := 0, V := none }],
    param_ := c_param, new_w_ := 0, has_aux_ := true, rand_calls := 0 }

/-- Entry 1 of `c10_opt_w` after one step of the loop of `AddCount` with count
1, `rand()` returning 3 and `RAND_MAX = 10`. -/
def c18_entry_after : SGDEntry ℚ :=
  { fea_cnt := 3, w := 1 / 2, sqrt_g := 1, z := -2, V := some [-1 / 5, -1 / 5, 0, 0] }

/-- An entry with the embedding `(1)` and accumulator `2`, for `V_dim = 1`. -/
def c15_entry : SGDEntry ℚ := { fea_cnt := 0, w := 0, sqrt_g := 0, z := 0, V := some [1, 2] }

/-- The optimizer `c16_updated` after `AddCount([0], [1])`. -/
def c16_recounted : SGDOptimizer ℚ :=
  { model_ := denseStore 2
      ({ fea_cnt := 6, w := -1 / 2, sqrt_g := 3, z := -3,
         V := some [-1 / 5, -1 / 5, 0, 0] }
        :: List.replicate 7 SGDEntry.empty),
    param_ := c_param, new_w_ := 1, has_aux_ := true, rand_calls := 2 }

/-! ## Lemmas -/

theorem toLE_length (k x : Nat) : (toLE k x).length = k := by
  induction k generalizing x with
  | zero => rfl
  | succ k ih => simp [toLE, ih]

theorem fromLE_toLE (k x : Nat) : fromLE (toLE k x) = x % 256 ^ k := by
  induction k generalizing x with
  | zero => simp [toLE, fromLE, Nat.mod_one]
  | succ k ih => rw [toLE, fromLE, ih, pow_succ', Nat.mod_mul]

theorem toInt32_ofInt32 (i : Int) (h1 : -(2 ^ 31) ≤ i) (h2 : i < 2 ^ 31) : toInt32 (ofInt32 i) = i := by
  unfold toInt32 ofInt32
  have h3 : (0 : Int) ≤ i % 2 ^ 32 := Int.emod_nonneg _ (by norm_num)
  have h4 : i % 2 ^ 32 < 2 ^ 32 := Int.emod_lt_of_pos _ (by norm_num)
  have h5 : ((i % 2 ^ 32).toNat % 2 ^ 32 : Nat) = (i % 2 ^ 32).toNat := by
    apply Nat.mod_eq_of_lt
    omega
  rw [h5]
  have h6 : (((i % 2 ^ 32).toNat : Nat) : Int) = i % 2 ^ 32 := Int.toNat_of_nonneg h3
  split
  · rename_i h
    rw [h6]
    have : ((i % 2 ^ 32).toNat : Int) < 2 ^ 31 := by exact_mod_cast h
    omega
  · rename_i h
    rw [h6]
    have : ¬ ((i % 2 ^ 32).toNat : Int) < 2 ^ 31 := by exact_mod_cast h
    omega

theorem bytesOfReals_length (v : List Nat) : (bytesOfReals v).length = 4 * v.length := by
  induction v with
  | nil => rfl
  | cons a v ih =>
    simp only [bytesOfReals, List.flatMap_cons, List.length_append, toLE_length, List.length_cons] at ih ⊢
    rw [ih]; simp [sizeof_real_t]; omega

theorem bytesOfReals_take (v : List Nat) (k : Nat) :
    (bytesOfReals v).take (k * 4) = bytesOfReals (v.take k) := by
  induction v generalizing k with
  | nil => simp [bytesOfReals]
  | cons a v ih =>
    cases k with
    | zero => simp [bytesOfReals]
    | succ k =>
      have h : (k + 1) * 4 = (toLE sizeof_real_t a).length + k * 4 := by
        rw [toLE_length]; simp [sizeof_real_t]; omega
      simp only [bytesOfReals, List.flatMap_cons, List.take_succ_cons] at ih ⊢
      rw [h, List.take_append, ih]

theorem toInt32_small (n : Nat) (h : n < 2 ^ 31) : toInt32 n = (n : Int) := by
  unfold toInt32
  have h1 : n % 2 ^ 32 = n := Nat.mod_eq_of_lt (by omega)
  rw [h1, if_pos h]

theorem SaveEntry_some (V_dim : Nat) (save_aux : Bool) (id : Nat) (entry : SGDEntry Nat)
    (v : List Nat) (hV : entry.V = some v) :
    SGDModel.SaveEntry V_dim save_aux id entry =
      toLE sizeof_feaid_t id
        ++ toLE sizeof_int ((1 + b2n save_aux) * 2 * sizeof_real_t
            + (1 + b2n save_aux) * V_dim * sizeof_real_t)
        ++ (toLE sizeof_real_t entry.fea_cnt ++ toLE sizeof_real_t entry.w
            ++ (if save_aux then toLE sizeof_real_t entry.sqrt_g ++ toLE sizeof_real_t entry.z
                else [])
            ++ bytesOfReals (v.take ((1 + b2n save_aux) * V_dim))) := by
  unfold SGDModel.SaveEntry
  simp only [hV, Option.isNone_some, Bool.and_false, Bool.false_and, Bool.false_eq_true, if_false,
    Option.isSome_some, if_true, Option.getD_some]
  have ht : (bytesOfReals v).take ((1 + b2n save_aux) * V_dim * sizeof_real_t)
      = bytesOfReals (v.take ((1 + b2n save_aux) * V_dim)) := bytesOfReals_take v _
  by_cases h0 : (1 + b2n save_aux) * V_dim * sizeof_real_t = 0
  · have h1 : (1 + b2n save_aux) * V_dim = 0 := by
      simpa [sizeof_real_t] using h0
    simp [h0, h1, bytesOfReals]
  · simp only [ne_eq, h0, not_false_eq_true, if_true, ht, List.append_assoc]

theorem mapFind_mapSet {R : Type} (l : List (Nat × SGDEntry R)) (i j : Nat) (e : SGDEntry R) :
    mapFind (mapSet l i e) j = if i = j then some e else mapFind l j := by
  induction l with
  | nil => simp [mapSet, mapFind]
  | cons a l ih =>
    obtain ⟨k, e0⟩ := a
    by_cases hk : k = i
    · subst hk
      by_cases hj : k = j <;> simp [mapSet, mapFind, hj]
    · by_cases hj : k = j
      · subst hj
        have : ¬ i = k := fun h => hk h.symm
        simp [mapSet, mapFind, hk, this]
      · simp [mapSet, mapFind, hk, hj, ih]

@[simp]
theorem SGDModel.set_start {R : Type} (m : SGDModel R) (i : Nat) (e : SGDEntry R) :
    (m.set i e).start_id_ = m.start_id_ := by
  unfold SGDModel.set; split <;> rfl

@[simp]
theorem SGDModel.set_end {R : Type} (m : SGDModel R) (i : Nat) (e : SGDEntry R) :
    (m.set i e).end_id_ = m.end_id_ := by
  unfold SGDModel.set; split <;> rfl

@[simp]
theorem SGDModel.set_V_dim {R : Type} (m : SGDModel R) (i : Nat) (e : SGDEntry R) :
    (m.set i e).V_dim = m.V_dim := by
  unfold SGDModel.set; split <;> rfl

theorem SGDModel.set_wf {R : Type} (m : SGDModel R) (i : Nat) (e : SGDEntry R) (h : m.wf) :
    (m.set i e).wf := by
  unfold SGDModel.wf at *
  unfold SGDModel.set
  split
  · rename_i hd
    intro _
    simpa using h hd
  · rename_i hd
    intro hd2
    exact absurd hd2 hd

theorem SGDModel.find_set_ne {R : Type} [Zero R] (m : SGDModel R) (i j : Nat) (e : SGDEntry R)
    (h : i ≠ j) : (m.set i e).find j = m.find j := by
  unfold SGDModel.set SGDModel.find
  by_cases hd : m.dense_ = true
  · simp [hd, List.getElem?_set_ne h]
  · simp [hd, mapFind_mapSet, h]

theorem SGDModel.find_set_self {R : Type} [Zero R] (m : SGDModel R) (i : Nat)
    (e0 e : SGDEntry R) (h : m.find i = some e0) : (m.set i e).find i = some e := by
  unfold SGDModel.set SGDModel.find at *
  by_cases hd : m.dense_ = true
  · simp only [hd, if_true] at h ⊢
    obtain ⟨hlt, _⟩ := List.getElem?_eq_some.mp h
    exact List.getElem?_set_self hlt
  · simp [hd, mapFind_mapSet]

theorem SGDModel.find_touch {R : Type} [Zero R] (m : SGDModel R) (i j : Nat) (e : SGDEntry R)
    (h : m.find i = some e) : (m.set i e).find j = m.find j := by
  by_cases hij : i = j
  · subst hij
    rw [SGDModel.find_set_self m i e e h, h]
  · exact SGDModel.find_set_ne m i j e hij

theorem SGDModel.find_of_wf {R : Type} [Zero R] (m : SGDModel R) (id : Nat) (h : m.wf)
    (h1 : m.start_id_ ≤ id) (h2 : id < m.end_id_) :
    m.find (id - m.start_id_) = some (m.entry id) := by
  unfold SGDModel.entry
  unfold SGDModel.find
  by_cases hd : m.dense_ = true
  · have hl := h hd
    have hlt : id - m.start_id_ < m.model_vec_.length := by omega
    simp [hd, List.getElem?_eq_getElem hlt]
  · simp [hd]

theorem resize_length {α : Type} (l : List α) (n : Nat) (fill : α) :
    (resize l n fill).length = n := by
  unfold resize
  simp only [List.length_append, List.length_take, List.length_replicate]
  omega

theorem copyInto_length {α : Type} (src : List α) : ∀ (buf : List α) (p : Nat),
    (copyInto buf p src).length = buf.length := by
  induction src with
  | nil => intro buf p; rfl
  | cons x xs ih => intro buf p; simp [copyInto, ih]

theorem take_succ_set {α : Type} (l : List α) (i : Nat) (x : α) (h : i < l.length) :
    (l.set i x).take (i + 1) = l.take i ++ [x] := by
  rw [List.take_succ, List.getElem?_set_self h]
  congr 1
  rw [List.set_eq_take_append_cons_drop, if_pos h, List.take_left' (by simp; omega)]

theorem GetLoop_lens {R : Type} [Zero R] (V_dim : Nat) (f : Nat → Option (SGDEntry R))
    (s : Nat) (ids : List Nat) :
    ∀ (m : SGDModel R) (i p : Nat) (w : List R) (wl : List Int),
      m.start_id_ = s → (∀ j, m.find j = f j) →
      (∀ id ∈ ids, s ≤ id ∧ ∃ e, f (id - s) = some e ∧ ∀ v, e.V = some v → V_dim ≤ v.length) →
      p + ids.length * (1 + V_dim) ≤ w.length →
      (V_dim ≠ 0 → wl.length = i + ids.length) →
      ∃ m' w', SGDOptimizer.GetLoop V_dim m ids i p w wl =
        .ok (m', w', if V_dim = 0 then wl else wl.take i ++ ids.map (fun id =>
          (((if ((f (id - s)).getD SGDEntry.empty).V.isSome then V_dim else 0) + 1 : Nat) : Int))) := by
  induction ids with
  | nil =>
    intro m i p w wl _ _ _ _ hwl
    refine ⟨m, w, ?_⟩
    by_cases hv : V_dim = 0
    · simp [SGDOptimizer.GetLoop, hv]
    · have := hwl hv
      simp only [SGDOptimizer.GetLoop, hv, if_false, List.map_nil, List.append_nil]
      rw [List.take_of_length_le (by simp at this; omega)]
  | cons id ids ih =>
    intro m i p w wl hs hf hids hp hwl
    obtain ⟨hge, e, hfe, hev⟩ := hids id (List.mem_cons_self _ _)
    have hfind : m.find (id - m.start_id_) = some e := by rw [hs, hf, hfe]
    have hidx : m.index id = .ok (e, m.set (id - m.start_id_) e) := by
      unfold SGDModel.index
      rw [if_neg (by rw [hs]; simpa using hge)]
      simp only [hfind]
    have hlen : (id :: ids).length * (1 + V_dim) = ids.length * (1 + V_dim) + (1 + V_dim) := by
      simp [Nat.succ_mul]
    have hplt : p < w.length := by omega
    have hs1 : (m.set (id - m.start_id_) e).start_id_ = s := by simp [hs]
    have hf1 : ∀ j, (m.set (id - m.start_id_) e).find j = f j := fun j => by
      rw [SGDModel.find_touch m _ j e hfind, hf]
    have hids1 : ∀ id' ∈ ids, s ≤ id' ∧ ∃ e, f (id' - s) = some e ∧
        ∀ v, e.V = some v → V_dim ≤ v.length := fun id' h => hids id' (List.mem_cons_of_mem _ h)
    unfold SGDOptimizer.GetLoop
    simp only [hidx]
    rw [if_neg (by simpa using hplt)]
    have hok : ¬ (e.V.isSome = true ∧ ¬ (V_dim ≤ (e.V.getD []).length ∧
        p + 1 + V_dim ≤ (w.set p e.w).length)) := by
      rintro ⟨h1, h2⟩
      apply h2
      obtain ⟨v, hv⟩ := Option.isSome_iff_exists.mp h1
      refine ⟨by simpa [hv] using hev v hv, ?_⟩
      simp only [List.length_set]
      omega
    rw [if_neg hok]
    have hw2 : ∀ (b : Bool), p + 1 + V_dim ≤ w.length →
        (if b = true then p + 1 + V_dim else p + 1) + ids.length * (1 + V_dim)
          ≤ (if b = true then copyInto (w.set p e.w) (p + 1) ((e.V.getD []).take V_dim)
              else w.set p e.w).length := by
      intro b hb
      cases b <;> simp [copyInto_length] <;> omega
    have hpv : p + 1 + V_dim ≤ w.length := by omega
    by_cases hv : V_dim = 0
    · simp only [hv, ne_eq, not_true_eq_false, if_false, if_true]
      have := ih (m.set (id - m.start_id_) e) (i + 1)
        (if e.V.isSome = true then p + 1 + V_dim else p + 1)
        (if e.V.isSome = true then copyInto (w.set p e.w) (p + 1) ((e.V.getD []).take V_dim)
          else w.set p e.w) wl hs1 hf1 hids1 (hw2 _ hpv) (fun h => absurd hv h)
      simpa [hv] using this
    · have hwl' := hwl hv
      have hilt : i < wl.length := by simp at hwl'; omega
      simp only [ne_eq, hv, not_false_eq_true, if_true, if_false]
      rw [if_neg (by simpa using hilt)]
      obtain ⟨m', w', h⟩ := ih (m.set (id - m.start_id_) e) (i + 1)
        (if e.V.isSome = true then p + 1 + V_dim else p + 1)
        (if e.V.isSome = true then copyInto (w.set p e.w) (p + 1) ((e.V.getD []).take V_dim)
          else w.set p e.w)
        (wl.set i (((if e.V.isSome = true then V_dim else 0) + 1 : Nat) : Int)) hs1 hf1 hids1
        (hw2 _ hpv) (fun _ => by simp at hwl' ⊢; omega)
      refine ⟨m', w', ?_⟩
      rw [h]
      simp only [hv, if_false, take_succ_set _ _ _ hilt, List.map_cons, hfe, Option.getD_some,
        List.append_assoc, List.singleton_append]

theorem SGDModel.entry_of_find {R : Type} [Zero R] (m : SGDModel R) (id : Nat) (e : SGDEntry R)
    (h : m.find (id - m.start_id_) = some e) : m.entry id = e := by
  unfold SGDModel.entry
  rw [h, Option.getD_some]

theorem InitV_range {R : Type} [LinearOrderedField R] (r RAND_MAX : Nat) (s : R)
    (h0 : 0 < RAND_MAX) (hr : r ≤ RAND_MAX) (hs : 0 ≤ s) :
    -(s / 2) ≤ ((r : R) / (RAND_MAX : R) - 1 / 2) * s ∧
      ((r : R) / (RAND_MAX : R) - 1 / 2) * s ≤ s / 2 := by
  have hM : (0 : R) < (RAND_MAX : R) := by exact_mod_cast h0
  have hq0 : (0 : R) ≤ (r : R) / (RAND_MAX : R) := div_nonneg (by exact_mod_cast Nat.zero_le r) hM.le
  have hq1 : (r : R) / (RAND_MAX : R) ≤ 1 := by
    rw [div_le_one hM]
    exact_mod_cast hr
  constructor <;> nlinarith

theorem AddCountEntry_w {R : Type} [LinearOrderedField R] (add : R → R → R)
    (rand : Nat → Nat) (RAND_MAX : Nat)
    (param_ : SGDParam R) (rc : Nat) (e : SGDEntry R) (cnt : R) :
    (SGDOptimizer.AddCountEntry add rand RAND_MAX param_ rc e cnt).1.w = e.w := by
  unfold SGDOptimizer.AddCountEntry
  dsimp only
  split <;> simp [SGDOptimizer.InitV]

theorem AddCountEntry_V_of_w_zero {R : Type} [LinearOrderedField R] (add : R → R → R)
    (rand : Nat → Nat)
    (RAND_MAX : Nat) (param_ : SGDParam R) (rc : Nat) (e : SGDEntry R) (cnt : R) (hw : e.w = 0) :
    (SGDOptimizer.AddCountEntry add rand RAND_MAX param_ rc e cnt).1.V = e.V := by
  unfold SGDOptimizer.AddCountEntry
  simp [hw]

theorem AddCountLoop_keeps {R : Type} [LinearOrderedField R] (add : R → R → R)
    (rand : Nat → Nat) (RAND_MAX : Nat)
    (rest : List (Nat × R)) : ∀ (o o' : SGDOptimizer R),
      SGDOptimizer.AddCountLoop add rand RAND_MAX o rest = .ok o' →
      o'.model_.start_id_ = o.model_.start_id_ ∧
      ∀ j, ((o.model_.find j).getD SGDEntry.empty).w = 0 →
        ((o.model_.find j).getD SGDEntry.empty).V = none →
        ((o'.model_.find j).getD SGDEntry.empty).w = 0 ∧
          ((o'.model_.find j).getD SGDEntry.empty).V = none := by
  induction rest with
  | nil =>
    intro o o' h
    simp only [SGDOptimizer.AddCountLoop, Res.ok.injEq] at h
    subst h
    exact ⟨rfl, fun j h1 h2 => ⟨h1, h2⟩⟩
  | cons a rest ih =>
    intro o o' h
    obtain ⟨id, cnt⟩ := a
    unfold SGDOptimizer.AddCountLoop at h
    unfold SGDModel.index at h
    by_cases hge : ¬ (id ≥ o.model_.start_id_)
    · simp [hge] at h
    · rw [if_neg hge] at h
      cases hfind : o.model_.find (id - o.model_.start_id_) with
      | none => simp [hfind] at h
      | some e =>
        simp only [hfind] at h
        obtain ⟨hs, hk⟩ := ih _ _ h
        simp only [SGDModel.set_start] at hs
        refine ⟨hs, ?_⟩
        intro j h1 h2
        apply hk j
        · by_cases hj : id - o.model_.start_id_ = j
          · subst hj
            rw [hfind] at h1
            simp only [SGDModel.set_start]
            rw [SGDModel.find_set_self _ _ e _ (SGDModel.find_set_self _ _ e _ hfind)]
            simpa [AddCountEntry_w] using h1
          · simp only [SGDModel.set_start]
            rw [SGDModel.find_set_ne _ _ _ _ hj, SGDModel.find_set_ne _ _ _ _ hj]
            exact h1
        · by_cases hj : id - o.model_.start_id_ = j
          · subst hj
            rw [hfind] at h1 h2
            simp only [SGDModel.set_start]
            rw [SGDModel.find_set_self _ _ e _ (SGDModel.find_set_self _ _ e _ hfind)]
            simp only [Option.getD_some] at h1 h2 ⊢
            rw [AddCountEntry_V_of_w_zero _ _ _ _ _ _ _ h1]
            exact h2
          · simp only [SGDModel.set_start]
            rw [SGDModel.find_set_ne _ _ _ _ hj, SGDModel.find_set_ne _ _ _ _ hj]
            exact h2

theorem readObj_append (old n : Nat) (P rest : List Nat) (h : n + 4 ≤ P.length) :
    readObj sizeof_real_t old ((P ++ rest).drop n)
      = (fromLE ((P.drop n).take 4), (P ++ rest).drop (n + 4)) := by
  unfold readObj
  have h1 : (P ++ rest).drop n = P.drop n ++ rest :=
    List.drop_append_of_le_length (by omega)
  have h2 : (P.drop n ++ rest).take 4 = (P.drop n).take 4 :=
    List.take_append_of_le_length (by simp; omega)
  have h3 : ((P.drop n).take 4).length = 4 := by simp; omega
  simp only [sizeof_real_t, h1, h2, h3]
  have h4 : (toLE 4 old).drop 4 = [] := List.drop_of_length_le (by simp [toLE_length])
  rw [h4, List.append_nil, ← h1, List.drop_drop]

theorem LoadEntry_scalarOnly (V_dim : Nat) (fresh : Nat → Nat) (r : Record) (rest : List Nat)
    (e : SGDEntry Nat) (hwf : r.wellFormed) (hs : r.scalarOnly) :
    SGDModel.LoadEntry V_dim fresh (r.payload ++ rest) r.len e
      = .ok (r.decodeScalars e, rest) := by
  obtain ⟨_, _, _, hlen⟩ := hwf
  have h0 : r.payload ++ rest = (r.payload ++ rest).drop 0 := rfl
  rcases hs with h | h
  · rw [h] at hlen
    have hl : r.payload.length = 16 := by simpa using hlen
    have e1 := readObj_append e.fea_cnt 0 r.payload rest (by omega)
    have e2 := readObj_append e.w 4 r.payload rest (by omega)
    have e3 := readObj_append e.sqrt_g 8 r.payload rest (by omega)
    have e4 := readObj_append e.z 12 r.payload rest (by omega)
    have e5 : (r.payload ++ rest).drop 16 = rest := List.drop_left' hl
    simp only [List.drop_zero, Nat.zero_add, sizeof_real_t, Nat.reduceAdd] at e1 e2 e3 e4
    unfold SGDModel.LoadEntry Record.decodeScalars
    simp only [sizeof_real_t, h, e1, e2, e3, e4, e5]
    simp [INT_MIN, e1, e2, e3, e4, e5]
  · rw [h] at hlen
    have hl : r.payload.length = 8 := by simpa using hlen
    have e1 := readObj_append e.fea_cnt 0 r.payload rest (by omega)
    have e2 := readObj_append e.w 4 r.payload rest (by omega)
    have e5 : (r.payload ++ rest).drop 8 = rest := List.drop_left' hl
    simp only [List.drop_zero, Nat.zero_add, sizeof_real_t, Nat.reduceAdd] at e1 e2
    unfold SGDModel.LoadEntry Record.decodeScalars
    simp only [sizeof_real_t, h, e1, e2, e5]
    simp [INT_MIN, e1, e2, e5]

theorem abs_toNat (len : Int) : (if len > 0 then len else -len).toNat = len.natAbs := by
  split <;> omega

theorem Record.header (r : Record) (rest : List Nat) (hwf : r.wellFormed) :
    ¬ (r.encode ++ rest).length = 0
    ∧ ¬ (r.encode ++ rest).length < sizeof_feaid_t + sizeof_int
    ∧ fromLE ((r.encode ++ rest).take sizeof_feaid_t) = r.id
    ∧ toInt32 (fromLE (((r.encode ++ rest).drop sizeof_feaid_t).take sizeof_int)) = r.len
    ∧ (r.encode ++ rest).drop (sizeof_feaid_t + sizeof_int) = r.payload ++ rest := by
  obtain ⟨hid, hl1, hl2, _⟩ := hwf
  have h8 : (toLE sizeof_feaid_t r.id).length = sizeof_feaid_t := toLE_length _ _
  have h4 : (toLE sizeof_int (ofInt32 r.len)).length = sizeof_int := toLE_length _ _
  have hlen : (r.encode ++ rest).length = 12 + (r.payload.length + rest.length) := by
    simp only [Record.encode, List.length_append, toLE_length, sizeof_feaid_t, sizeof_int]
    omega
  have hassoc : r.encode ++ rest
      = toLE sizeof_feaid_t r.id ++ (toLE sizeof_int (ofInt32 r.len) ++ (r.payload ++ rest)) := by
    simp only [Record.encode, List.append_assoc]
  refine ⟨by omega, by simp only [sizeof_feaid_t, sizeof_int]; omega, ?_, ?_, ?_⟩
  · rw [hassoc, List.take_left' h8, fromLE_toLE]
    apply Nat.mod_eq_of_lt
    simp only [sizeof_feaid_t]
    omega
  · rw [hassoc, List.drop_left' h8, List.take_left' h4, fromLE_toLE]
    have hlt : ofInt32 r.len < 2 ^ 32 := by
      unfold ofInt32
      have := Int.emod_lt_of_pos r.len (show (0 : Int) < 2 ^ 32 by norm_num)
      have := Int.emod_nonneg r.len (show (2 ^ 32 : Int) ≠ 0 by norm_num)
      omega
    rw [Nat.mod_eq_of_lt (by simp only [sizeof_int]; omega)]
    exact toInt32_ofInt32 _ (by omega) hl2
  · rw [hassoc, ← List.append_assoc]
    apply List.drop_left'
    simp [h8, h4]

theorem LoadLoop_skip (fresh : Nat → Nat) (f : Nat) (m : SGDModel Nat) (first has_aux : Bool)
    (r : Record) (rest : List Nat) (hwf : r.wellFormed) (hout : r.inRange m = false)
    (hsz : r.len.natAbs < (m.V_dim * 2 + 10) * sizeof_real_t) :
    SGDModel.LoadLoop fresh (f + 1) m first has_aux (r.encode ++ rest)
      = SGDModel.LoadLoop fresh f m first has_aux rest := by
  obtain ⟨h0, h12, hid, hlen, hdrop⟩ := Record.header r rest hwf
  have hrange : r.id < m.start_id_ ∨ r.id ≥ m.end_id_ := by
    unfold Record.inRange at hout
    simp only [decide_eq_false_iff_not, not_and_or, not_le, not_lt] at hout
    exact hout
  have hmin : ¬ r.len = INT_MIN := by
    unfold INT_MIN
    have := hwf.2.1
    omega
  rw [SGDModel.LoadLoop]
  simp only [h0, h12, hid, hlen, hdrop, if_false, hrange, if_true, hmin, abs_toNat, hsz,
    not_true_eq_false]
  rw [List.drop_left' hwf.2.2.2]

theorem LoadLoop_load (fresh : Nat → Nat) (f : Nat) (m : SGDModel Nat) (first has_aux : Bool)
    (r : Record) (rest : List Nat) (hwf : r.wellFormed) (hin : r.inRange m = true)
    (hs : r.scalarOnly) :
    SGDModel.LoadLoop fresh (f + 1) m first has_aux (r.encode ++ rest)
      = match m.find (r.id - m.start_id_) with
        | none => .undef
        | some e =>
          if !first ∧ decide (r.len > 0) ≠ has_aux then .fatal
          else SGDModel.LoadLoop fresh f (m.set (r.id - m.start_id_) (r.decodeScalars e)) false
            (decide (r.len > 0)) rest := by
  obtain ⟨h0, h12, hid, hlen, hdrop⟩ := Record.header r rest hwf
  have hrange : ¬ (r.id < m.start_id_ ∨ r.id ≥ m.end_id_) := by
    unfold Record.inRange at hin
    simp only [decide_eq_true_eq] at hin
    omega
  rw [SGDModel.LoadLoop]
  simp only [h0, h12, hid, hlen, hdrop, if_false, hrange]
  cases m.find (r.id - m.start_id_) with
  | none => rfl
  | some e => simp only [LoadEntry_scalarOnly m.V_dim fresh r rest e hwf hs]

@[simp]
theorem Record.inRange_set (m : SGDModel Nat) (i : Nat) (e : SGDEntry Nat) (r : Record) :
    r.inRange (m.set i e) = r.inRange m := by
  simp [Record.inRange]

theorem Record.inRange_set_fun (m : SGDModel Nat) (i : Nat) (e : SGDEntry Nat) :
    Record.inRange (m.set i e) = Record.inRange m := by
  funext r
  exact Record.inRange_set m i e r

theorem Record.encode_length (r : Record) : 12 ≤ r.encode.length := by
  simp only [Record.encode, List.length_append, toLE_length, sizeof_feaid_t, sizeof_int]
  omega

theorem encodeRecords_cons (r : Record) (rs : List Record) :
    encodeRecords (r :: rs) = r.encode ++ encodeRecords rs := by
  simp [encodeRecords]

theorem LoadLoop_filter (fresh : Nat → Nat) (rs : List Record) :
    ∀ (m : SGDModel Nat) (first has_aux : Bool) (f g : Nat),
      (∀ r ∈ rs, r.wellFormed) →
      (∀ r ∈ rs, r.inRange m = false → r.len.natAbs < (m.V_dim * 2 + 10) * sizeof_real_t) →
      (∀ r ∈ rs, r.inRange m = true → r.scalarOnly) →
      (encodeRecords rs).length < f →
      (encodeRecords (rs.filter (Record.inRange m))).length < g →
      SGDModel.LoadLoop fresh f m first has_aux (encodeRecords rs)
        = SGDModel.LoadLoop fresh g m first has_aux
            (encodeRecords (rs.filter (Record.inRange m))) := by
  induction rs with
  | nil =>
    intro m first has_aux f g _ _ _ hf hg
    cases f with
    | zero => omega
    | succ f =>
      cases g with
      | zero => omega
      | succ g => simp [encodeRecords, SGDModel.LoadLoop]
  | cons r rs ih =>
    intro m first has_aux f g hwf hout hin hf hg
    have hwf' : ∀ r' ∈ rs, r'.wellFormed := fun r' h => hwf r' (List.mem_cons_of_mem _ h)
    have hout' : ∀ r' ∈ rs, r'.inRange m = false →
        r'.len.natAbs < (m.V_dim * 2 + 10) * sizeof_real_t :=
      fun r' h => hout r' (List.mem_cons_of_mem _ h)
    have hin' : ∀ r' ∈ rs, r'.inRange m = true → r'.scalarOnly :=
      fun r' h => hin r' (List.mem_cons_of_mem _ h)
    have hr := Record.encode_length r
    rw [encodeRecords_cons, List.length_append] at hf
    cases f with
    | zero => omega
    | succ f =>
      rw [encodeRecords_cons]
      cases hrange : r.inRange m with
      | false =>
        rw [LoadLoop_skip fresh f m first has_aux r _ (hwf r (List.mem_cons_self _ _)) hrange
          (hout r (List.mem_cons_self _ _) hrange)]
        rw [List.filter_cons_of_neg (by simp [hrange])] at hg ⊢
        exact ih m first has_aux f g hwf' hout' hin' (by omega) hg
      | true =>
        rw [List.filter_cons_of_pos hrange] at hg ⊢
        rw [encodeRecords_cons, List.length_append] at hg
        cases g with
        | zero => omega
        | succ g =>
          rw [encodeRecords_cons]
          rw [LoadLoop_load fresh f m first has_aux r _ (hwf r (List.mem_cons_self _ _)) hrange
              (hin r (List.mem_cons_self _ _) hrange),
            LoadLoop_load fresh g m first has_aux r _ (hwf r (List.mem_cons_self _ _)) hrange
              (hin r (List.mem_cons_self _ _) hrange)]
          cases m.find (r.id - m.start_id_) with
          | none => rfl
          | some e =>
            dsimp only
            split
            · rfl
            · have := ih (m.set (r.id - m.start_id_) (r.decodeScalars e)) false
                (decide (r.len > 0)) f g hwf'
                (by simpa using hout') (by simpa using hin') (by omega)
                (by rw [Record.inRange_set_fun]; omega)
              rw [Record.inRange_set_fun] at this
              exact this

theorem auxAgree_false (h : Bool) (bs : List Bool) :
    auxAgree false h bs = true ↔ ∀ b ∈ bs, b = h := by
  induction bs generalizing h with
  | nil => simp [auxAgree]
  | cons b bs ih =>
    simp only [auxAgree, Bool.false_or, Bool.and_eq_true, beq_iff_eq, ih, List.mem_cons,
      forall_eq_or_imp]
    constructor
    · rintro ⟨h1, h2⟩
      exact ⟨h1, fun x hx => (h2 x hx).trans h1⟩
    · rintro ⟨h1, h2⟩
      exact ⟨h1, fun x hx => (h2 x hx).trans h1.symm⟩

theorem auxAgree_true (h : Bool) (bs : List Bool) :
    auxAgree true h bs = true ↔ ∀ b1 ∈ bs, ∀ b2 ∈ bs, b1 = b2 := by
  cases bs with
  | nil => simp [auxAgree]
  | cons b bs =>
    have h0 : auxAgree true h (b :: bs) = auxAgree false b bs := by simp [auxAgree]
    rw [h0, auxAgree_false]
    constructor
    · intro h1 b1 hb1 b2 hb2
      have e1 : b1 = b := by
        rcases List.mem_cons.mp hb1 with h' | h'
        · exact h'
        · exact h1 _ h'
      have e2 : b2 = b := by
        rcases List.mem_cons.mp hb2 with h' | h'
        · exact h'
        · exact h1 _ h'
      exact e1.trans e2.symm
    · intro h1 x hx
      exact h1 x (List.mem_cons_of_mem _ hx) b (List.mem_cons_self _ _)

theorem auxFinal_const (h : Bool) (bs : List Bool) (hb : ∀ b ∈ bs, b = h) :
    auxFinal h bs = h := by
  induction bs with
  | nil => rfl
  | cons b bs ih =>
    have hbh : b = h := hb b (List.mem_cons_self _ _)
    subst hbh
    exact ih (fun x hx => hb x (List.mem_cons_of_mem _ hx))

theorem auxFinal_of_agree (first h : Bool) (bs : List Bool) (ha : auxAgree first h bs = true) :
    ∀ b ∈ bs, b = auxFinal h bs := by
  cases bs with
  | nil => simp
  | cons b bs =>
    simp only [auxAgree, Bool.and_eq_true] at ha
    have hall := (auxAgree_false b bs).mp ha.2
    intro x hx
    simp only [auxFinal, auxFinal_const b bs hall]
    rcases List.mem_cons.mp hx with rfl | hx
    · rfl
    · exact hall x hx

theorem auxFlags_set (m : SGDModel Nat) (i : Nat) (e : SGDEntry Nat) (rs : List Record) :
    auxFlags (m.set i e) rs = auxFlags m rs := by
  unfold auxFlags
  rw [Record.inRange_set_fun]

theorem mem_auxFlags (m : SGDModel Nat) (rs : List Record) (b : Bool) :
    b ∈ auxFlags m rs ↔ ∃ r ∈ rs, r.inRange m = true ∧ decide (r.len > 0) = b := by
  unfold auxFlags
  simp only [List.mem_map, List.mem_filter]
  constructor
  · rintro ⟨r, ⟨h1, h2⟩, h3⟩
    exact ⟨r, h1, h2, h3⟩
  · rintro ⟨r, h1, h2, h3⟩
    exact ⟨r, ⟨h1, h2⟩, h3⟩

theorem LoadLoop_aux (fresh : Nat → Nat) (rs : List Record) :
    ∀ (m : SGDModel Nat) (first has_aux : Bool) (f : Nat), m.wf →
      (∀ r ∈ rs, r.wellFormed) →
      (∀ r ∈ rs, r.inRange m = false → r.len.natAbs < (m.V_dim * 2 + 10) * sizeof_real_t) →
      (∀ r ∈ rs, r.inRange m = true → r.scalarOnly) →
      (encodeRecords rs).length < f →
      (auxAgree first has_aux (auxFlags m rs) = true →
        ∃ m', SGDModel.LoadLoop fresh f m first has_aux (encodeRecords rs)
          = .ok (m', auxFinal has_aux (auxFlags m rs)))
      ∧ (auxAgree first has_aux (auxFlags m rs) = false →
        SGDModel.LoadLoop fresh f m first has_aux (encodeRecords rs) = .fatal) := by
  induction rs with
  | nil =>
    intro m first has_aux f _ _ _ _ hf
    cases f with
    | zero => omega
    | succ f =>
      refine ⟨fun _ => ⟨m, ?_⟩, fun h => ?_⟩
      · simp [encodeRecords, SGDModel.LoadLoop, auxFlags, auxFinal]
      · simp [auxFlags, auxAgree] at h
  | cons r rs ih =>
    intro m first has_aux f hm hwf hout hin hf
    have hwf' : ∀ r' ∈ rs, r'.wellFormed := fun r' h => hwf r' (List.mem_cons_of_mem _ h)
    have hout' : ∀ r' ∈ rs, r'.inRange m = false →
        r'.len.natAbs < (m.V_dim * 2 + 10) * sizeof_real_t :=
      fun r' h => hout r' (List.mem_cons_of_mem _ h)
    have hin' : ∀ r' ∈ rs, r'.inRange m = true → r'.scalarOnly :=
      fun r' h => hin r' (List.mem_cons_of_mem _ h)
    have hr := Record.encode_length r
    rw [encodeRecords_cons, List.length_append] at hf
    cases f with
    | zero => omega
    | succ f =>
      rw [encodeRecords_cons]
      cases hrange : r.inRange m with
      | false =>
        rw [LoadLoop_skip fresh f m first has_aux r _ (hwf r (List.mem_cons_self _ _)) hrange
          (hout r (List.mem_cons_self _ _) hrange)]
        have hfl : auxFlags m (r :: rs) = auxFlags m rs := by
          unfold auxFlags
          rw [List.filter_cons_of_neg (by simp [hrange])]
        rw [hfl]
        exact ih m first has_aux f hm hwf' hout' hin' (by omega)
      | true =>
        have hfl : auxFlags m (r :: rs) = decide (r.len > 0) :: auxFlags m rs := by
          unfold auxFlags
          rw [List.filter_cons_of_pos hrange, List.map_cons]
        have hb : m.start_id_ ≤ r.id ∧ r.id < m.end_id_ := by
          unfold Record.inRange at hrange
          simpa using hrange
        rw [hfl, LoadLoop_load fresh f m first has_aux r _ (hwf r (List.mem_cons_self _ _)) hrange
          (hin r (List.mem_cons_self _ _) hrange), SGDModel.find_of_wf m r.id hm hb.1 hb.2]
        dsimp only
        have ih' := ih (m.set (r.id - m.start_id_) (r.decodeScalars (m.entry r.id))) false
          (decide (r.len > 0)) f (SGDModel.set_wf _ _ _ hm) hwf'
          (by simpa using hout') (by simpa using hin') (by omega)
        rw [auxFlags_set] at ih'
        simp only [auxAgree, auxFinal]
        by_cases hc : (!first) = true ∧ decide (r.len > 0) ≠ has_aux
        · rw [if_pos hc]
          obtain ⟨h1, h2⟩ := hc
          have h3 : first = false := by simpa using h1
          have h4 : (decide (r.len > 0) == has_aux) = false := by simpa using h2
          simp [h3, h4]
        · rw [if_neg hc]
          have h5 : (first || decide (r.len > 0) == has_aux) = true := by
            cases first
            · simp only [Bool.not_false, true_and, ne_eq, not_not] at hc
              simp [hc]
            · rfl
          rw [h5, Bool.true_and]
          exact ih'

theorem readObj_snd (k old : Nat) (fi : List Nat) : (readObj k old fi).2 = fi.drop k := rfl

theorem LoadEntry_rest (V_dim : Nat) (fresh : Nat → Nat) (fi : List Nat) (len : Int)
    (e : SGDEntry Nat) :
    SGDModel.LoadEntry V_dim fresh fi len e ≠ .nofuel ∧
      ∀ e1 fi2, SGDModel.LoadEntry V_dim fresh fi len e = .ok (e1, fi2) →
        fi2.length ≤ fi.length := by
  unfold SGDModel.LoadEntry
  dsimp only
  by_cases h1 : len = INT_MIN
  · simp [h1]
  · rw [if_neg h1]
    generalize (if len > 0 then len else -len).toNat / sizeof_real_t = len1
    by_cases h2 : ¬ (len1 ≥ 2)
    · simp [h2]
    · rw [if_neg h2]
      by_cases ha : decide (len > 0) = true
      · simp only [ha, if_true, true_and, readObj_snd]
        by_cases h3 : ¬ (len1 - 2 ≥ 2)
        · simp [h3]
        · rw [if_neg h3]
          by_cases h4 : len1 - 2 - 2 > 0
          · rw [if_pos h4]
            by_cases h5 : ¬ (len1 - 2 - 2 = V_dim * (1 + b2n true))
            · simp [h5]
            · rw [if_neg h5]
              refine ⟨by simp, ?_⟩
              intro e1 fi2 h
              simp only [Res.ok.injEq, Prod.mk.injEq] at h
              rw [← h.2]
              simp only [List.length_drop]
              omega
          · rw [if_neg h4]
            refine ⟨by simp, ?_⟩
            intro e1 fi2 h
            simp only [Res.ok.injEq, Prod.mk.injEq] at h
            rw [← h.2]
            simp only [List.length_drop]
            omega
      · simp only [ha, if_false, false_and, readObj_snd, Bool.false_eq_true]
        by_cases h4 : len1 - 2 > 0
        · rw [if_pos h4]
          by_cases h5 : ¬ (len1 - 2 = V_dim * (1 + b2n false))
          · simp [h5]
          · rw [if_neg h5]
            refine ⟨by simp, ?_⟩
            intro e1 fi2 h
            simp only [Res.ok.injEq, Prod.mk.injEq] at h
            rw [← h.2]
            simp only [List.length_drop]
            omega
        · rw [if_neg h4]
          refine ⟨by simp, ?_⟩
          intro e1 fi2 h
          simp only [Res.ok.injEq, Prod.mk.injEq] at h
          rw [← h.2]
          simp only [List.length_drop]
          omega

theorem LoadLoop_fuel (fresh : Nat → Nat) : ∀ (f : Nat) (m : SGDModel Nat) (first has_aux : Bool)
    (fi : List Nat), fi.length < f →
    SGDModel.LoadLoop fresh f m first has_aux fi ≠ .nofuel := by
  intro f
  induction f with
  | zero => intro m first has_aux fi h; omega
  | succ f ih =>
    intro m first has_aux fi h
    rw [SGDModel.LoadLoop]
    dsimp only
    by_cases h0 : fi.length = 0
    · simp [h0]
    rw [if_neg h0]
    by_cases h12 : fi.length < sizeof_feaid_t + sizeof_int
    · simp [h12]
    rw [if_neg h12]
    simp only [sizeof_feaid_t, sizeof_int] at h12
    by_cases hr : fromLE (fi.take sizeof_feaid_t) < m.start_id_
        ∨ fromLE (fi.take sizeof_feaid_t) ≥ m.end_id_
    · rw [if_pos hr]
      by_cases hmin : toInt32 (fromLE ((fi.drop sizeof_feaid_t).take sizeof_int)) = INT_MIN
      · simp [hmin]
      rw [if_neg hmin]
      generalize (if toInt32 (fromLE ((fi.drop sizeof_feaid_t).take sizeof_int)) > 0
        then toInt32 (fromLE ((fi.drop sizeof_feaid_t).take sizeof_int))
        else -toInt32 (fromLE ((fi.drop sizeof_feaid_t).take sizeof_int))).toNat = len1
      by_cases hsz : ¬ (len1 < (m.V_dim * 2 + 10) * sizeof_real_t)
      · simp [hsz]
      rw [if_neg hsz]
      apply ih
      simp only [List.length_drop, sizeof_feaid_t, sizeof_int]
      omega
    · rw [if_neg hr]
      cases hfind : m.find (fromLE (fi.take sizeof_feaid_t) - m.start_id_) with
      | none => simp
      | some e =>
        dsimp only
        obtain ⟨hne, hle⟩ := LoadEntry_rest m.V_dim fresh
          (fi.drop (sizeof_feaid_t + sizeof_int))
          (toInt32 (fromLE ((fi.drop sizeof_feaid_t).take sizeof_int))) e
        cases hL : SGDModel.LoadEntry m.V_dim fresh (fi.drop (sizeof_feaid_t + sizeof_int))
          (toInt32 (fromLE ((fi.drop sizeof_feaid_t).take sizeof_int))) e with
        | ok a =>
          obtain ⟨e1, fi2⟩ := a
          dsimp only
          have := hle e1 fi2 hL
          simp only [List.length_drop, sizeof_feaid_t, sizeof_int] at this
          split
          · simp
          · apply ih
            omega
        | fatal => simp
        | undef => simp
        | nofuel => exact absurd hL hne

/-! ## Lemmas on Update -/

theorem UpdateW_entry {R : Type} [LinearOrderedField R] (sqrt : R → R) (rand : Nat → Nat)
    (RAND_MAX : Nat) (param_ : SGDParam R) (new_w_ : Int) (rand_calls : Nat) (gw : R)
    (e : SGDEntry R) :
    (SGDOptimizer.UpdateW sqrt rand RAND_MAX param_ new_w_ rand_calls gw e).1.fea_cnt = e.fea_cnt
    ∧ (SGDOptimizer.UpdateW sqrt rand RAND_MAX param_ new_w_ rand_calls gw e).1.w
        = (SGDOptimizer.UpdateW_shrink sqrt param_ gw e).w
    ∧ (SGDOptimizer.UpdateW sqrt rand RAND_MAX param_ new_w_ rand_calls gw e).1.sqrt_g
        = (SGDOptimizer.UpdateW_shrink sqrt param_ gw e).sqrt_g
    ∧ (SGDOptimizer.UpdateW sqrt rand RAND_MAX param_ new_w_ rand_calls gw e).1.z
        = (SGDOptimizer.UpdateW_shrink sqrt param_ gw e).z := by
  unfold SGDOptimizer.UpdateW
  dsimp only
  have hf : (SGDOptimizer.UpdateW_shrink sqrt param_ gw e).fea_cnt = e.fea_cnt := rfl
  generalize SGDOptimizer.UpdateW_shrink sqrt param_ gw e = e1 at hf ⊢
  by_cases h1 : e.w = 0 ∧ e1.w ≠ 0
  · rw [if_pos h1]
    by_cases h2 : e1.V = none ∧ e1.fea_cnt > param_.V_threshold
    · rw [if_pos h2]
      exact ⟨hf, rfl, rfl, rfl⟩
    · rw [if_neg h2]
      exact ⟨hf, rfl, rfl, rfl⟩
  · rw [if_neg h1]
    by_cases h3 : e.w ≠ 0 ∧ e1.w = 0
    · rw [if_pos h3]
      exact ⟨hf, rfl, rfl, rfl⟩
    · rw [if_neg h3]
      exact ⟨hf, rfl, rfl, rfl⟩

theorem UpdateW_V {R : Type} [LinearOrderedField R] (sqrt : R → R) (rand : Nat → Nat)
    (RAND_MAX : Nat) (param_ : SGDParam R) (new_w_ : Int) (rand_calls : Nat) (gw : R)
    (e : SGDEntry R) :
    ((SGDOptimizer.UpdateW sqrt rand RAND_MAX param_ new_w_ rand_calls gw e).1.V = e.V
      ∧ (SGDOptimizer.UpdateW sqrt rand RAND_MAX param_ new_w_ rand_calls gw e).2.2 = rand_calls)
    ∨ (e.V = none
      ∧ ∃ v, (SGDOptimizer.UpdateW sqrt rand RAND_MAX param_ new_w_ rand_calls gw e).1.V = some v
        ∧ v.length = 2 * param_.V_dim) := by
  unfold SGDOptimizer.UpdateW
  dsimp only
  have hf : (SGDOptimizer.UpdateW_shrink sqrt param_ gw e).V = e.V := rfl
  generalize SGDOptimizer.UpdateW_shrink sqrt param_ gw e = e1 at hf ⊢
  by_cases h1 : e.w = 0 ∧ e1.w ≠ 0
  · rw [if_pos h1]
    by_cases h2 : e1.V = none ∧ e1.fea_cnt > param_.V_threshold
    · rw [if_pos h2]
      right
      refine ⟨hf ▸ h2.1, _, rfl, ?_⟩
      simp
      omega
    · rw [if_neg h2]
      exact Or.inl ⟨hf, rfl⟩
  · rw [if_neg h1]
    by_cases h3 : e.w ≠ 0 ∧ e1.w = 0
    · rw [if_pos h3]
      exact Or.inl ⟨hf, rfl⟩
    · rw [if_neg h3]
      exact Or.inl ⟨hf, rfl⟩

theorem UpdateW_counter {R : Type} [LinearOrderedField R] (sqrt : R → R) (rand : Nat → Nat)
    (RAND_MAX : Nat) (param_ : SGDParam R) (new_w_ : Int) (rand_calls : Nat) (gw : R)
    (e : SGDEntry R) :
    (SGDOptimizer.UpdateW sqrt rand RAND_MAX param_ new_w_ rand_calls gw e).2.1
      = new_w_ + (if e.w = 0
            ∧ (SGDOptimizer.UpdateW sqrt rand RAND_MAX param_ new_w_ rand_calls gw e).1.w ≠ 0
          then 1
          else if e.w ≠ 0
            ∧ (SGDOptimizer.UpdateW sqrt rand RAND_MAX param_ new_w_ rand_calls gw e).1.w = 0
          then -1 else 0) := by
  rw [(UpdateW_entry sqrt rand RAND_MAX param_ new_w_ rand_calls gw e).2.1]
  unfold SGDOptimizer.UpdateW
  dsimp only
  generalize SGDOptimizer.UpdateW_shrink sqrt param_ gw e = e1
  by_cases h1 : e.w = 0 ∧ e1.w ≠ 0
  · rw [if_pos h1, if_pos h1]
    by_cases h2 : e1.V = none ∧ e1.fea_cnt > param_.V_threshold
    · rw [if_pos h2]
    · rw [if_neg h2]
  · rw [if_neg h1, if_neg h1]
    by_cases h3 : e.w ≠ 0 ∧ e1.w = 0
    · rw [if_pos h3, if_pos h3]
      rfl
    · rw [if_neg h3, if_neg h3]
      simp

theorem getD_set_ne {α : Type} (l : List α) (a b : Nat) (x d : α) (h : a ≠ b) :
    (l.set a x).getD b d = l.getD b d := by
  rw [List.getD_eq_getElem?_getD, List.getD_eq_getElem?_getD, List.getElem?_set_ne h]

theorem getD_set_eq {α : Type} (l : List α) (a : Nat) (x d : α) (h : a < l.length) :
    (l.set a x).getD a d = x := by
  rw [List.getD_eq_getElem?_getD, List.getElem?_set_self h, Option.getD_some]

theorem UpdateVStep_ok {R : Type} [LinearOrderedField R] (sqrt : R → R) (param_ : SGDParam R)
    (gV v : List R) (i : Nat) (hi : i < param_.V_dim) (hv : v.length = 2 * param_.V_dim)
    (hg : param_.V_dim ≤ gV.length) :
    SGDOptimizer.UpdateVStep sqrt param_ gV v i
      = .ok ((v.set (i + param_.V_dim)
          (sqrt (v.getD (i + param_.V_dim) 0 * v.getD (i + param_.V_dim) 0
            + (gV.getD i 0 + param_.V_l2 * v.getD i 0)
              * (gV.getD i 0 + param_.V_l2 * v.getD i 0)))).set i
          (v.getD i 0
            - param_.V_lr / (sqrt (v.getD (i + param_.V_dim) 0 * v.getD (i + param_.V_dim) 0
                + (gV.getD i 0 + param_.V_l2 * v.getD i 0)
                  * (gV.getD i 0 + param_.V_l2 * v.getD i 0)) + param_.V_lr_beta)
              * (gV.getD i 0 + param_.V_l2 * v.getD i 0))) := by
  have h1 : i < gV.length := by omega
  have h2 : i < v.length := by omega
  have h3 : i + param_.V_dim < v.length := by omega
  unfold SGDOptimizer.UpdateVStep
  simp only [List.getElem?_eq_getElem h1, List.getElem?_eq_getElem h2,
    List.getElem?_eq_getElem h3, List.getD_eq_getElem _ _ h1, List.getD_eq_getElem _ _ h2,
    List.getD_eq_getElem _ _ h3]

theorem UpdateVLoop_spec {R : Type} [LinearOrderedField R] (sqrt : R → R) (param_ : SGDParam R)
    (gV : List R) (hg : param_.V_dim ≤ gV.length) :
    ∀ (k i : Nat) (v : List R), i + k = param_.V_dim → v.length = 2 * param_.V_dim →
      ∃ v', SGDOptimizer.UpdateVLoop sqrt param_ gV k i v = .ok v'
        ∧ v'.length = 2 * param_.V_dim
        ∧ (∀ j, j < i → v'.getD (j + param_.V_dim) 0 = v.getD (j + param_.V_dim) 0)
        ∧ (∀ j, i ≤ j → j < param_.V_dim →
            v'.getD (j + param_.V_dim) 0
              = sqrt (v.getD (j + param_.V_dim) 0 * v.getD (j + param_.V_dim) 0
                + (gV.getD j 0 + param_.V_l2 * v.getD j 0)
                  * (gV.getD j 0 + param_.V_l2 * v.getD j 0))) := by
  intro k
  induction k with
  | zero =>
    intro i v hik hv
    exact ⟨v, rfl, hv, fun _ _ => rfl, fun j h1 h2 => by omega⟩
  | succ k ih =>
    intro i v hik hv
    have hi : i < param_.V_dim := by omega
    rw [SGDOptimizer.UpdateVLoop, UpdateVStep_ok sqrt param_ gV v i hi hv hg]
    dsimp only
    obtain ⟨v', hok, hlen, hlt, hge⟩ := ih (i + 1) _ (by omega)
      (show ((v.set (i + param_.V_dim) _).set i _).length = 2 * param_.V_dim by
        simp only [List.length_set, hv])
    refine ⟨v', hok, hlen, ?_, ?_⟩
    · intro j hj
      rw [hlt j (by omega), getD_set_ne _ _ _ _ _ (by omega), getD_set_ne _ _ _ _ _ (by omega)]
    · intro j hj1 hj2
      by_cases hji : j = i
      · subst hji
        rw [hlt j (by omega), getD_set_ne _ _ _ _ _ (by omega),
          getD_set_eq _ _ _ _ (by omega)]
      · rw [hge j (by omega) hj2, getD_set_ne _ _ _ _ _ (by omega),
          getD_set_ne _ _ _ _ _ (by omega), getD_set_ne _ _ _ _ _ (by omega),
          getD_set_ne _ _ _ _ _ (by omega)]

theorem UpdateV_spec {R : Type} [LinearOrderedField R] (sqrt : R → R) (param_ : SGDParam R)
    (gV : List R) (e : SGDEntry R) (v : List R) (hV : e.V = some v)
    (hlen : v.length = 2 * param_.V_dim) (hg : param_.V_dim ≤ gV.length) :
    ∃ v', SGDOptimizer.UpdateV sqrt param_ gV e = .ok { e with V := some v' }
      ∧ v'.length = 2 * param_.V_dim
      ∧ (∀ j, j < param_.V_dim →
          v'.getD (j + param_.V_dim) 0
            = sqrt (v.getD (j + param_.V_dim) 0 * v.getD (j + param_.V_dim) 0
              + (gV.getD j 0 + param_.V_l2 * v.getD j 0)
                * (gV.getD j 0 + param_.V_l2 * v.getD j 0))) := by
  unfold SGDOptimizer.UpdateV
  by_cases h0 : param_.V_dim = 0
  · rw [if_pos h0]
    refine ⟨v, ?_, hlen, fun j hj => by omega⟩
    cases e
    simp only at hV
    subst hV
    rfl
  · rw [if_neg h0]
    obtain ⟨v', hok, hl, _, hge⟩ := UpdateVLoop_spec sqrt param_ gV hg param_.V_dim 0 v
      (by omega) hlen
    refine ⟨v', ?_, hl, fun j hj => hge j (Nat.zero_le _) hj⟩
    simp only [hV, hok]

theorem UpdateVs_spec (param_ : SGDParam ℝ) (gs : List (List ℝ)) :
    ∀ (e : SGDEntry ℝ) (v : List ℝ), e.V = some v → v.length = 2 * param_.V_dim →
      (∀ g ∈ gs, param_.V_dim ≤ g.length) →
      ∃ v', SGDOptimizer.UpdateVs Real.sqrt param_ gs e = .ok { e with V := some v' }
        ∧ v'.length = 2 * param_.V_dim
        ∧ ∀ j, j < param_.V_dim →
            v.getD (j + param_.V_dim) 0 ≤ v'.getD (j + param_.V_dim) 0 := by
  induction gs with
  | nil =>
    intro e v hV hlen _
    refine ⟨v, ?_, hlen, fun j _ => le_refl _⟩
    cases e
    simp only at hV
    subst hV
    rfl
  | cons g gs ih =>
    intro e v hV hlen hg
    obtain ⟨v1, hok, hl1, hacc⟩ := UpdateV_spec Real.sqrt param_ g e v hV hlen
      (hg g (List.mem_cons_self _ _))
    obtain ⟨v', hok', hl', hmono⟩ := ih { e with V := some v1 } v1 rfl hl1
      (fun g' h => hg g' (List.mem_cons_of_mem _ h))
    refine ⟨v', ?_, hl', ?_⟩
    · rw [SGDOptimizer.UpdateVs, hok]
      exact hok'
    · intro j hj
      refine le_trans ?_ (hmono j hj)
      rw [hacc j hj]
      calc v.getD (j + param_.V_dim) 0 ≤ |v.getD (j + param_.V_dim) 0| := le_abs_self _
        _ = Real.sqrt (v.getD (j + param_.V_dim) 0 * v.getD (j + param_.V_dim) 0) :=
            (Real.sqrt_mul_self_eq_abs _).symm
        _ ≤ _ := Real.sqrt_le_sqrt (le_add_of_nonneg_right (mul_self_nonneg _))

theorem UpdateVs_append {R : Type} [LinearOrderedField R] (sqrt : R → R) (param_ : SGDParam R)
    (gs1 gs2 : List (List R)) : ∀ (e e1 : SGDEntry R),
      SGDOptimizer.UpdateVs sqrt param_ gs1 e = .ok e1 →
      SGDOptimizer.UpdateVs sqrt param_ (gs1 ++ gs2) e
        = SGDOptimizer.UpdateVs sqrt param_ gs2 e1 := by
  induction gs1 with
  | nil =>
    intro e e1 h
    simp only [SGDOptimizer.UpdateVs, Res.ok.injEq] at h
    subst h
    rfl
  | cons g gs ih =>
    intro e e1 h
    rw [List.cons_append, SGDOptimizer.UpdateVs]
    rw [SGDOptimizer.UpdateVs] at h
    cases hU : SGDOptimizer.UpdateV sqrt param_ g e with
    | ok e2 =>
      rw [hU] at h
      exact ih e2 e1 h
    | fatal => rw [hU] at h; cases h
    | undef => rw [hU] at h; cases h
    | nofuel => rw [hU] at h; cases h

/-! ## Lemmas on the store under the optimizer operations -/

theorem SGDModel.set_dense {R : Type} (m : SGDModel R) (i : Nat) (e : SGDEntry R) :
    (m.set i e).dense_ = m.dense_ := by
  unfold SGDModel.set; split <;> rfl

theorem SGDModel.index_ok {R : Type} [Zero R] (m : SGDModel R) (id : Nat) (e : SGDEntry R)
    (m1 : SGDModel R) (h : m.index id = .ok (e, m1)) :
    m.start_id_ ≤ id ∧ m.find (id - m.start_id_) = some e
      ∧ m1 = m.set (id - m.start_id_) e := by
  unfold SGDModel.index at h
  by_cases hge : ¬ (id ≥ m.start_id_)
  · rw [if_pos hge] at h
    cases h
  · rw [if_neg hge] at h
    cases hf : m.find (id - m.start_id_) with
    | none => rw [hf] at h; cases h
    | some e0 =>
      rw [hf] at h
      simp only [Res.ok.injEq, Prod.mk.injEq] at h
      obtain ⟨h1, h2⟩ := h
      subst h1
      exact ⟨not_not.mp hge, rfl, h2.symm⟩

theorem countP_set {α : Type} (p : α → Bool) (l : List α) (i : Nat) (x0 x : α)
    (h : l[i]? = some x0) :
    (l.set i x).countP p + (if p x0 = true then 1 else 0)
      = l.countP p + (if p x = true then 1 else 0) := by
  induction l generalizing i with
  | nil => simp at h
  | cons a l ih =>
    cases i with
    | zero =>
      simp only [List.getElem?_cons_zero, Option.some.injEq] at h
      subst h
      simp only [List.set_cons_zero, List.countP_cons]
      omega
    | succ i =>
      simp only [List.getElem?_cons_succ] at h
      have := ih i h
      simp only [List.set_cons_succ, List.countP_cons]
      omega

theorem countP_mapSet {R : Type} [Zero R] [DecidableEq R] (l : List (Nat × SGDEntry R)) (i : Nat)
    (e : SGDEntry R) :
    (mapSet l i e).countP (fun it => decide (it.2.w ≠ 0))
        + (if ((mapFind l i).getD SGDEntry.empty).w ≠ 0 then 1 else 0)
      = l.countP (fun it => decide (it.2.w ≠ 0)) + (if e.w ≠ 0 then 1 else 0) := by
  induction l with
  | nil => simp [mapSet, mapFind, SGDEntry.empty, List.countP_cons]
  | cons a l ih =>
    obtain ⟨k, x⟩ := a
    by_cases hk : k = i
    · simp only [mapSet, mapFind, hk, if_true, List.countP_cons, Option.getD_some,
        decide_eq_true_eq]
      omega
    · simp only [mapSet, mapFind, hk, if_false, List.countP_cons]
      omega

theorem SGDModel.nonzero_set {R : Type} [Zero R] [DecidableEq R] (m : SGDModel R) (i : Nat)
    (e0 e : SGDEntry R) (h : m.find i = some e0) :
    (m.set i e).nonzero + (if e0.w ≠ 0 then 1 else 0)
      = m.nonzero + (if e.w ≠ 0 then 1 else 0) := by
  unfold SGDModel.find at h
  unfold SGDModel.nonzero SGDModel.set
  by_cases hd : m.dense_ = true
  · simp only [hd, if_true] at h ⊢
    have := countP_set (fun e => decide (e.w ≠ 0)) m.model_vec_ i e0 e h
    simpa using this
  · simp only [hd, if_false, Option.some.injEq, Bool.false_eq_true] at h ⊢
    have := countP_mapSet m.model_map_ i e
    rw [h] at this
    exact this

theorem SGDModel.nonzero_touch_set {R : Type} [Zero R] [DecidableEq R] (m : SGDModel R)
    (i : Nat) (e0 e : SGDEntry R) (h : m.find i = some e0) :
    ((m.set i e0).set i e).nonzero + (if e0.w ≠ 0 then 1 else 0)
      = m.nonzero + (if e.w ≠ 0 then 1 else 0) := by
  have h1 := SGDModel.nonzero_set m i e0 e0 h
  have h2 := SGDModel.nonzero_set (m.set i e0) i e0 e (SGDModel.find_set_self m i e0 e0 h)
  omega

theorem SGDModel.related_refl {R : Type} [Zero R] (Rel : SGDEntry R → SGDEntry R → Prop)
    (hrefl : ∀ e, Rel e e) (m : SGDModel R) : SGDModel.related Rel m m := by
  intro j
  cases h : m.find j with
  | none => exact Or.inl ⟨rfl, rfl⟩
  | some e => exact Or.inr ⟨e, e, rfl, rfl, hrefl e⟩

theorem SGDModel.related_trans {R : Type} [Zero R] (Rel : SGDEntry R → SGDEntry R → Prop)
    (htrans : ∀ a b c, Rel a b → Rel b c → Rel a c) (m1 m2 m3 : SGDModel R)
    (h12 : SGDModel.related Rel m1 m2) (h23 : SGDModel.related Rel m2 m3) :
    SGDModel.related Rel m1 m3 := by
  intro j
  rcases h12 j with ⟨h1, h2⟩ | ⟨a, b, h1, h2, hab⟩
  · rcases h23 j with ⟨_, h3⟩ | ⟨b, c, h2', _, _⟩
    · exact Or.inl ⟨h1, h3⟩
    · rw [h2] at h2'
      cases h2'
  · rcases h23 j with ⟨h2', _⟩ | ⟨b', c, h2', h3, hbc⟩
    · rw [h2] at h2'
      cases h2'
    · rw [h2] at h2'
      cases h2'
      exact Or.inr ⟨a, c, h1, h3, htrans a b c hab hbc⟩

theorem SGDModel.related_touch_set {R : Type} [Zero R] (Rel : SGDEntry R → SGDEntry R → Prop)
    (hrefl : ∀ e, Rel e e) (m : SGDModel R) (i : Nat) (e0 e : SGDEntry R)
    (h : m.find i = some e0) (hr : Rel e0 e) :
    SGDModel.related Rel m ((m.set i e0).set i e) := by
  intro j
  by_cases hij : i = j
  · subst hij
    exact Or.inr ⟨e0, e, h, SGDModel.find_set_self _ _ e0 _
      (SGDModel.find_set_self m i e0 e0 h), hr⟩
  · rw [SGDModel.find_set_ne _ _ _ _ hij, SGDModel.find_set_ne _ _ _ _ hij]
    exact SGDModel.related_refl Rel hrefl m j

theorem GetLoop_props {R : Type} [Zero R] [DecidableEq R] (V_dim : Nat) (ids : List Nat) :
    ∀ (m : SGDModel R) (i p : Nat) (w : List R) (wl : List Int) (m' : SGDModel R)
      (w' : List R) (wl' : List Int),
      SGDOptimizer.GetLoop V_dim m ids i p w wl = .ok (m', w', wl') →
      m'.start_id_ = m.start_id_ ∧ m'.end_id_ = m.end_id_ ∧ m'.V_dim = m.V_dim
        ∧ (∀ j, m'.find j = m.find j) ∧ m'.nonzero = m.nonzero := by
  induction ids with
  | nil =>
    intro m i p w wl m' w' wl' h
    simp only [SGDOptimizer.GetLoop, Res.ok.injEq, Prod.mk.injEq] at h
    obtain ⟨h1, _, _⟩ := h
    subst h1
    exact ⟨rfl, rfl, rfl, fun _ => rfl, rfl⟩
  | cons id ids ih =>
    intro m i p w wl m' w' wl' h
    rw [SGDOptimizer.GetLoop] at h
    cases hidx : m.index id with
    | ok a =>
      obtain ⟨e, m1⟩ := a
      obtain ⟨_, hfind, hm1⟩ := SGDModel.index_ok m id e m1 hidx
      have hkey : ∀ (i2 p2 : Nat) (w2 : List R) (wl2 : List Int),
          SGDOptimizer.GetLoop V_dim m1 ids i2 p2 w2 wl2 = .ok (m', w', wl') →
          m'.start_id_ = m.start_id_ ∧ m'.end_id_ = m.end_id_ ∧ m'.V_dim = m.V_dim
            ∧ (∀ j, m'.find j = m.find j) ∧ m'.nonzero = m.nonzero := by
        intro i2 p2 w2 wl2 h2
        obtain ⟨a1, a2, a3, a4, a5⟩ := ih m1 i2 p2 w2 wl2 m' w' wl' h2
        subst hm1
        refine ⟨by rw [a1, SGDModel.set_start], by rw [a2, SGDModel.set_end],
          by rw [a3, SGDModel.set_V_dim], fun j => ?_, ?_⟩
        · rw [a4 j, SGDModel.find_touch m _ j e hfind]
        · rw [a5]
          have := SGDModel.nonzero_set m _ e e hfind
          omega
      rw [hidx] at h
      dsimp only at h
      by_cases hc1 : ¬ (p < w.length)
      · rw [if_pos hc1] at h
        cases h
      rw [if_neg hc1] at h
      by_cases hc2 : e.V.isSome = true ∧ ¬ (V_dim ≤ (e.V.getD []).length
          ∧ p + 1 + V_dim ≤ (w.set p e.w).length)
      · rw [if_pos hc2] at h
        cases h
      rw [if_neg hc2] at h
      by_cases hc3 : V_dim ≠ 0
      · rw [if_pos hc3] at h
        by_cases hc4 : ¬ (i < wl.length)
        · rw [if_pos hc4] at h
          cases h
        rw [if_neg hc4] at h
        exact hkey _ _ _ _ h
      · rw [if_neg hc3] at h
        exact hkey _ _ _ _ h
    | fatal => rw [hidx] at h; cases h
    | undef => rw [hidx] at h; cases h
    | nofuel => rw [hidx] at h; cases h

theorem Get_props {R : Type} [Zero R] [DecidableEq R] (o o' : SGDOptimizer R)
    (fea_ids : List Nat) (weights weights' : List R) (weight_lens weight_lens' : List Int)
    (h : o.Get fea_ids weights weight_lens = .ok (o', weights', weight_lens')) :
    o'.param_ = o.param_ ∧ o'.new_w_ = o.new_w_ ∧ o'.has_aux_ = o.has_aux_
      ∧ o'.model_.start_id_ = o.model_.start_id_ ∧ o'.model_.V_dim = o.model_.V_dim
      ∧ (∀ j, o'.model_.find j = o.model_.find j) ∧ o'.model_.nonzero = o.model_.nonzero := by
  unfold SGDOptimizer.Get at h
  dsimp only at h
  cases hL : SGDOptimizer.GetLoop o.param_.V_dim o.model_ fea_ids 0 0
      (resize weights (fea_ids.length * (1 + o.param_.V_dim)) 0)
      (resize weight_lens (if o.param_.V_dim = 0 then 0 else fea_ids.length) 0) with
  | ok a =>
    obtain ⟨m, w, wl⟩ := a
    rw [hL] at h
    simp only [Res.ok.injEq, Prod.mk.injEq] at h
    obtain ⟨h1, _, _⟩ := h
    subst h1
    obtain ⟨a1, _, a3, a4, a5⟩ := GetLoop_props _ _ _ _ _ _ _ _ _ _ hL
    exact ⟨rfl, rfl, rfl, a1, a3, a4, a5⟩
  | fatal => rw [hL] at h; cases h
  | undef => rw [hL] at h; cases h
  | nofuel => rw [hL] at h; cases h

theorem AddCountEntry_props {R : Type} [LinearOrderedField R] (add : R → R → R)
    (rand : Nat → Nat)
    (RAND_MAX : Nat) (param_ : SGDParam R) (rc : Nat) (e : SGDEntry R) (cnt : R) :
    (SGDOptimizer.AddCountEntry add rand RAND_MAX param_ rc e cnt).1.fea_cnt = add e.fea_cnt cnt
    ∧ (SGDOptimizer.AddCountEntry add rand RAND_MAX param_ rc e cnt).1.w = e.w
    ∧ (SGDOptimizer.AddCountEntry add rand RAND_MAX param_ rc e cnt).1.sqrt_g = e.sqrt_g
    ∧ (SGDOptimizer.AddCountEntry add rand RAND_MAX param_ rc e cnt).1.z = e.z
    ∧ ((e.V = none ∧ e.w ≠ 0 ∧ add e.fea_cnt cnt > param_.V_threshold) →
        (SGDOptimizer.AddCountEntry add rand RAND_MAX param_ rc e cnt).1.V
          = some ((List.range param_.V_dim).map (fun i =>
              ((rand (rc + i) : R) / (RAND_MAX : R) - 1 / 2) * param_.init_scale)
            ++ List.replicate param_.V_dim 0))
    ∧ (¬ (e.V = none ∧ e.w ≠ 0 ∧ add e.fea_cnt cnt > param_.V_threshold) →
        (SGDOptimizer.AddCountEntry add rand RAND_MAX param_ rc e cnt).1.V = e.V
        ∧ (SGDOptimizer.AddCountEntry add rand RAND_MAX param_ rc e cnt).2 = rc) := by
  unfold SGDOptimizer.AddCountEntry
  dsimp only
  by_cases hc : e.V = none ∧ e.w ≠ 0 ∧ add e.fea_cnt cnt > param_.V_threshold
  · rw [if_pos hc]
    exact ⟨rfl, rfl, rfl, rfl, fun _ => rfl, fun h => absurd hc h⟩
  · rw [if_neg hc]
    exact ⟨rfl, rfl, rfl, rfl, fun h => absurd h hc, fun _ => ⟨rfl, rfl⟩⟩

theorem AddCountLoop_props {R : Type} [LinearOrderedField R] (add : R → R → R)
    (rand : Nat → Nat) (RAND_MAX : Nat)
    (P : SGDParam R) (Rel : SGDEntry R → SGDEntry R → Prop) (hrefl : ∀ e, Rel e e)
    (htrans : ∀ a b c, Rel a b → Rel b c → Rel a c)
    (hstep : ∀ rc e cnt, Rel e (SGDOptimizer.AddCountEntry add rand RAND_MAX P rc e cnt).1)
    (rest : List (Nat × R)) : ∀ (o o' : SGDOptimizer R),
      SGDOptimizer.AddCountLoop add rand RAND_MAX o rest = .ok o' → o.param_ = P →
      o'.param_ = P ∧ o'.new_w_ = o.new_w_ ∧ o'.has_aux_ = o.has_aux_
        ∧ o'.model_.start_id_ = o.model_.start_id_ ∧ o'.model_.V_dim = o.model_.V_dim
        ∧ SGDModel.related Rel o.model_ o'.model_
        ∧ o'.model_.nonzero = o.model_.nonzero := by
  induction rest with
  | nil =>
    intro o o' h hP
    simp only [SGDOptimizer.AddCountLoop, Res.ok.injEq] at h
    subst h
    exact ⟨hP, rfl, rfl, rfl, rfl, SGDModel.related_refl Rel hrefl _, rfl⟩
  | cons a rest ih =>
    intro o o' h hP
    obtain ⟨id, cnt⟩ := a
    rw [SGDOptimizer.AddCountLoop] at h
    cases hidx : o.model_.index id with
    | ok a =>
      obtain ⟨e, m1⟩ := a
      obtain ⟨_, hfind, hm1⟩ := SGDModel.index_ok _ id e m1 hidx
      rw [hidx] at h
      dsimp only at h
      subst hm1
      obtain ⟨a1, a2, a3, a4, a5, a6, a7⟩ := ih _ _ h hP
      simp only [SGDModel.set_start, SGDModel.set_V_dim] at a4 a5 a6 a7
      refine ⟨a1, a2, a3, a4, a5, ?_, ?_⟩
      · refine SGDModel.related_trans Rel htrans _ _ _ ?_ a6
        apply SGDModel.related_touch_set Rel hrefl _ _ _ _ hfind
        rw [hP]
        exact hstep _ _ _
      · rw [a7]
        have := SGDModel.nonzero_touch_set o.model_ (id - o.model_.start_id_) e
          (SGDOptimizer.AddCountEntry add rand RAND_MAX o.param_ o.rand_calls e cnt).1 hfind
        rw [(AddCountEntry_props add rand RAND_MAX o.param_ o.rand_calls e cnt).2.1] at this
        omega
    | fatal => rw [hidx] at h; cases h
    | undef => rw [hidx] at h; cases h
    | nofuel => rw [hidx] at h; cases h

theorem AddCount_props {R : Type} [LinearOrderedField R] (add : R → R → R)
    (rand : Nat → Nat) (RAND_MAX : Nat)
    (Rel : SGDEntry R → SGDEntry R → Prop) (hrefl : ∀ e, Rel e e)
    (htrans : ∀ a b c, Rel a b → Rel b c → Rel a c) (o o' : SGDOptimizer R)
    (hstep : ∀ rc e cnt, Rel e (SGDOptimizer.AddCountEntry add rand RAND_MAX o.param_ rc e cnt).1)
    (fea_ids : List Nat) (fea_cnts : List R)
    (h : SGDOptimizer.AddCount add rand RAND_MAX o fea_ids fea_cnts = .ok o') :
    o'.param_ = o.param_ ∧ o'.new_w_ = o.new_w_ ∧ o'.has_aux_ = o.has_aux_
      ∧ o'.model_.start_id_ = o.model_.start_id_ ∧ o'.model_.V_dim = o.model_.V_dim
      ∧ SGDModel.related Rel o.model_ o'.model_
      ∧ o'.model_.nonzero = o.model_.nonzero := by
  unfold SGDOptimizer.AddCount at h
  by_cases hc : ¬ (fea_ids.length = fea_cnts.length)
  · rw [if_pos hc] at h
    cases h
  · rw [if_neg hc] at h
    exact AddCountLoop_props add rand RAND_MAX o.param_ Rel hrefl htrans hstep _ o o' h rfl

theorem UpdateVStep_len {R : Type} [LinearOrderedField R] (sqrt : R → R) (param_ : SGDParam R)
    (gV v v1 : List R) (i : Nat)
    (h : SGDOptimizer.UpdateVStep sqrt param_ gV v i = .ok v1) : v1.length = v.length := by
  unfold SGDOptimizer.UpdateVStep at h
  dsimp only at h
  split at h
  · simp only [Res.ok.injEq] at h
    subst h
    simp only [List.length_set]
  · cases h

theorem UpdateVLoop_len {R : Type} [LinearOrderedField R] (sqrt : R → R) (param_ : SGDParam R)
    (gV : List R) : ∀ (k i : Nat) (v v' : List R),
      SGDOptimizer.UpdateVLoop sqrt param_ gV k i v = .ok v' → v'.length = v.length := by
  intro k
  induction k with
  | zero =>
    intro i v v' h
    simp only [SGDOptimizer.UpdateVLoop, Res.ok.injEq] at h
    rw [h]
  | succ k ih =>
    intro i v v' h
    rw [SGDOptimizer.UpdateVLoop] at h
    cases hS : SGDOptimizer.UpdateVStep sqrt param_ gV v i with
    | ok v1 =>
      rw [hS] at h
      rw [ih _ _ _ h, UpdateVStep_len sqrt param_ gV v v1 i hS]
    | fatal => rw [hS] at h; cases h
    | undef => rw [hS] at h; cases h
    | nofuel => rw [hS] at h; cases h

theorem UpdateV_inv {R : Type} [LinearOrderedField R] (sqrt : R → R) (param_ : SGDParam R)
    (gV : List R) (e e2 : SGDEntry R) (h : SGDOptimizer.UpdateV sqrt param_ gV e = .ok e2) :
    e2.fea_cnt = e.fea_cnt ∧ e2.w = e.w ∧ e2.sqrt_g = e.sqrt_g ∧ e2.z = e.z
      ∧ ((∃ v v', e.V = some v ∧ e2.V = some v' ∧ v'.length = v.length)
        ∨ (e2.V = e.V ∧ param_.V_dim = 0)) := by
  unfold SGDOptimizer.UpdateV at h
  by_cases h0 : param_.V_dim = 0
  · rw [if_pos h0] at h
    simp only [Res.ok.injEq] at h
    subst h
    exact ⟨rfl, rfl, rfl, rfl, Or.inr ⟨rfl, h0⟩⟩
  · rw [if_neg h0] at h
    cases hV : e.V with
    | none => rw [hV] at h; cases h
    | some v =>
      rw [hV] at h
      dsimp only at h
      cases hL : SGDOptimizer.UpdateVLoop sqrt param_ gV param_.V_dim 0 v with
      | ok v1 =>
        rw [hL] at h
        simp only [Res.ok.injEq] at h
        subst h
        exact ⟨rfl, rfl, rfl, rfl, Or.inl ⟨v, v1, rfl, rfl, UpdateVLoop_len _ _ _ _ _ _ _ hL⟩⟩
      | fatal => rw [hL] at h; cases h
      | undef => rw [hL] at h; cases h
      | nofuel => rw [hL] at h; cases h

theorem counter_delta {R : Type} [LinearOrderedField R] (a b : R) (n1 n2 : Nat)
    (h : n1 + (if a ≠ 0 then 1 else 0) = n2 + (if b ≠ 0 then 1 else 0)) :
    ((if a = 0 ∧ b ≠ 0 then 1 else if a ≠ 0 ∧ b = 0 then -1 else 0 : Int)) + n2 = n1 := by
  by_cases ha : a = 0 <;> by_cases hb : b = 0 <;> simp [ha, hb] at h ⊢ <;> omega

theorem UpdateLoop_props {R : Type} [LinearOrderedField R] (sqrt : R → R) (rand : Nat → Nat)
    (RAND_MAX : Nat) (P : SGDParam R) (Rel : SGDEntry R → SGDEntry R → Prop)
    (hrefl : ∀ e, Rel e e) (htrans : ∀ a b c, Rel a b → Rel b c → Rel a c)
    (hW : ∀ nw rc gw e, Rel e (SGDOptimizer.UpdateW sqrt rand RAND_MAX P nw rc gw e).1)
    (hV : ∀ gV e e2, SGDOptimizer.UpdateV sqrt P gV e = .ok e2 → Rel e e2)
    (w_only : Bool) (grads : List R) (grad_lens : List Int) (ids : List Nat) :
    ∀ (o : SGDOptimizer R) (i p : Nat) (o' : SGDOptimizer R) (p' : Nat),
      SGDOptimizer.UpdateLoop sqrt rand RAND_MAX w_only grads grad_lens o ids i p = .ok (o', p') →
      o.param_ = P →
      o'.param_ = P ∧ o'.has_aux_ = o.has_aux_
        ∧ o'.model_.start_id_ = o.model_.start_id_ ∧ o'.model_.V_dim = o.model_.V_dim
        ∧ SGDModel.related Rel o.model_ o'.model_
        ∧ o'.new_w_ + (o.model_.nonzero : Int) = o.new_w_ + (o'.model_.nonzero : Int) := by
  induction ids with
  | nil =>
    intro o i p o' p' h hP
    simp only [SGDOptimizer.UpdateLoop, Res.ok.injEq, Prod.mk.injEq] at h
    obtain ⟨h1, _⟩ := h
    subst h1
    exact ⟨hP, rfl, rfl, rfl, SGDModel.related_refl Rel hrefl _, rfl⟩
  | cons id ids ih =>
    intro o i p o' p' h hP
    subst hP
    rw [SGDOptimizer.UpdateLoop] at h
    cases hidx : o.model_.index id with
    | ok a =>
      obtain ⟨e, m1⟩ := a
      obtain ⟨_, hfind, hm1⟩ := SGDModel.index_ok _ id e m1 hidx
      rw [hidx] at h
      dsimp only at h
      subst hm1
      cases hg : grads[p]? with
      | none => rw [hg] at h; cases h
      | some gw =>
        rw [hg] at h
        dsimp only at h
        have hkey : ∀ (E : SGDEntry R) (p2 : Nat), Rel e E →
            E.w = (SGDOptimizer.UpdateW sqrt rand RAND_MAX o.param_ o.new_w_ o.rand_calls
              gw e).1.w →
            SGDOptimizer.UpdateLoop sqrt rand RAND_MAX w_only grads grad_lens
              { o with
                model_ := (o.model_.set (id - o.model_.start_id_) e).set
                  (id - (o.model_.set (id - o.model_.start_id_) e).start_id_) E,
                new_w_ := (SGDOptimizer.UpdateW sqrt rand RAND_MAX o.param_ o.new_w_
                  o.rand_calls gw e).2.1,
                rand_calls := (SGDOptimizer.UpdateW sqrt rand RAND_MAX o.param_ o.new_w_
                  o.rand_calls gw e).2.2 } ids (i + 1) p2 = .ok (o', p') →
            o'.param_ = o.param_ ∧ o'.has_aux_ = o.has_aux_
              ∧ o'.model_.start_id_ = o.model_.start_id_ ∧ o'.model_.V_dim = o.model_.V_dim
              ∧ SGDModel.related Rel o.model_ o'.model_
              ∧ o'.new_w_ + (o.model_.nonzero : Int) = o.new_w_ + (o'.model_.nonzero : Int) := by
          intro E p2 hRel hEw h2
          obtain ⟨a1, a2, a3, a4, a5, a6⟩ := ih _ _ _ _ _ h2 rfl
          simp only [SGDModel.set_start, SGDModel.set_V_dim] at a3 a4 a5 a6
          refine ⟨a1, a2, a3, a4, ?_, ?_⟩
          · exact SGDModel.related_trans Rel htrans _ _ _
              (SGDModel.related_touch_set Rel hrefl _ _ _ _ hfind hRel) a5
          · have hnz := SGDModel.nonzero_touch_set o.model_ (id - o.model_.start_id_) e E hfind
            have hc := UpdateW_counter sqrt rand RAND_MAX o.param_ o.new_w_ o.rand_calls gw e
            rw [← hEw] at hc
            have hd := counter_delta e.w E.w _ _ hnz
            rw [hc] at a6
            omega
        have hRelW : Rel e (SGDOptimizer.UpdateW sqrt rand RAND_MAX o.param_ o.new_w_
            o.rand_calls gw e).1 := hW _ _ _ _
        by_cases hw : w_only = true
        · rw [if_pos hw] at h
          exact hkey _ _ hRelW rfl h
        · rw [if_neg hw] at h
          cases hgl : grad_lens[i]? with
          | none => rw [hgl] at h; cases h
          | some gl =>
            rw [hgl] at h
            dsimp only at h
            by_cases h1 : gl > 1
            · rw [if_pos h1] at h
              by_cases h2 : ¬ (gl = (o.param_.V_dim : Int))
              · rw [if_pos h2] at h
                cases h
              · rw [if_neg h2] at h
                cases hU : SGDOptimizer.UpdateV sqrt o.param_ (grads.drop (p + 1))
                    (SGDOptimizer.UpdateW sqrt rand RAND_MAX o.param_ o.new_w_ o.rand_calls
                      gw e).1 with
                | ok e2 =>
                  rw [hU] at h
                  dsimp only at h
                  refine hkey e2 _ ?_ (UpdateV_inv _ _ _ _ _ hU).2.1 h
                  exact htrans _ _ _ hRelW (hV _ _ _ hU)
                | fatal => rw [hU] at h; cases h
                | undef => rw [hU] at h; cases h
                | nofuel => rw [hU] at h; cases h
            · rw [if_neg h1] at h
              exact hkey _ _ hRelW rfl h
    | fatal => rw [hidx] at h; cases h
    | undef => rw [hidx] at h; cases h
    | nofuel => rw [hidx] at h; cases h

theorem Update_props {R : Type} [LinearOrderedField R] (sqrt : R → R) (rand : Nat → Nat)
    (RAND_MAX : Nat) (Rel : SGDEntry R → SGDEntry R → Prop)
    (hrefl : ∀ e, Rel e e) (htrans : ∀ a b c, Rel a b → Rel b c → Rel a c)
    (o o' : SGDOptimizer R)
    (hW : ∀ nw rc gw e, Rel e (SGDOptimizer.UpdateW sqrt rand RAND_MAX o.param_ nw rc gw e).1)
    (hV : ∀ gV e e2, SGDOptimizer.UpdateV sqrt o.param_ gV e = .ok e2 → Rel e e2)
    (fea_ids : List Nat) (grads : List R) (grad_lens : List Int)
    (h : SGDOptimizer.Update sqrt rand RAND_MAX o fea_ids grads grad_lens = .ok o') :
    o'.param_ = o.param_ ∧ o'.has_aux_ = o.has_aux_
      ∧ o'.model_.start_id_ = o.model_.start_id_ ∧ o'.model_.V_dim = o.model_.V_dim
      ∧ SGDModel.related Rel o.model_ o'.model_
      ∧ o'.new_w_ + (o.model_.nonzero : Int) = o.new_w_ + (o'.model_.nonzero : Int) := by
  unfold SGDOptimizer.Update at h
  dsimp only at h
  by_cases h1 : ¬ (o.has_aux_ = true)
  · rw [if_pos h1] at h
    cases h
  rw [if_neg h1] at h
  by_cases h2 : grad_lens.isEmpty = true ∧ ¬ (grads.length = fea_ids.length)
  · rw [if_pos h2] at h
    cases h
  rw [if_neg h2] at h
  cases hL : SGDOptimizer.UpdateLoop sqrt rand RAND_MAX grad_lens.isEmpty grads grad_lens o
      fea_ids 0 0 with
  | ok a =>
    obtain ⟨o1, p⟩ := a
    rw [hL] at h
    dsimp only at h
    by_cases h3 : ¬ (p = grads.length)
    · rw [if_pos h3] at h
      cases h
    · rw [if_neg h3] at h
      simp only [Res.ok.injEq] at h
      subst h
      exact UpdateLoop_props sqrt rand RAND_MAX o.param_ Rel hrefl htrans hW hV _ _ _ _ _ _ _ _ _
        hL rfl
  | fatal => rw [hL] at h; cases h
  | undef => rw [hL] at h; cases h
  | nofuel => rw [hL] at h; cases h

/-! ## Lemmas on the shape of the embeddings -/

theorem realsOfBytes_length : ∀ (n : Nat) (bs : List Nat), (realsOfBytes n bs).length = n := by
  intro n
  induction n with
  | zero => intro bs; rfl
  | succ n ih => intro bs; simp only [realsOfBytes, List.length_cons, ih]

theorem LoadEntry_V (V_dim : Nat) (fresh : Nat → Nat) (fi : List Nat) (len : Int)
    (e e1 : SGDEntry Nat) (fi2 : List Nat)
    (h : SGDModel.LoadEntry V_dim fresh fi len e = .ok (e1, fi2)) :
    e1.V = e.V ∨ ∃ v, e1.V = some v ∧ v.length = V_dim * (1 + b2n (decide (len > 0))) := by
  unfold SGDModel.LoadEntry at h
  dsimp only at h
  by_cases h1 : len = INT_MIN
  · rw [if_pos h1] at h
    cases h
  rw [if_neg h1] at h
  generalize (if len > 0 then len else -len).toNat / sizeof_real_t = len1 at h
  by_cases h2 : ¬ (len1 ≥ 2)
  · rw [if_pos h2] at h
    cases h
  rw [if_neg h2] at h
  by_cases h3 : decide (len > 0) = true ∧ ¬ (len1 - 2 ≥ 2)
  · rw [if_pos h3] at h
    cases h
  rw [if_neg h3] at h
  generalize (if decide (len > 0) = true then len1 - 2 - 2 else len1 - 2) = len3 at h
  by_cases h4 : len3 > 0
  · rw [if_pos h4] at h
    by_cases h5 : ¬ (len3 = V_dim * (1 + b2n (decide (len > 0))))
    · rw [if_pos h5] at h
      cases h
    · rw [if_neg h5] at h
      simp only [Res.ok.injEq, Prod.mk.injEq] at h
      obtain ⟨he, _⟩ := h
      subst he
      exact Or.inr ⟨_, rfl, by rw [realsOfBytes_length]; exact not_not.mp h5⟩
  · rw [if_neg h4] at h
    simp only [Res.ok.injEq, Prod.mk.injEq] at h
    obtain ⟨he, _⟩ := h
    subst he
    exact Or.inl rfl

theorem V_len_ok_of_V {R S : Type} (ns : List Nat) (e : SGDEntry R) (e' : SGDEntry S)
    (h : e'.V.map List.length = e.V.map List.length) (hok : e.V_len_ok ns = true) :
    e'.V_len_ok ns = true := by
  unfold SGDEntry.V_len_ok at *
  cases hV : e.V with
  | none =>
    rw [hV] at h
    cases hV' : e'.V with
    | none => rfl
    | some v' => rw [hV'] at h; cases h
  | some v =>
    rw [hV] at h hok
    cases hV' : e'.V with
    | none => rfl
    | some v' =>
      rw [hV'] at h
      simp only [Option.map_some', Option.some.injEq] at h
      dsimp only at hok ⊢
      rw [h]
      exact hok

theorem V_len_ok_of_length {R : Type} (ns : List Nat) (e : SGDEntry R) (v : List R)
    (hV : e.V = some v) (h : v.length ∈ ns) : e.V_len_ok ns = true := by
  unfold SGDEntry.V_len_ok
  rw [hV]
  exact decide_eq_true h

theorem LoadLoop_shape (fresh : Nat → Nat) : ∀ (f : Nat) (m : SGDModel Nat) (first has_aux : Bool)
    (fi : List Nat) (m' : SGDModel Nat) (has_aux' : Bool),
    SGDModel.LoadLoop fresh f m first has_aux fi = .ok (m', has_aux') →
    m'.V_dim = m.V_dim ∧ m'.start_id_ = m.start_id_
      ∧ (first = false → has_aux' = has_aux)
      ∧ ∀ ns : List Nat, m.V_dim * (1 + b2n has_aux') ∈ ns →
          (∀ j e, m.find j = some e → e.V_len_ok ns = true) →
          ∀ j e, m'.find j = some e → e.V_len_ok ns = true := by
  intro f
  induction f with
  | zero =>
    intro m first has_aux fi m' has_aux' h
    simp only [SGDModel.LoadLoop] at h
    cases h
  | succ f ih =>
    intro m first has_aux fi m' has_aux' h
    rw [SGDModel.LoadLoop] at h
    by_cases h0 : fi.length = 0
    · rw [if_pos h0] at h
      simp only [Res.ok.injEq, Prod.mk.injEq] at h
      obtain ⟨hm, hh⟩ := h
      subst hm
      subst hh
      exact ⟨rfl, rfl, fun _ => rfl, fun _ _ hall => hall⟩
    rw [if_neg h0] at h
    by_cases h1 : fi.length < sizeof_feaid_t + sizeof_int
    · rw [if_pos h1] at h
      cases h
    rw [if_neg h1] at h
    dsimp only at h
    generalize fromLE (fi.take sizeof_feaid_t) = id at h
    generalize toInt32 (fromLE ((fi.drop sizeof_feaid_t).take sizeof_int)) = len at h
    generalize fi.drop (sizeof_feaid_t + sizeof_int) = fi1 at h
    by_cases hr : id < m.start_id_ ∨ id ≥ m.end_id_
    · rw [if_pos hr] at h
      by_cases h2 : len = INT_MIN
      · rw [if_pos h2] at h
        cases h
      rw [if_neg h2] at h
      by_cases h3 : ¬ ((if len > 0 then len else -len).toNat < (m.V_dim * 2 + 10) * sizeof_real_t)
      · rw [if_pos h3] at h
        cases h
      rw [if_neg h3] at h
      exact ih _ _ _ _ _ _ h
    · rw [if_neg hr] at h
      cases hfind : m.find (id - m.start_id_) with
      | none => rw [hfind] at h; cases h
      | some e =>
        rw [hfind] at h
        dsimp only at h
        cases hL : SGDModel.LoadEntry m.V_dim fresh fi1 len e with
        | ok a =>
          obtain ⟨e1, fi2⟩ := a
          rw [hL] at h
          dsimp only at h
          by_cases h4 : (!first) = true ∧ decide (len > 0) ≠ has_aux
          · rw [if_pos h4] at h
            cases h
          rw [if_neg h4] at h
          obtain ⟨a1, a2, a3, a4⟩ := ih _ _ _ _ _ _ h
          have hfin : has_aux' = decide (len > 0) := a3 rfl
          simp only [SGDModel.set_V_dim, SGDModel.set_start] at a1 a2 a4
          refine ⟨a1, a2, ?_, ?_⟩
          · intro hf
            rw [hfin]
            by_contra hne
            exact h4 ⟨by rw [hf]; rfl, hne⟩
          · intro ns hns hall
            apply a4 ns hns
            intro j ej hj
            by_cases hij : id - m.start_id_ = j
            · subst hij
              rw [SGDModel.find_set_self m _ e e1 hfind] at hj
              simp only [Option.some.injEq] at hj
              subst hj
              rcases LoadEntry_V _ _ _ _ _ _ _ hL with hV | ⟨v, hV, hlen⟩
              · exact V_len_ok_of_V ns e e1 (by rw [hV]) (hall _ _ hfind)
              · apply V_len_ok_of_length ns e1 v hV
                rw [hlen, ← hfin]
                exact hns
            · rw [SGDModel.find_set_ne m _ _ e1 hij] at hj
              exact hall _ _ hj
        | fatal => rw [hL] at h; cases h
        | undef => rw [hL] at h; cases h
        | nofuel => rw [hL] at h; cases h

theorem mapFind_map {α β : Type} (f : α → β) (l : List (Nat × SGDEntry α)) (i : Nat) :
    mapFind (l.map (fun it => (it.1, SGDEntry.map f it.2))) i
      = (mapFind l i).map (SGDEntry.map f) := by
  induction l with
  | nil => rfl
  | cons a l ih =>
    obtain ⟨k, e⟩ := a
    simp only [List.map_cons, mapFind]
    by_cases hk : k = i
    · rw [if_pos hk, if_pos hk]
      rfl
    · rw [if_neg hk, if_neg hk, ih]

theorem SGDModel.find_map {α β : Type} [Zero α] [Zero β] (f : α → β) (m : SGDModel α) (j : Nat)
    (e' : SGDEntry β) (h : (m.map f).find j = some e') :
    ∃ e, m.find j = some e ∧ e'.V = e.V.map (List.map f) := by
  unfold SGDModel.find SGDModel.map at *
  dsimp only at h
  by_cases hd : m.dense_ = true
  · rw [if_pos hd] at h ⊢
    rw [List.getElem?_map] at h
    cases hj : m.model_vec_[j]? with
    | none => rw [hj] at h; cases h
    | some e =>
      rw [hj] at h
      simp only [Option.map_some', Option.some.injEq] at h
      subst h
      exact ⟨e, rfl, rfl⟩
  · rw [if_neg hd] at h ⊢
    refine ⟨_, rfl, ?_⟩
    simp only [Option.some.injEq] at h
    subst h
    rw [mapFind_map]
    cases mapFind m.model_map_ j with
    | none => rfl
    | some e => rfl

theorem SGDModel.map_shape {α β : Type} [Zero α] [Zero β] (f : α → β) (m : SGDModel α)
    (ns : List Nat) (hall : ∀ j e, m.find j = some e → e.V_len_ok ns = true) :
    ∀ j e, (m.map f).find j = some e → e.V_len_ok ns = true := by
  intro j e' h
  obtain ⟨e, he, hV⟩ := SGDModel.find_map f m j e' h
  refine V_len_ok_of_V ns e e' ?_ (hall j e he)
  rw [hV]
  cases e.V with
  | none => rfl
  | some v => simp

theorem SGDModel.Init_fresh {R : Type} [Zero R] [DecidableEq R] (V_dim start_id end_id : Nat)
    (m : SGDModel R) (h : SGDModel.Init V_dim start_id end_id = .ok m) :
    m.V_dim = V_dim ∧ m.start_id_ = start_id ∧ m.nonzero = 0
      ∧ ∀ j e, m.find j = some e → e = SGDEntry.empty := by
  unfold SGDModel.Init at h
  by_cases h1 : ¬ (end_id > start_id)
  · rw [if_pos h1] at h
    cases h
  rw [if_neg h1] at h
  by_cases h2 : end_id - start_id < 10 ^ 8
  · rw [if_pos h2] at h
    simp only [Res.ok.injEq] at h
    subst h
    refine ⟨rfl, rfl, ?_, ?_⟩
    · simp [SGDModel.nonzero, SGDEntry.empty, List.countP_eq_zero]
    · intro j e hj
      simp only [SGDModel.find, if_true] at hj
      obtain ⟨_, hj2⟩ := List.getElem?_eq_some.mp hj
      rw [← hj2]
      simp
  · rw [if_neg h2] at h
    simp only [Res.ok.injEq] at h
    subst h
    refine ⟨rfl, rfl, ?_, ?_⟩
    · simp [SGDModel.nonzero]
    · intro j e hj
      simp [SGDModel.find, mapFind] at hj
      exact hj.symm

theorem SGDModel.related_fwd {R : Type} [Zero R] (Rel : SGDEntry R → SGDEntry R → Prop)
    (m m' : SGDModel R) (h : SGDModel.related Rel m m') (j : Nat) (e : SGDEntry R)
    (hj : m.find j = some e) : ∃ e', m'.find j = some e' ∧ Rel e e' := by
  rcases h j with ⟨h1, _⟩ | ⟨a, b, h1, h2, hab⟩
  · rw [hj] at h1
    cases h1
  · rw [hj] at h1
    simp only [Option.some.injEq] at h1
    subst h1
    exact ⟨b, h2, hab⟩

theorem SGDModel.related_bwd {R : Type} [Zero R] (Rel : SGDEntry R → SGDEntry R → Prop)
    (m m' : SGDModel R) (h : SGDModel.related Rel m m') (j : Nat) (e' : SGDEntry R)
    (hj : m'.find j = some e') : ∃ e, m.find j = some e ∧ Rel e e' := by
  rcases h j with ⟨_, h2⟩ | ⟨a, b, h1, h2, hab⟩
  · rw [hj] at h2
    cases h2
  · rw [hj] at h2
    simp only [Option.some.injEq] at h2
    subst h2
    exact ⟨a, h1, hab⟩

theorem AddCountEntry_shape {R : Type} [LinearOrderedField R] (add : R → R → R)
    (rand : Nat → Nat)
    (RAND_MAX : Nat) (param_ : SGDParam R) (ns : List Nat) (h2 : 2 * param_.V_dim ∈ ns)
    (rc : Nat) (e : SGDEntry R) (cnt : R) (hok : e.V_len_ok ns = true) :
    (SGDOptimizer.AddCountEntry add rand RAND_MAX param_ rc e cnt).1.V_len_ok ns = true := by
  obtain ⟨_, _, _, _, hyes, hno⟩ := AddCountEntry_props add rand RAND_MAX param_ rc e cnt
  by_cases hc : e.V = none ∧ e.w ≠ 0 ∧ add e.fea_cnt cnt > param_.V_threshold
  · refine V_len_ok_of_length ns _ _ (hyes hc) ?_
    simp only [List.length_append, List.length_map, List.length_range, List.length_replicate]
    rw [← two_mul]
    exact h2
  · exact V_len_ok_of_V ns e _ (by rw [(hno hc).1]) hok

theorem UpdateW_shape {R : Type} [LinearOrderedField R] (sqrt : R → R) (rand : Nat → Nat)
    (RAND_MAX : Nat) (param_ : SGDParam R) (ns : List Nat) (h2 : 2 * param_.V_dim ∈ ns)
    (nw : Int) (rc : Nat) (gw : R) (e : SGDEntry R) (hok : e.V_len_ok ns = true) :
    (SGDOptimizer.UpdateW sqrt rand RAND_MAX param_ nw rc gw e).1.V_len_ok ns = true := by
  rcases UpdateW_V sqrt rand RAND_MAX param_ nw rc gw e with ⟨hV, _⟩ | ⟨_, v, hV, hl⟩
  · exact V_len_ok_of_V ns e _ (by rw [hV]) hok
  · exact V_len_ok_of_length ns _ v hV (hl ▸ h2)

theorem UpdateV_shape {R : Type} [LinearOrderedField R] (sqrt : R → R) (param_ : SGDParam R)
    (ns : List Nat) (gV : List R) (e e2 : SGDEntry R)
    (h : SGDOptimizer.UpdateV sqrt param_ gV e = .ok e2) (hok : e.V_len_ok ns = true) :
    e2.V_len_ok ns = true := by
  obtain ⟨_, _, _, _, hV⟩ := UpdateV_inv sqrt param_ gV e e2 h
  rcases hV with ⟨v, v', h1, h2, hl⟩ | ⟨hV, _⟩
  · exact V_len_ok_of_V ns e e2 (by rw [h1, h2]; simp [hl]) hok
  · exact V_len_ok_of_V ns e e2 (by rw [hV]) hok

theorem Reachable_shape {R : Type} [LinearOrderedField R] (sqrt : R → R)
    (add : R → R → R) (rand : Nat → Nat)
    (RAND_MAX : Nat) (fresh : Nat → Nat) (enc : R → Nat) (dec : Nat → R) (loadOk : Bool → Prop)
    (ns_of : Nat → List Nat) (h2 : ∀ n, 2 * n ∈ ns_of n)
    (hload : ∀ b n, loadOk b → n * (1 + b2n b) ∈ ns_of n) (o : SGDOptimizer R)
    (ho : SGDOptimizer.Reachable sqrt add rand RAND_MAX fresh enc dec loadOk o) :
    o.model_.V_dim = o.param_.V_dim
      ∧ ∀ j e, o.model_.find j = some e → e.V_len_ok (ns_of o.param_.V_dim) = true := by
  induction ho with
  | init param_ start_id end_id m has_aux rand_calls h =>
    obtain ⟨a1, _, _, a4⟩ := SGDModel.Init_fresh _ _ _ m h
    refine ⟨a1, fun j e hj => ?_⟩
    rw [a4 j e hj]
    rfl
  | load o fi has_aux m' has_aux' b _ h hok ih =>
    obtain ⟨i1, i2⟩ := ih
    obtain ⟨a1, _, _, a4⟩ := LoadLoop_shape fresh _ _ _ _ _ _ _ h
    refine ⟨a1.trans i1, ?_⟩
    apply SGDModel.map_shape dec m'
    apply a4 _ _ (SGDModel.map_shape enc o.model_ _ i2)
    have hv : (o.model_.map enc).V_dim = o.param_.V_dim := i1
    rw [hv]
    exact hload _ _ hok
  | get o o' fea_ids weights weights' weight_lens weight_lens' _ h ih =>
    obtain ⟨i1, i2⟩ := ih
    obtain ⟨a1, _, _, _, a5, a6, _⟩ := Get_props o o' _ _ _ _ _ h
    rw [a1, a5]
    refine ⟨i1, fun j e hj => ?_⟩
    rw [a6 j] at hj
    exact i2 j e hj
  | add_count o o' fea_ids fea_cnts _ h ih =>
    obtain ⟨i1, i2⟩ := ih
    obtain ⟨a1, _, _, _, a5, a6, _⟩ := AddCount_props add rand RAND_MAX
      (fun e e' => e.V_len_ok (ns_of o.param_.V_dim) = true
        → e'.V_len_ok (ns_of o.param_.V_dim) = true)
      (fun _ hh => hh) (fun _ _ _ hab hbc hh => hbc (hab hh)) o o'
      (fun rc e cnt hh => AddCountEntry_shape add rand RAND_MAX o.param_ _ (h2 _) rc e cnt hh)
      _ _ h
    rw [a1, a5]
    refine ⟨i1, fun j e' hj => ?_⟩
    obtain ⟨e, he, hrel⟩ := SGDModel.related_bwd _ _ _ a6 j e' hj
    exact hrel (i2 j e he)
  | update o o' fea_ids grads grad_lens _ h ih =>
    obtain ⟨i1, i2⟩ := ih
    obtain ⟨a1, _, _, a5, a6, _⟩ := Update_props sqrt rand RAND_MAX
      (fun e e' => e.V_len_ok (ns_of o.param_.V_dim) = true
        → e'.V_len_ok (ns_of o.param_.V_dim) = true)
      (fun _ hh => hh) (fun _ _ _ hab hbc hh => hbc (hab hh)) o o'
      (fun nw rc gw e hh => UpdateW_shape sqrt rand RAND_MAX o.param_ _ (h2 _) nw rc gw e hh)
      (fun gV e e2 hU hh => UpdateV_shape sqrt o.param_ _ gV e e2 hU hh)
      _ _ _ h
    rw [a1, a5]
    refine ⟨i1, fun j e' hj => ?_⟩
    obtain ⟨e, he, hrel⟩ := SGDModel.related_bwd _ _ _ a6 j e' hj
    exact hrel (i2 j e he)

theorem Reachable_counter {R : Type} [LinearOrderedField R] (sqrt : R → R)
    (add : R → R → R) (rand : Nat → Nat)
    (RAND_MAX : Nat) (fresh : Nat → Nat) (enc : R → Nat) (dec : Nat → R) (o : SGDOptimizer R)
    (ho : SGDOptimizer.Reachable sqrt add rand RAND_MAX fresh enc dec (fun _ => False) o) :
    o.new_w_ = (o.model_.nonzero : Int) := by
  induction ho with
  | init param_ start_id end_id m has_aux rand_calls h =>
    obtain ⟨_, _, a3, _⟩ := SGDModel.Init_fresh _ _ _ m h
    simp only [a3]
    rfl
  | load o fi has_aux m' has_aux' b _ h hok ih => exact absurd hok id
  | get o o' fea_ids weights weights' weight_lens weight_lens' _ h ih =>
    obtain ⟨_, a2, _, _, _, _, a7⟩ := Get_props o o' _ _ _ _ _ h
    rw [a2, a7]
    exact ih
  | add_count o o' fea_ids fea_cnts _ h ih =>
    obtain ⟨_, a2, _, _, _, _, a7⟩ := AddCount_props add rand RAND_MAX (fun _ _ => True)
      (fun _ => trivial) (fun _ _ _ _ _ => trivial) o o' (fun _ _ _ => trivial) _ _ h
    rw [a2, a7]
    exact ih
  | update o o' fea_ids grads grad_lens _ h ih =>
    obtain ⟨_, _, _, _, _, a6⟩ := Update_props sqrt rand RAND_MAX (fun _ _ => True)
      (fun _ => trivial) (fun _ _ _ _ _ => trivial) o o' (fun _ _ _ _ => trivial)
      (fun _ _ _ _ => trivial) _ _ _ h
    omega

theorem SGDModel.find_set_isSome {R : Type} [Zero R] (m : SGDModel R) (i j : Nat)
    (e0 e : SGDEntry R) (hi : m.find i = some e0) (hj : (m.find j).isSome = true) :
    ((m.set i e).find j).isSome = true := by
  by_cases hij : i = j
  · subst hij
    rw [SGDModel.find_set_self m i e0 e hi]
    rfl
  · rw [SGDModel.find_set_ne m i j e hij]
    exact hj

theorem SGDModel.index_of_find {R : Type} [Zero R] (m : SGDModel R) (id : Nat)
    (e : SGDEntry R) (hid : m.start_id_ ≤ id) (he : m.find (id - m.start_id_) = some e) :
    m.index id = .ok (e, m.set (id - m.start_id_) e) := by
  unfold SGDModel.index
  rw [if_neg (by simpa using hid)]
  simp only [he]

theorem AddCountLoop_ok {R : Type} [LinearOrderedField R] (add : R → R → R)
    (rand : Nat → Nat) (RAND_MAX : Nat) (rest : List (Nat × R)) : ∀ (o : SGDOptimizer R),
      (∀ it ∈ rest, o.model_.start_id_ ≤ it.1
        ∧ (o.model_.find (it.1 - o.model_.start_id_)).isSome = true) →
      ∃ o', SGDOptimizer.AddCountLoop add rand RAND_MAX o rest = .ok o' := by
  induction rest with
  | nil =>
    intro o _
    exact ⟨o, rfl⟩
  | cons a rest ih =>
    intro o hall
    obtain ⟨id, cnt⟩ := a
    obtain ⟨hid, hsome⟩ := hall (id, cnt) (List.mem_cons_self _ _)
    obtain ⟨e, he⟩ := Option.isSome_iff_exists.mp hsome
    rw [SGDOptimizer.AddCountLoop, SGDModel.index_of_find _ id e hid he]
    dsimp only
    apply ih
    intro it hit
    obtain ⟨h1, h2⟩ := hall it (List.mem_cons_of_mem _ hit)
    simp only [SGDModel.set_start]
    refine ⟨h1, ?_⟩
    exact SGDModel.find_set_isSome _ _ _ e _ (SGDModel.find_set_self _ _ e e he)
      (SGDModel.find_set_isSome _ _ _ e e he h2)

theorem AddCountLoop_entry {R : Type} [LinearOrderedField R] (add : R → R → R)
    (rand : Nat → Nat) (RAND_MAX : Nat) (P : SGDParam R) (rest : List (Nat × R)) :
    ∀ (o o' : SGDOptimizer R),
      SGDOptimizer.AddCountLoop add rand RAND_MAX o rest = .ok o' → o.param_ = P →
      ∀ (id : Nat) (e : SGDEntry R), o.model_.start_id_ ≤ id →
        o.model_.find (id - o.model_.start_id_) = some e →
        ∃ e', o'.model_.find (id - o.model_.start_id_) = some e'
          ∧ e'.fea_cnt
              = ((rest.filter (fun it => decide (it.1 = id))).map Prod.snd).foldl add e.fea_cnt
          ∧ e'.w = e.w ∧ e'.sqrt_g = e.sqrt_g ∧ e'.z = e.z
          ∧ (∀ v, e.V = some v → e'.V = some v)
          ∧ (e.V = none → (e'.V.isSome = true ↔ e.w ≠ 0
              ∧ ∃ k, k < ((rest.filter (fun it => decide (it.1 = id))).map Prod.snd).length
                ∧ ((((rest.filter (fun it => decide (it.1 = id))).map Prod.snd).take
                      (k + 1)).foldl add e.fea_cnt) > P.V_threshold))
          ∧ (e.V = none → ∀ v, e'.V = some v →
              ∃ rc, v = (List.range P.V_dim).map (fun i =>
                  ((rand (rc + i) : R) / (RAND_MAX : R) - 1 / 2) * P.init_scale)
                ++ List.replicate P.V_dim 0) := by
  induction rest with
  | nil =>
    intro o o' h _ id e _ hfind
    simp only [SGDOptimizer.AddCountLoop, Res.ok.injEq] at h
    subst h
    refine ⟨e, hfind, rfl, rfl, rfl, rfl, fun _ hv => hv, fun hn => ?_, fun hn v hv => ?_⟩
    · rw [hn]
      simp
    · rw [hn] at hv
      cases hv
  | cons a rest ih =>
    intro o o' h hP id e hid hfind
    subst hP
    obtain ⟨id0, cnt⟩ := a
    rw [SGDOptimizer.AddCountLoop] at h
    cases hidx : o.model_.index id0 with
    | ok a =>
      obtain ⟨e0, m1⟩ := a
      obtain ⟨hge, hfind0, hm1⟩ := SGDModel.index_ok _ id0 e0 m1 hidx
      rw [hidx] at h
      dsimp only at h
      subst hm1
      have hstart : ((o.model_.set (id0 - o.model_.start_id_) e0).set
          (id0 - (o.model_.set (id0 - o.model_.start_id_) e0).start_id_)
          (SGDOptimizer.AddCountEntry add rand RAND_MAX o.param_ o.rand_calls e0 cnt).1).start_id_
          = o.model_.start_id_ := by
        simp only [SGDModel.set_start]
      by_cases heq : id0 = id
      · subst heq
        rw [hfind] at hfind0
        simp only [Option.some.injEq] at hfind0
        subst hfind0
        obtain ⟨p1, p2, p3, p4, pyes, pno⟩ :=
          AddCountEntry_props add rand RAND_MAX o.param_ o.rand_calls e cnt
        obtain ⟨e', he', q1, q2, q3, q4, q5, q6, q7⟩ := ih _ _ h rfl id0
          (SGDOptimizer.AddCountEntry add rand RAND_MAX o.param_ o.rand_calls e cnt).1
          (by rw [hstart]; exact hid)
          (by
            rw [hstart]
            simp only [SGDModel.set_start]
            exact SGDModel.find_set_self _ _ e _ (SGDModel.find_set_self _ _ e e hfind))
        rw [hstart] at he'
        rw [p1] at q1
        rw [p2] at q2
        rw [p3] at q3
        rw [p4] at q4
        simp only [decide_True, List.filter_cons_of_pos, List.map_cons, List.foldl_cons,
          List.length_cons, List.take_succ_cons]
        refine ⟨e', he', q1, q2, q3, q4, ?_, ?_, ?_⟩
        · intro v hv
          have hc : ¬ (e.V = none ∧ e.w ≠ 0 ∧ add e.fea_cnt cnt > o.param_.V_threshold) := by
            rintro ⟨h1, _⟩
            rw [hv] at h1
            cases h1
          exact q5 v ((pno hc).1.trans hv)
        · intro hn
          by_cases hc : e.V = none ∧ e.w ≠ 0 ∧ add e.fea_cnt cnt > o.param_.V_threshold
          · rw [q5 _ (pyes hc)]
            refine ⟨fun _ => ⟨hc.2.1, 0, Nat.succ_pos _, ?_⟩, fun _ => rfl⟩
            simp only [Nat.zero_add, List.take_zero, List.foldl_nil]
            exact hc.2.2
          · have hq := q6 ((pno hc).1.trans hn)
            rw [p1, p2] at hq
            rw [hq]
            constructor
            · rintro ⟨hw, k, hk, hgt⟩
              exact ⟨hw, k + 1, Nat.succ_lt_succ hk, by
                simpa only [List.take_succ_cons, List.foldl_cons] using hgt⟩
            · rintro ⟨hw, k, hk, hgt⟩
              cases k with
              | zero =>
                simp only [Nat.zero_add, List.take_zero, List.foldl_nil] at hgt
                exact absurd ⟨hn, hw, hgt⟩ hc
              | succ k =>
                exact ⟨hw, k, Nat.lt_of_succ_lt_succ hk, by
                  simpa only [List.take_succ_cons, List.foldl_cons] using hgt⟩
        · intro hn v hv
          by_cases hc : e.V = none ∧ e.w ≠ 0 ∧ add e.fea_cnt cnt > o.param_.V_threshold
          · have h1 := q5 _ (pyes hc)
            rw [hv] at h1
            simp only [Option.some.injEq] at h1
            exact ⟨o.rand_calls, h1⟩
          · exact q7 ((pno hc).1.trans hn) v hv
      · have hne : id0 - o.model_.start_id_ ≠ id - o.model_.start_id_ := by omega
        obtain ⟨e', he', q⟩ := ih _ _ h rfl id e (by rw [hstart]; exact hid)
          (by
            rw [hstart]
            simp only [SGDModel.set_start]
            rw [SGDModel.find_set_ne _ _ _ _ hne, SGDModel.find_set_ne _ _ _ _ hne]
            exact hfind)
        rw [hstart] at he'
        have hd : decide (id0 = id) = false := decide_eq_false heq
        rw [List.filter_cons_of_neg (by simp [hd])]
        exact ⟨e', he', q⟩
    | fatal => rw [hidx] at h; cases h
    | undef => rw [hidx] at h; cases h
    | nofuel => rw [hidx] at h; cases h

theorem foldl_add_mono {R : Type} [LinearOrderedField R] (add : R → R → R)
    (hadd : ∀ x c, 0 ≤ c → x ≤ add x c) : ∀ (cs : List R) (x : R),
      (∀ c ∈ cs, 0 ≤ c) → x ≤ cs.foldl add x := by
  intro cs
  induction cs with
  | nil => intro x _; exact le_refl x
  | cons c cs ih =>
    intro x h
    rw [List.foldl_cons]
    exact le_trans (hadd x c (h c (List.mem_cons_self _ _)))
      (ih _ (fun d hd => h d (List.mem_cons_of_mem _ hd)))

theorem countsOf_pos {R : Type} (id : Nat) : ∀ (fea_ids : List Nat) (fea_cnts : List R),
    id ∈ fea_ids → fea_ids.length = fea_cnts.length → 0 < (countsOf id fea_ids fea_cnts).length := by
  intro fea_ids
  induction fea_ids with
  | nil => intro _ h; cases h
  | cons a l ih =>
    intro fea_cnts hmem hlen
    cases fea_cnts with
    | nil => cases hlen
    | cons c cs =>
      unfold countsOf
      rw [List.zip_cons_cons]
      by_cases ha : a = id
      · rw [List.filter_cons_of_pos (by simpa using ha)]
        simp
      · rw [List.filter_cons_of_neg (by simpa using ha)]
        rcases List.mem_cons.mp hmem with h | h
        · exact absurd h.symm ha
        · exact ih cs h (Nat.succ.inj hlen)

theorem foldl_add_exact {R : Type} [LinearOrderedField R] (add : R → R → R)
    (hadd : ∀ x y, add x y = x + y) : ∀ (cs : List R) (x : R), cs.foldl add x = x + cs.sum := by
  intro cs
  induction cs with
  | nil => intro x; simp
  | cons c cs ih =>
    intro x
    rw [List.foldl_cons, ih, hadd, List.sum_cons, add_assoc]

theorem AddCount_ok {R : Type} [LinearOrderedField R] (add : R → R → R) (rand : Nat → Nat)
    (RAND_MAX : Nat) (o : SGDOptimizer R) (fea_ids : List Nat) (fea_cnts : List R)
    (hlen : fea_ids.length = fea_cnts.length)
    (hids : ∀ id ∈ fea_ids, o.model_.start_id_ ≤ id
      ∧ (o.model_.find (id - o.model_.start_id_)).isSome = true) :
    ∃ o', SGDOptimizer.AddCount add rand RAND_MAX o fea_ids fea_cnts = .ok o' := by
  unfold SGDOptimizer.AddCount
  rw [if_neg (not_not.mpr hlen)]
  exact AddCountLoop_ok add rand RAND_MAX _ o (fun it hit => hids it.1 (List.of_mem_zip hit).1)

theorem AddCount_entry {R : Type} [LinearOrderedField R] (add : R → R → R) (rand : Nat → Nat)
    (RAND_MAX : Nat) (o o' : SGDOptimizer R) (fea_ids : List Nat) (fea_cnts : List R)
    (h : SGDOptimizer.AddCount add rand RAND_MAX o fea_ids fea_cnts = .ok o')
    (id : Nat) (e : SGDEntry R) (hid : o.model_.start_id_ ≤ id)
    (he : o.model_.find (id - o.model_.start_id_) = some e) :
    ∃ e', o'.model_.find (id - o.model_.start_id_) = some e'
      ∧ e'.fea_cnt = (countsOf id fea_ids fea_cnts).foldl add e.fea_cnt
      ∧ e'.w = e.w ∧ e'.sqrt_g = e.sqrt_g ∧ e'.z = e.z
      ∧ (∀ v, e.V = some v → e'.V = some v)
      ∧ (e.V = none → (e'.V.isSome = true ↔ e.w ≠ 0
          ∧ ∃ k, k < (countsOf id fea_ids fea_cnts).length
            ∧ ((countsOf id fea_ids fea_cnts).take (k + 1)).foldl add e.fea_cnt
                > o.param_.V_threshold))
      ∧ (e.V = none → ∀ v, e'.V = some v →
          ∃ rc, v = (List.range o.param_.V_dim).map (fun i =>
              ((rand (rc + i) : R) / (RAND_MAX : R) - 1 / 2) * o.param_.init_scale)
            ++ List.replicate o.param_.V_dim 0) := by
  unfold SGDOptimizer.AddCount at h
  by_cases hc : ¬ (fea_ids.length = fea_cnts.length)
  · rw [if_pos hc] at h
    cases h
  · rw [if_neg hc] at h
    exact AddCountLoop_entry add rand RAND_MAX o.param_ _ o o' h rfl id e hid he

theorem AddCountEntry_keeps_V {R : Type} [LinearOrderedField R] (add : R → R → R)
    (rand : Nat → Nat)
    (RAND_MAX : Nat) (param_ : SGDParam R) (rc : Nat) (e : SGDEntry R) (cnt : R) (v : List R)
    (hV : e.V = some v) :
    (SGDOptimizer.AddCountEntry add rand RAND_MAX param_ rc e cnt).1.V = some v
      ∧ (SGDOptimizer.AddCountEntry add rand RAND_MAX param_ rc e cnt).2 = rc := by
  obtain ⟨_, _, _, _, _, hno⟩ := AddCountEntry_props add rand RAND_MAX param_ rc e cnt
  have hc : ¬ (e.V = none ∧ e.w ≠ 0 ∧ add e.fea_cnt cnt > param_.V_threshold) := by
    rintro ⟨h1, _⟩
    rw [hV] at h1
    cases h1
  exact ⟨(hno hc).1.trans hV, (hno hc).2⟩

theorem UpdateW_keeps_V {R : Type} [LinearOrderedField R] (sqrt : R → R) (rand : Nat → Nat)
    (RAND_MAX : Nat) (param_ : SGDParam R) (nw : Int) (rc : Nat) (gw : R) (e : SGDEntry R)
    (v : List R) (hV : e.V = some v) :
    (SGDOptimizer.UpdateW sqrt rand RAND_MAX param_ nw rc gw e).1.V = some v
      ∧ (SGDOptimizer.UpdateW sqrt rand RAND_MAX param_ nw rc gw e).2.2 = rc := by
  rcases UpdateW_V sqrt rand RAND_MAX param_ nw rc gw e with ⟨h1, h2⟩ | ⟨h1, _⟩
  · exact ⟨h1.trans hV, h2⟩
  · rw [hV] at h1
    cases h1

theorem UpdateV_keeps_V {R : Type} [LinearOrderedField R] (sqrt : R → R) (param_ : SGDParam R)
    (gV : List R) (e e2 : SGDEntry R) (h : SGDOptimizer.UpdateV sqrt param_ gV e = .ok e2)
    (v : List R) (hV : e.V = some v) : ∃ v', e2.V = some v' ∧ v'.length = v.length := by
  obtain ⟨_, _, _, _, hh⟩ := UpdateV_inv sqrt param_ gV e e2 h
  rcases hh with ⟨v0, v', h1, h2, hl⟩ | ⟨h1, _⟩
  · rw [hV] at h1
    simp only [Option.some.injEq] at h1
    subst h1
    exact ⟨v', h2, hl⟩
  · exact ⟨v, h1.trans hV, rfl⟩

/-! ## The claims -/

/-- Claim C1 (round trip), evaluated on a store the code can hold: range
`[0, 1)`, `V_dim = 2`, one entry with an embedding.  `Init` builds the fresh
store, and loading into it the bytes `Save(save_aux = true)` wrote aborts on a
`CHECK`, whatever the contents of fresh memory and of `*has_aux`: `Load` reads
`len` bytes of the embedding where `Save` wrote `len * sizeof(real_t)`, and
decodes the rest of the embedding as the next record. -/
theorem roundtrip_embedding_load_aborts :
    (SGDModel.Init 2 0 1 : Res (SGDModel Nat)) = .ok (denseStore 2 [SGDEntry.empty]) ∧
    ∀ (fresh : Nat → Nat) (has_aux : Bool),
      SGDModel.Load fresh (denseStore 2 [SGDEntry.empty]) has_aux
        (SGDModel.Save true (denseStore 2 [c1_entry])) = .fatal := by
  refine ⟨by decide, ?_⟩
  intro fresh has_aux
  rfl

/-- Claim C2 as stated fails: with `save_aux = true` an entry with `w == 0`
and no embedding is written (here with its counter 3.0, `sqrt_g` 1.0 and
`z` 0.5) as a record of 16 payload bytes. -/
theorem save_aux_writes_empty_entry :
    isZeroBits c2_entry.w = true ∧ c2_entry.V = none ∧
    SGDModel.SaveEntry 4 true 3 c2_entry
      = [3, 0, 0, 0, 0, 0, 0, 0, 16, 0, 0, 0, 0, 0, 64, 64, 0, 0, 0, 0, 0, 0, 128, 63,
         0, 0, 0, 63] := by
  decide

/-- Claim C2, amended: `Save` writes no record for an entry exactly when
`save_aux` is false, the entry has no embedding and its `w` compares equal to
zero; with `save_aux = true` every entry gets a record. -/
theorem save_omits_iff (V_dim : Nat) (save_aux : Bool) (id : Nat) (entry : SGDEntry Nat) :
    SGDModel.SaveEntry V_dim save_aux id entry = [] ↔
      (save_aux = false ∧ entry.V = none ∧ isZeroBits entry.w = true) := by
  unfold SGDModel.SaveEntry
  split
  · rename_i h
    simpa [and_assoc] using h
  · rename_i h
    simp only [sizeof_feaid_t, toLE]
    simpa [and_assoc] using h

/-- Claim C3 (aux flag in the sign of the length), evaluated: `Save` with
`save_aux = false` on a store whose entry has weight 1.0 writes the length
field `+8`, and `Load` of these bytes into a fresh store of the same range
aborts: it takes the positive length for a record with `sqrt_g` and `z`. -/
theorem save_without_aux_writes_positive_length :
    SGDModel.Save false (denseStore 0 [c3_entry])
      = [0, 0, 0, 0, 0, 0, 0, 0, 8, 0, 0, 0, 0, 0, 64, 64, 0, 0, 128, 63]
    ∧ recLen (SGDModel.Save false (denseStore 0 [c3_entry])) = 8
    ∧ ∀ (fresh : Nat → Nat) (has_aux : Bool),
        SGDModel.Load fresh (denseStore 0 [SGDEntry.empty]) has_aux
          (SGDModel.Save false (denseStore 0 [c3_entry])) = .fatal := by
  refine ⟨by decide, by decide, ?_⟩
  intro fresh has_aux
  rfl

/-- Claim C4 as stated fails: with `save_aux = true` and `V_dim = 1` the
record of an entry with embedding `[0.5, 1.0]` carries, after the 16 bytes of
scalar fields, both floats (the live value and its accumulator), not the one
live value. -/
theorem save_aux_writes_accumulator_half :
    (recPayload (SGDModel.SaveEntry 1 true 0 c4_entry)).drop 16
      = bytesOfReals [0x3F000000, 0x3F800000]
    ∧ (recPayload (SGDModel.SaveEntry 1 true 0 c4_entry)).drop 16
      ≠ bytesOfReals ([0x3F000000, 0x3F800000].take 1) := by
  decide

/-- Claim C4, amended: for an entry with an embedding `v` of at least
`(1 + save_aux) * V_dim` floats (and `16 + 8 * V_dim < 2^31`), the record
starts with the id, its payload is `fea_cnt`, `w`, then `sqrt_g` and `z` when
`save_aux`, then the first `(1 + save_aux) * V_dim` floats of `v` (the live
half alone without aux, the live half and the accumulator half with aux), and
the absolute value of the length field is the number of payload bytes. -/
theorem save_embedding_payload (V_dim : Nat) (save_aux : Bool) (id : Nat)
    (entry : SGDEntry Nat) (v : List Nat)
    (hV : entry.V = some v) (hlen : (1 + b2n save_aux) * V_dim ≤ v.length)
    (hb : 16 + 8 * V_dim < 2 ^ 31) :
    (SGDModel.SaveEntry V_dim save_aux id entry).take sizeof_feaid_t = toLE sizeof_feaid_t id
    ∧ recPayload (SGDModel.SaveEntry V_dim save_aux id entry)
        = toLE sizeof_real_t entry.fea_cnt ++ toLE sizeof_real_t entry.w
            ++ (if save_aux then toLE sizeof_real_t entry.sqrt_g ++ toLE sizeof_real_t entry.z
                else [])
            ++ bytesOfReals (v.take ((1 + b2n save_aux) * V_dim))
    ∧ (recLen (SGDModel.SaveEntry V_dim save_aux id entry)).natAbs
        = (recPayload (SGDModel.SaveEntry V_dim save_aux id entry)).length := by
  rw [SaveEntry_some V_dim save_aux id entry v hV]
  have h8 : (toLE sizeof_feaid_t id).length = sizeof_feaid_t := toLE_length _ _
  have h4 : ∀ x, (toLE sizeof_int x).length = sizeof_int := fun x => toLE_length _ _
  have hp : ∀ (a b c : List Nat), a.length = sizeof_feaid_t → b.length = sizeof_int →
      recPayload (a ++ b ++ c) = c := by
    intro a b c ha hb
    unfold recPayload
    apply List.drop_left'
    simp [ha, hb]
  have hl : ∀ (a b c : List Nat), a.length = sizeof_feaid_t → b.length = sizeof_int →
      recLen (a ++ b ++ c) = toInt32 (fromLE b) := by
    intro a b c ha hb
    unfold recLen
    rw [List.append_assoc, List.drop_left' ha, List.take_left' hb]
  refine ⟨?_, ?_, ?_⟩
  · rw [List.append_assoc, List.take_left' h8]
  · rw [hp _ _ _ h8 (h4 _)]
  · rw [hp _ _ _ h8 (h4 _), hl _ _ _ h8 (h4 _), fromLE_toLE]
    have hlt : (1 + b2n save_aux) * 2 * sizeof_real_t + (1 + b2n save_aux) * V_dim * sizeof_real_t
        < 2 ^ 31 := by
      cases save_aux <;> simp [b2n, sizeof_real_t] <;> omega
    have hmod : ((1 + b2n save_aux) * 2 * sizeof_real_t
        + (1 + b2n save_aux) * V_dim * sizeof_real_t) % 256 ^ sizeof_int
        = (1 + b2n save_aux) * 2 * sizeof_real_t + (1 + b2n save_aux) * V_dim * sizeof_real_t := by
      apply Nat.mod_eq_of_lt
      simp only [sizeof_int]
      omega
    rw [hmod, toInt32_small _ hlt, Int.natAbs_ofNat]
    simp only [List.length_append, toLE_length, bytesOfReals_length, List.length_take,
      Nat.min_eq_left hlen]
    cases save_aux <;> simp [b2n, sizeof_real_t, toLE_length] <;> omega

/-- Claim C4, amended, at `V_dim = 1`, `save_aux = true`, id 0 and the entry
with embedding `[0.5, 1.0]`. -/
theorem save_embedding_payload_witness :
    (SGDModel.SaveEntry 1 true 0 c4_entry).take sizeof_feaid_t = toLE sizeof_feaid_t 0
    ∧ recPayload (SGDModel.SaveEntry 1 true 0 c4_entry)
        = toLE sizeof_real_t c4_entry.fea_cnt ++ toLE sizeof_real_t c4_entry.w
            ++ (if true = true then
                  toLE sizeof_real_t c4_entry.sqrt_g ++ toLE sizeof_real_t c4_entry.z
                else [])
            ++ bytesOfReals ([0x3F000000, 0x3F800000].take ((1 + b2n true) * 1))
    ∧ (recLen (SGDModel.SaveEntry 1 true 0 c4_entry)).natAbs
        = (recPayload (SGDModel.SaveEntry 1 true 0 c4_entry)).length :=
  save_embedding_payload 1 true 0 c4_entry [0x3F000000, 0x3F800000] rfl (by decide) (by decide)

/-- Claim C5 as stated fails: with `V_dim = 0` the skip buffer has 40 bytes,
and a well-formed out-of-range record that declares 40 payload bytes makes
`Load` abort on `CHECK_LT(len, tmp.size())`, while the stream without that
record loads. -/
theorem load_aborts_on_long_out_of_range_record :
    c5_long.wellFormed ∧ c5_long.inRange (denseStore 0 [SGDEntry.empty]) = false
    ∧ SGDModel.Load (fun _ => 0) (denseStore 0 [SGDEntry.empty]) false (encodeRecords [c5_long])
        = .fatal
    ∧ SGDModel.Load (fun _ => 0) (denseStore 0 [SGDEntry.empty]) false
        (encodeRecords ([c5_long].filter (Record.inRange (denseStore 0 [SGDEntry.empty]))))
        = .ok (denseStore 0 [SGDEntry.empty], false) := by
  decide

/-- Claim C5, amended: for a stream of well-formed records in which every
out-of-range record declares fewer than `(2 * V_dim + 10) * sizeof(real_t)`
payload bytes and every in-range record carries the scalar fields only, one
iteration of `Load` on an out-of-range record consumes its header and exactly
`|len|` payload bytes and changes nothing, `Load` on the whole stream has the
same outcome (entries and `has_aux`, or the same failure) as on the stream
with the out-of-range records removed, and it does return. -/
theorem load_skips_out_of_range (fresh : Nat → Nat) (m : SGDModel Nat) (has_aux : Bool)
    (rs : List Record)
    (hwf : ∀ r ∈ rs, r.wellFormed)
    (hout : ∀ r ∈ rs, r.inRange m = false →
      r.len.natAbs < (m.V_dim * 2 + 10) * sizeof_real_t)
    (hin : ∀ r ∈ rs, r.inRange m = true → r.scalarOnly) :
    (∀ r ∈ rs, r.inRange m = false → ∀ (fuel : Nat) (first h : Bool) (rest : List Nat),
      SGDModel.LoadLoop fresh (fuel + 1) m first h (r.encode ++ rest)
        = SGDModel.LoadLoop fresh fuel m first h rest)
    ∧ SGDModel.Load fresh m has_aux (encodeRecords rs)
        = SGDModel.Load fresh m has_aux (encodeRecords (rs.filter (Record.inRange m)))
    ∧ SGDModel.Load fresh m has_aux (encodeRecords rs) ≠ .nofuel := by
  refine ⟨?_, ?_, ?_⟩
  · intro r hr hrange fuel first h rest
    exact LoadLoop_skip fresh fuel m first h r rest (hwf r hr) hrange (hout r hr hrange)
  · unfold SGDModel.Load
    exact LoadLoop_filter fresh rs m true has_aux _ _ hwf hout hin (by omega) (by omega)
  · unfold SGDModel.Load
    exact LoadLoop_fuel fresh _ m true has_aux _ (by omega)

/-- Claim C5, amended, on the store `[0, 1)` with `V_dim = 0` and a stream of
an out-of-range record, an in-range record and an out-of-range record. -/
theorem load_skips_out_of_range_witness :
    (∀ r ∈ c5_stream, r.inRange (denseStore 0 [SGDEntry.empty]) = false →
      ∀ (fuel : Nat) (first h : Bool) (rest : List Nat),
      SGDModel.LoadLoop (fun _ => 0) (fuel + 1) (denseStore 0 [SGDEntry.empty]) first h
          (r.encode ++ rest)
        = SGDModel.LoadLoop (fun _ => 0) fuel (denseStore 0 [SGDEntry.empty]) first h rest)
    ∧ SGDModel.Load (fun _ => 0) (denseStore 0 [SGDEntry.empty]) false (encodeRecords c5_stream)
        = SGDModel.Load (fun _ => 0) (denseStore 0 [SGDEntry.empty]) false
            (encodeRecords (c5_stream.filter (Record.inRange (denseStore 0 [SGDEntry.empty]))))
    ∧ SGDModel.Load (fun _ => 0) (denseStore 0 [SGDEntry.empty]) false (encodeRecords c5_stream)
        ≠ .nofuel :=
  load_skips_out_of_range (fun _ => 0) (denseStore 0 [SGDEntry.empty]) false c5_stream
    (by decide) (by decide) (by decide)

/-- Claim C6 as stated fails: on the store `[0, 2)` with `V_dim = 1` (skip
buffer of 48 bytes) a stream with a single in-range record and a well-formed
out-of-range record of 48 payload bytes makes `Load` abort, although no two
in-range records differ in aux presence. -/
theorem load_aborts_without_aux_disagreement :
    (∀ r ∈ c6_long_stream, r.wellFormed)
    ∧ SGDModel.Load (fun _ => 0) (denseStore 1 [SGDEntry.empty, SGDEntry.empty]) false
        (encodeRecords c6_long_stream) = .fatal
    ∧ ¬ ∃ r1 ∈ c6_long_stream, ∃ r2 ∈ c6_long_stream,
        r1.inRange (denseStore 1 [SGDEntry.empty, SGDEntry.empty]) = true ∧
        r2.inRange (denseStore 1 [SGDEntry.empty, SGDEntry.empty]) = true ∧
        decide (r1.len > 0) ≠ decide (r2.len > 0) := by
  decide

/-- Claim C6, amended: for a store with one slot per id and a stream of
well-formed records in which every out-of-range record declares fewer than
`(2 * V_dim + 10) * sizeof(real_t)` payload bytes and every in-range record
carries the scalar fields only, `Load` aborts exactly when two in-range records
differ in aux presence (`len > 0`); when it succeeds the returned `has_aux` is
the aux presence of every in-range record; and it either aborts or succeeds.
Out-of-range records take no part. -/
theorem load_aux_agreement (fresh : Nat → Nat) (m : SGDModel Nat) (has_aux : Bool)
    (rs : List Record)
    (hm : m.wf) (hwf : ∀ r ∈ rs, r.wellFormed)
    (hout : ∀ r ∈ rs, r.inRange m = false →
      r.len.natAbs < (m.V_dim * 2 + 10) * sizeof_real_t)
    (hin : ∀ r ∈ rs, r.inRange m = true → r.scalarOnly) :
    (SGDModel.Load fresh m has_aux (encodeRecords rs) = .fatal ↔
      ∃ r1 ∈ rs, ∃ r2 ∈ rs, r1.inRange m = true ∧ r2.inRange m = true ∧
        decide (r1.len > 0) ≠ decide (r2.len > 0))
    ∧ (∀ m' h', SGDModel.Load fresh m has_aux (encodeRecords rs) = .ok (m', h') →
        ∀ r ∈ rs, r.inRange m = true → h' = decide (r.len > 0))
    ∧ (SGDModel.Load fresh m has_aux (encodeRecords rs) = .fatal
        ∨ ∃ m' h', SGDModel.Load fresh m has_aux (encodeRecords rs) = .ok (m', h')) := by
  obtain ⟨hok, hfatal⟩ := LoadLoop_aux fresh rs m true has_aux ((encodeRecords rs).length + 1)
    hm hwf hout hin (by omega)
  have hdiff : auxAgree true has_aux (auxFlags m rs) = false ↔
      ∃ r1 ∈ rs, ∃ r2 ∈ rs, r1.inRange m = true ∧ r2.inRange m = true ∧
        decide (r1.len > 0) ≠ decide (r2.len > 0) := by
    rw [← Bool.not_eq_true, auxAgree_true]
    constructor
    · intro h
      by_contra hne
      apply h
      intro b1 hb1 b2 hb2
      obtain ⟨r1, hr1, hi1, rfl⟩ := (mem_auxFlags m rs b1).mp hb1
      obtain ⟨r2, hr2, hi2, rfl⟩ := (mem_auxFlags m rs b2).mp hb2
      by_contra hd
      exact hne ⟨r1, hr1, r2, hr2, hi1, hi2, hd⟩
    · rintro ⟨r1, hr1, r2, hr2, hi1, hi2, hd⟩ h
      exact hd (h _ ((mem_auxFlags m rs _).mpr ⟨r1, hr1, hi1, rfl⟩) _
        ((mem_auxFlags m rs _).mpr ⟨r2, hr2, hi2, rfl⟩))
  unfold SGDModel.Load
  cases hag : auxAgree true has_aux (auxFlags m rs) with
  | false =>
    have hF := hfatal hag
    refine ⟨⟨fun _ => hdiff.mp hag, fun _ => hF⟩, ?_, Or.inl hF⟩
    intro m' h' h
    rw [hF] at h
    cases h
  | true =>
    obtain ⟨m1, hO⟩ := hok hag
    refine ⟨⟨fun h => ?_, fun h => ?_⟩, ?_, Or.inr ⟨m1, _, hO⟩⟩
    · rw [hO] at h
      cases h
    · have := hdiff.mpr h
      rw [hag] at this
      cases this
    · intro m' h' h r hr hi
      rw [hO] at h
      simp only [Res.ok.injEq, Prod.mk.injEq] at h
      rw [← h.2]
      exact (auxFinal_of_agree true has_aux _ hag _
        ((mem_auxFlags m rs _).mpr ⟨r, hr, hi, rfl⟩)).symm

/-- Claim C6, amended, on the store `[0, 2)` with `V_dim = 1` and two in-range
records with aux state around an out-of-range record. -/
theorem load_aux_agreement_witness :
    (SGDModel.Load (fun _ => 0) (denseStore 1 [SGDEntry.empty, SGDEntry.empty]) false
        (encodeRecords c6_stream) = .fatal ↔
      ∃ r1 ∈ c6_stream, ∃ r2 ∈ c6_stream,
        r1.inRange (denseStore 1 [SGDEntry.empty, SGDEntry.empty]) = true ∧
        r2.inRange (denseStore 1 [SGDEntry.empty, SGDEntry.empty]) = true ∧
        decide (r1.len > 0) ≠ decide (r2.len > 0))
    ∧ (∀ m' h', SGDModel.Load (fun _ => 0) (denseStore 1 [SGDEntry.empty, SGDEntry.empty]) false
          (encodeRecords c6_stream) = .ok (m', h') →
        ∀ r ∈ c6_stream, r.inRange (denseStore 1 [SGDEntry.empty, SGDEntry.empty]) = true →
          h' = decide (r.len > 0))
    ∧ (SGDModel.Load (fun _ => 0) (denseStore 1 [SGDEntry.empty, SGDEntry.empty]) false
          (encodeRecords c6_stream) = .fatal
        ∨ ∃ m' h', SGDModel.Load (fun _ => 0) (denseStore 1 [SGDEntry.empty, SGDEntry.empty])
          false (encodeRecords c6_stream) = .ok (m', h')) :=
  load_aux_agreement (fun _ => 0) (denseStore 1 [SGDEntry.empty, SGDEntry.empty]) false
    c6_stream (by decide) (by decide) (by decide) (by decide)

/-- Claim C7 (length validation), evaluated: for a record that declares 9
payload bytes without aux, `Load` passes every `CHECK`, decodes `fea_cnt` and
`w` from the first 8 bytes and leaves the ninth in the stream, whatever
`V_dim` is. -/
theorem load_accepts_length_nine (V_dim : Nat) (fresh : Nat → Nat) :
    SGDModel.LoadEntry V_dim fresh [0, 0, 64, 64, 0, 0, 128, 63, 7] (-9) SGDEntry.empty
      = .ok ({ fea_cnt := 0x40400000, w := 0x3F800000, sqrt_g := 0, z := 0, V := none }, [7]) := by
  rfl

/-- Claim C8 (Get flattening), evaluated: with `V_dim = 2`, a batch of an
entry without embedding (weight 1/2) and an entry with embedding (weight 2,
embedding 1/4, 1/8), and an output vector that held seven 9s, `Get` returns 6
weights: the 4 of the concatenation and 2 trailing elements left over from the
previous contents. -/
theorem get_leaves_trailing_elements :
    (c8_opt.Get [0, 1] [9, 9, 9, 9, 9, 9, 9] []).toOption.map (fun r => r.2)
      = some ([1 / 2, 2, 1 / 4, 1 / 8, 9, 9], [1, 3]) := by
  rfl

/-- Claim C9 as stated fails: with `V_dim = 2` and a batch in which no entry
has an embedding, `Get` returns `weight_lens = [1, 1]`, not an empty vector. -/
theorem get_weight_lens_nonempty_without_embedding :
    (c9_opt.model_.entry 0).V = none ∧ (c9_opt.model_.entry 1).V = none ∧
    (c9_opt.Get [0, 1] [] []).toOption.map (fun r => r.2.2) = some [1, 1] := by
  refine ⟨rfl, rfl, rfl⟩

/-- Claim C9, amended: for a store with one slot per id, a batch of in-range
ids and embeddings of at least `V_dim` floats, `Get` succeeds and leaves
`weight_lens` empty when `V_dim = 0`, and otherwise with one element per id,
`weight_lens[i] = (V_dim if entry i has an embedding else 0) + 1`, also when
no id of the batch has an embedding. -/
theorem get_weight_lens {R : Type} [Zero R] (o : SGDOptimizer R) (fea_ids : List Nat)
    (weights : List R) (weight_lens : List Int) (hwf : o.model_.wf)
    (hids : ∀ id ∈ fea_ids, o.model_.start_id_ ≤ id ∧ id < o.model_.end_id_)
    (hV : ∀ id ∈ fea_ids, (o.model_.entry id).V_ok o.param_.V_dim = true) :
    ∃ o' w, o.Get fea_ids weights weight_lens =
      .ok (o', w, if o.param_.V_dim = 0 then [] else fea_ids.map (fun id =>
        (((if (o.model_.entry id).V.isSome then o.param_.V_dim else 0) + 1 : Nat) : Int))) := by
  have hids' : ∀ id ∈ fea_ids, o.model_.start_id_ ≤ id ∧ ∃ e,
      o.model_.find (id - o.model_.start_id_) = some e ∧
        ∀ v, e.V = some v → o.param_.V_dim ≤ v.length := by
    intro id hid
    obtain ⟨h1, h2⟩ := hids id hid
    refine ⟨h1, o.model_.entry id, SGDModel.find_of_wf _ _ hwf h1 h2, ?_⟩
    intro v hv
    have := hV id hid
    unfold SGDEntry.V_ok at this
    rw [hv] at this
    simpa using this
  obtain ⟨m', w', h⟩ := GetLoop_lens o.param_.V_dim o.model_.find o.model_.start_id_ fea_ids
    o.model_ 0 0 (resize weights (fea_ids.length * (1 + o.param_.V_dim)) 0)
    (resize weight_lens (if o.param_.V_dim = 0 then 0 else fea_ids.length) 0)
    rfl (fun _ => rfl) hids' (by rw [resize_length]; omega)
    (fun hv => by rw [resize_length, if_neg hv]; omega)
  refine ⟨{ o with model_ := m' }, w', ?_⟩
  unfold SGDOptimizer.Get
  simp only [h]
  by_cases hv : o.param_.V_dim = 0
  · simp [hv, resize]
  · simp [hv, SGDModel.entry]

/-- Claim C9, amended, on the optimizer over `[0, 2)` with `V_dim = 2` whose
entry 1 has an embedding, for the batch `[0, 1]`. -/
theorem get_weight_lens_witness :
    ∃ o' w, c8_opt.Get [0, 1] [] [] =
      .ok (o', w, if c8_opt.param_.V_dim = 0 then [] else [0, 1].map (fun id =>
        (((if (c8_opt.model_.entry id).V.isSome then c8_opt.param_.V_dim else 0) + 1 : Nat)
          : Int))) :=
  get_weight_lens c8_opt [0, 1] [] [] (by decide) (by decide) (by decide)

/-- Claim C10 as stated fails: on a fresh store with `V_threshold = 2`,
`AddCount([5, 5, 5], [1, 1, 1])` brings the count of id 5 to 3, above the
threshold, and the entry still has `w = 0` and no embedding. -/
theorem add_count_alone_creates_no_embedding :
    ((SGDOptimizer.AddCount (fun x y => x + y) (fun _ => 0) 1 c10_opt [5, 5, 5]
        [1, 1, 1]).toOption.map
      (fun o => ((o.model_.entry 5).fea_cnt, (o.model_.entry 5).w, (o.model_.entry 5).V)))
    = some (3, 0, none) := by
  with_unfolding_all decide

/-- Claim C10, amended.  First part: for a batch of in-range ids, `AddCount`
returns, the `fea_cnt` of every id of the batch is the result of adding its
counts one after the other (with the addition `add` of `real_t`), and every id
of the batch whose entry had no embedding and a `w` that is not zero, and whose
`fea_cnt` is above `V_threshold` after the call, has an embedding of `2 * V_dim` floats, the first `V_dim` within
`[-init_scale/2, init_scale/2]` (for `rand()` in `[0, RAND_MAX]` and
`init_scale >= 0`, in exact arithmetic) and the last `V_dim` zero.  Second
part: an entry with `w = 0` and no embedding, such as a fresh entry to which no
gradient is applied, has `w = 0` and no embedding after any successful
`AddCount` call, whatever its count. -/
theorem add_count_embedding_trigger {R : Type} [LinearOrderedField R] (add : R → R → R)
    (rand : Nat → Nat) (RAND_MAX : Nat) (o : SGDOptimizer R) :
    (∀ (fea_ids : List Nat) (fea_cnts : List R), o.model_.wf →
      fea_ids.length = fea_cnts.length →
      (∀ id ∈ fea_ids, o.model_.start_id_ ≤ id ∧ id < o.model_.end_id_) →
      0 < RAND_MAX → (∀ k, rand k ≤ RAND_MAX) → 0 ≤ o.param_.init_scale →
      ∃ o', SGDOptimizer.AddCount add rand RAND_MAX o fea_ids fea_cnts = .ok o' ∧
        ∀ id ∈ fea_ids,
          (o'.model_.entry id).fea_cnt
            = (countsOf id fea_ids fea_cnts).foldl add (o.model_.entry id).fea_cnt
          ∧ ((o.model_.entry id).V = none → (o.model_.entry id).w ≠ 0 →
            (o'.model_.entry id).fea_cnt > o.param_.V_threshold →
            ∃ v, (o'.model_.entry id).V = some v ∧ v.length = 2 * o.param_.V_dim ∧
              (∀ x ∈ v.take o.param_.V_dim,
                -(o.param_.init_scale / 2) ≤ x ∧ x ≤ o.param_.init_scale / 2) ∧
              v.drop o.param_.V_dim = List.replicate o.param_.V_dim 0))
    ∧ (∀ (fea_ids : List Nat) (fea_cnts : List R) (o' : SGDOptimizer R),
      SGDOptimizer.AddCount add rand RAND_MAX o fea_ids fea_cnts = .ok o' →
      ∀ id, (o.model_.entry id).w = 0 → (o.model_.entry id).V = none →
        (o'.model_.entry id).w = 0 ∧ (o'.model_.entry id).V = none) := by
  constructor
  · intro fea_ids fea_cnts hwf hlen hids hM hr hs
    obtain ⟨o', hok⟩ := AddCount_ok add rand RAND_MAX o fea_ids fea_cnts hlen
      (fun id hid => ⟨(hids id hid).1, by
        rw [SGDModel.find_of_wf _ _ hwf (hids id hid).1 (hids id hid).2]
        rfl⟩)
    refine ⟨o', hok, ?_⟩
    intro id hmem
    have hfind := SGDModel.find_of_wf _ _ hwf (hids id hmem).1 (hids id hmem).2
    obtain ⟨e', he', q1, _, _, _, _, q6, q7⟩ :=
      AddCount_entry add rand RAND_MAX o o' fea_ids fea_cnts hok id _ (hids id hmem).1 hfind
    have hst : o'.model_.start_id_ = o.model_.start_id_ :=
      (AddCount_props add rand RAND_MAX (fun _ _ => True) (fun _ => trivial)
        (fun _ _ _ _ _ => trivial) o o' (fun _ _ _ => trivial) _ _ hok).2.2.2.1
    have hentry : o'.model_.entry id = e' :=
      SGDModel.entry_of_find _ _ _ (by rw [hst]; exact he')
    rw [hentry]
    refine ⟨q1, ?_⟩
    intro hV hw hgt
    have hpos := countsOf_pos id fea_ids fea_cnts hmem hlen
    have hsome : e'.V.isSome = true := by
      rw [q6 hV]
      refine ⟨hw, (countsOf id fea_ids fea_cnts).length - 1, by omega, ?_⟩
      rw [Nat.sub_add_cancel hpos, List.take_length, ← q1]
      exact hgt
    obtain ⟨v, hv⟩ := Option.isSome_iff_exists.mp hsome
    obtain ⟨rc, hrc⟩ := q7 hV v hv
    refine ⟨v, hv, ?_, ?_, ?_⟩
    · rw [hrc]
      simp only [List.length_append, List.length_map, List.length_range, List.length_replicate]
      omega
    · intro x hx
      rw [hrc, List.take_left' (by simp)] at hx
      obtain ⟨i, _, rfl⟩ := List.mem_map.mp hx
      exact InitV_range _ _ _ hM (hr _) hs
    · rw [hrc, List.drop_left' (by simp)]
  · intro fea_ids fea_cnts o' h id hw hV
    unfold SGDOptimizer.AddCount at h
    split at h
    · simp at h
    · obtain ⟨hs, hk⟩ := AddCountLoop_keeps add rand RAND_MAX _ o o' h
      unfold SGDModel.entry at *
      rw [hs]
      exact hk _ hw hV

/-- Claim C10, amended, on the optimizer over `[0, 2)` with `V_threshold = 2`:
the call `AddCount([0, 1, 1], [5, 1, 1])` returns, and an id of the batch whose
entry had a nonzero weight and no embedding (entry 1, weight 1/2, count 2) has
an embedding when its count ends above the threshold; entry 0 (weight 0) gains
none from `AddCount([0], [5])`. -/
theorem add_count_embedding_trigger_witness :
    (∃ o', SGDOptimizer.AddCount (fun x y => x + y) (fun _ => 3) 10 c10_opt_w
          [0, 1, 1] [5, 1, 1] = .ok o' ∧
        ∀ id ∈ [0, 1, 1],
          (o'.model_.entry id).fea_cnt
            = (countsOf id [0, 1, 1] [5, 1, 1]).foldl (fun x y => x + y)
                (c10_opt_w.model_.entry id).fea_cnt
          ∧ ((c10_opt_w.model_.entry id).V = none →
            (c10_opt_w.model_.entry id).w ≠ 0 →
            (o'.model_.entry id).fea_cnt > c10_opt_w.param_.V_threshold →
            ∃ v, (o'.model_.entry id).V = some v ∧ v.length = 2 * c10_opt_w.param_.V_dim ∧
              (∀ x ∈ v.take c10_opt_w.param_.V_dim,
                -(c10_opt_w.param_.init_scale / 2) ≤ x
                  ∧ x ≤ c10_opt_w.param_.init_scale / 2) ∧
              v.drop c10_opt_w.param_.V_dim = List.replicate c10_opt_w.param_.V_dim 0))
    ∧ ((c10_after.model_.entry 0).w = 0 ∧ (c10_after.model_.entry 0).V = none) :=
  ⟨(add_count_embedding_trigger (fun x y => x + y) (fun _ => 3) 10 c10_opt_w).1
      [0, 1, 1] [5, 1, 1] (by decide) rfl (by decide) (by decide)
      (fun _ => by decide) (by with_unfolding_all decide),
   (add_count_embedding_trigger (fun x y => x + y) (fun _ => 3) 10 c10_opt_w).2 [0] [5]
      c10_after (by with_unfolding_all decide) 0 rfl rfl⟩

/-- Claim C11 fails at `V_dim = 1`: for the id 0 whose entry has an embedding,
`grads = [3, 4]` (the scalar gradient and one embedding gradient) and
`grad_lens = [1]`, `Update` does not apply the adagrad step, because the test
`grad_lens[i] > 1` (sgd.cc 150) is false for `grad_lens[i] = V_dim = 1`; it
consumes one float and the final `CHECK_EQ(p, grads.size())` aborts. -/
theorem update_skips_embedding_gradient_at_dim_one :
    ∀ sqrt : ℚ → ℚ,
      SGDOptimizer.Update sqrt (fun _ => 0) 1 c11_opt [0] [3, 4] [1] = .fatal :=
  fun _ => rfl

/-- Claim C12 fails: `Update` has no check of `grad_lens.size()` against
`ids.size()`.  With one id and `grad_lens = [0, 0]` it returns normally; with
two ids and `grad_lens = [0]` it reads `grad_lens[1]` past the end; whereas
`AddCount` with one id and two counts aborts. -/
theorem update_accepts_mismatched_grad_lens :
    (∀ sqrt : ℚ → ℚ,
      (SGDOptimizer.Update sqrt (fun _ => 0) 1 c8_opt [0] [3] [0, 0]).toOption.isSome = true)
    ∧ (∀ sqrt : ℚ → ℚ,
      SGDOptimizer.Update sqrt (fun _ => 0) 1 c8_opt [0, 1] [3, 4] [0] = .undef)
    ∧ SGDOptimizer.AddCount (fun x y => x + y) (fun _ => 0) 1 c8_opt [0] [1, 1] = .fatal :=
  ⟨fun _ => rfl, fun _ => rfl, rfl⟩

theorem UpdateW_shrink_w {R : Type} [LinearOrderedField R] (sqrt : R → R) (param_ : SGDParam R)
    (gw : R) (e : SGDEntry R) :
    (SGDOptimizer.UpdateW_shrink sqrt param_ gw e).w
      = if (SGDOptimizer.UpdateW_shrink sqrt param_ gw e).z ≤ param_.l1
          ∧ (SGDOptimizer.UpdateW_shrink sqrt param_ gw e).z ≥ -param_.l1 then 0
        else (if (SGDOptimizer.UpdateW_shrink sqrt param_ gw e).z > 0
            then (SGDOptimizer.UpdateW_shrink sqrt param_ gw e).z - param_.l1
            else (SGDOptimizer.UpdateW_shrink sqrt param_ gw e).z + param_.l1)
          / ((param_.lr_beta + (SGDOptimizer.UpdateW_shrink sqrt param_ gw e).sqrt_g)
              / param_.lr) := rfl

/-- Claim C13 (FTRL shrinkage on a fresh entry), over the reals with
`Real.sqrt`: with `lr > 0`, `lr_beta >= 0`, `l1 >= 0` (no condition on `l2` is
needed), one `UpdateW` step with gradient `g` on an entry with `sqrt_g = 0`,
`z = 0`, `w = 0` gives `sqrt_g = |g|`, `z = -g`, and `w = 0` exactly when
`|z| <= l1`; when `|z| > l1` the new `w` is
`(z - l1 if z > 0 else z + l1) * lr / (lr_beta + |g|)` and is not zero; and
`g = 0` leaves `w = 0`. -/
theorem ftrl_shrinkage_fresh_entry (rand : Nat → Nat) (RAND_MAX : Nat) (param_ : SGDParam ℝ)
    (new_w_ : Int) (rand_calls : Nat) (g : ℝ) (e e' : SGDEntry ℝ)
    (hlr : 0 < param_.lr) (hbeta : 0 ≤ param_.lr_beta) (hl1 : 0 ≤ param_.l1)
    (hsg : e.sqrt_g = 0) (hz : e.z = 0) (hw : e.w = 0)
    (he' : e' = (SGDOptimizer.UpdateW Real.sqrt rand RAND_MAX param_ new_w_ rand_calls g e).1) :
    e'.sqrt_g = |g| ∧ e'.z = -g ∧ (e'.w = 0 ↔ |e'.z| ≤ param_.l1)
    ∧ (param_.l1 < |e'.z| →
        e'.w = (if e'.z > 0 then e'.z - param_.l1 else e'.z + param_.l1) * param_.lr
            / (param_.lr_beta + |g|)
        ∧ e'.w ≠ 0)
    ∧ (g = 0 → e'.w = 0) := by
  obtain ⟨_, hw', hsg', hz'⟩ :=
    UpdateW_entry Real.sqrt rand RAND_MAX param_ new_w_ rand_calls g e
  rw [← he'] at hw' hsg' hz'
  have hs : (SGDOptimizer.UpdateW_shrink Real.sqrt param_ g e).sqrt_g = |g| := by
    simp [SGDOptimizer.UpdateW_shrink, hsg, hw, Real.sqrt_mul_self_eq_abs]
  have hzz : (SGDOptimizer.UpdateW_shrink Real.sqrt param_ g e).z = -g := by
    simp [SGDOptimizer.UpdateW_shrink, hz, hw]
  have hww := UpdateW_shrink_w Real.sqrt param_ g e
  rw [hzz, hs] at hww
  rw [hs] at hsg'
  rw [hzz] at hz'
  rw [hww] at hw'
  have habs : |(-g)| = |g| := abs_neg g
  have hiff : (-g ≤ param_.l1 ∧ -g ≥ -param_.l1) ↔ |(-g)| ≤ param_.l1 := by
    rw [abs_le]
    constructor
    · rintro ⟨h1, h2⟩
      exact ⟨h2, h1⟩
    · rintro ⟨h1, h2⟩
      exact ⟨h2, h1⟩
  have hbig : param_.l1 < |(-g)| →
      ((if -g > 0 then -g - param_.l1 else -g + param_.l1)
          / ((param_.lr_beta + |g|) / param_.lr)
        = (if -g > 0 then -g - param_.l1 else -g + param_.l1) * param_.lr
            / (param_.lr_beta + |g|))
      ∧ (if -g > 0 then -g - param_.l1 else -g + param_.l1)
          / ((param_.lr_beta + |g|) / param_.lr) ≠ 0 := by
    intro hlt
    have hgpos : 0 < |g| := by
      rw [← habs]
      exact lt_of_le_of_lt hl1 hlt
    have hden : 0 < param_.lr_beta + |g| := by linarith
    have heta : 0 < (param_.lr_beta + |g|) / param_.lr := div_pos hden hlr
    refine ⟨div_div_eq_mul_div _ _ _, ?_⟩
    apply div_ne_zero _ heta.ne'
    by_cases hpos : -g > 0
    · rw [if_pos hpos]
      rw [abs_of_pos hpos] at hlt
      linarith
    · rw [if_neg hpos]
      have hnp : -g ≤ 0 := not_lt.mp hpos
      rw [abs_of_nonpos hnp] at hlt
      linarith
  refine ⟨hsg', hz', ?_, ?_, ?_⟩
  · rw [hz', hw']
    by_cases hc : -g ≤ param_.l1 ∧ -g ≥ -param_.l1
    · rw [if_pos hc]
      exact ⟨fun _ => hiff.mp hc, fun _ => rfl⟩
    · rw [if_neg hc]
      have hlt : param_.l1 < |(-g)| := by
        by_contra hcon
        exact hc (hiff.mpr (not_lt.mp hcon))
      exact ⟨fun h0 => absurd h0 (hbig hlt).2, fun h => absurd h (not_le.mpr hlt)⟩
  · rw [hz', hw']
    intro hlt
    have hc : ¬ (-g ≤ param_.l1 ∧ -g ≥ -param_.l1) := fun hc =>
      absurd (hiff.mp hc) (not_le.mpr hlt)
    rw [if_neg hc]
    exact hbig hlt
  · intro hg
    rw [hw', hg]
    have hc : -(0 : ℝ) ≤ param_.l1 ∧ -(0 : ℝ) ≥ -param_.l1 := by
      constructor <;> simp [hl1]
    rw [if_pos hc]

/-- Claim C13 at `g = 3` on a default entry with the configuration `c_param`
(`l1 = 1`, `lr = 1`, `lr_beta = 1`): `sqrt_g = 3`, `z = -3`, and `w` is
`(-3 + 1) * 1 / (1 + 3)`, not zero. -/
theorem ftrl_shrinkage_fresh_entry_witness :
    ∃ e' : SGDEntry ℝ,
      e' = (SGDOptimizer.UpdateW Real.sqrt (fun _ => 0) 1 (c_param.map (Rat.cast : ℚ → ℝ))
          0 0 3 SGDEntry.empty).1
      ∧ e'.sqrt_g = |(3 : ℝ)| ∧ e'.z = -3
      ∧ (e'.w = 0 ↔ |e'.z| ≤ (c_param.map (Rat.cast : ℚ → ℝ)).l1)
      ∧ ((c_param.map (Rat.cast : ℚ → ℝ)).l1 < |e'.z| →
          e'.w = (if e'.z > 0 then e'.z - (c_param.map (Rat.cast : ℚ → ℝ)).l1
              else e'.z + (c_param.map (Rat.cast : ℚ → ℝ)).l1)
                * (c_param.map (Rat.cast : ℚ → ℝ)).lr
              / ((c_param.map (Rat.cast : ℚ → ℝ)).lr_beta + |(3 : ℝ)|)
          ∧ e'.w ≠ 0)
      ∧ ((3 : ℝ) = 0 → e'.w = 0) :=
  ⟨_, rfl, ftrl_shrinkage_fresh_entry (fun _ => 0) 1 (c_param.map (Rat.cast : ℚ → ℝ)) 0 0 3
    SGDEntry.empty _ (by simp [SGDParam.map, c_param]) (by simp [SGDParam.map, c_param])
    (by simp [SGDParam.map, c_param]) rfl rfl rfl rfl⟩

/-- Claim C14 (nonzero-count bookkeeping): one `UpdateW` step, for any
entry, gradient and square root function, changes `new_w_` by `+1` when `w`
was zero before and is nonzero after, by `-1` when `w` was nonzero before and
is zero after, and by `0` otherwise. -/
theorem update_w_counter_change {R : Type} [LinearOrderedField R] (sqrt : R → R)
    (rand : Nat → Nat) (RAND_MAX : Nat) (param_ : SGDParam R) (new_w_ : Int) (rand_calls : Nat)
    (gw : R) (e : SGDEntry R) :
    (SGDOptimizer.UpdateW sqrt rand RAND_MAX param_ new_w_ rand_calls gw e).2.1
      = new_w_ + (if e.w = 0
            ∧ (SGDOptimizer.UpdateW sqrt rand RAND_MAX param_ new_w_ rand_calls gw e).1.w ≠ 0
          then 1
          else if e.w ≠ 0
            ∧ (SGDOptimizer.UpdateW sqrt rand RAND_MAX param_ new_w_ rand_calls gw e).1.w = 0
          then -1 else 0) :=
  UpdateW_counter sqrt rand RAND_MAX param_ new_w_ rand_calls gw e

/-- Claim C15 (adagrad monotonicity), over the reals with `Real.sqrt`: for an
embedding of `2 * V_dim` floats, one `UpdateV` step with a gradient of at
least `V_dim` floats succeeds and leaves each accumulator `V[i + V_dim]` equal
to `sqrt(acc^2 + g^2)` with `g = grad_V[i] + V_l2 * V[i]`, which is at least its
previous value and not negative; and along any sequence of `UpdateV` steps
each accumulator is non-decreasing (after the steps `gs1`, then after the
further steps `gs2`) and stays non-negative.  The accumulators need not be
assumed non-negative for this. -/
theorem adagrad_accumulator_monotone (param_ : SGDParam ℝ) (e : SGDEntry ℝ) (v : List ℝ)
    (hV : e.V = some v) (hlen : v.length = 2 * param_.V_dim) :
    (∀ gV : List ℝ, param_.V_dim ≤ gV.length →
      ∃ v', SGDOptimizer.UpdateV Real.sqrt param_ gV e = .ok { e with V := some v' }
        ∧ v'.length = 2 * param_.V_dim
        ∧ ∀ i, i < param_.V_dim →
            v'.getD (i + param_.V_dim) 0
              = Real.sqrt (v.getD (i + param_.V_dim) 0 * v.getD (i + param_.V_dim) 0
                + (gV.getD i 0 + param_.V_l2 * v.getD i 0)
                  * (gV.getD i 0 + param_.V_l2 * v.getD i 0))
            ∧ v.getD (i + param_.V_dim) 0 ≤ v'.getD (i + param_.V_dim) 0
            ∧ 0 ≤ v'.getD (i + param_.V_dim) 0)
    ∧ (∀ gs1 gs2 : List (List ℝ), (∀ g ∈ gs1 ++ gs2, param_.V_dim ≤ g.length) →
      ∃ v1 v2, SGDOptimizer.UpdateVs Real.sqrt param_ gs1 e = .ok { e with V := some v1 }
        ∧ SGDOptimizer.UpdateVs Real.sqrt param_ (gs1 ++ gs2) e = .ok { e with V := some v2 }
        ∧ ∀ i, i < param_.V_dim →
            v.getD (i + param_.V_dim) 0 ≤ v1.getD (i + param_.V_dim) 0
            ∧ v1.getD (i + param_.V_dim) 0 ≤ v2.getD (i + param_.V_dim) 0
            ∧ (0 ≤ v.getD (i + param_.V_dim) 0 → 0 ≤ v2.getD (i + param_.V_dim) 0)) := by
  constructor
  · intro gV hg
    obtain ⟨v', hok, hl, hacc⟩ := UpdateV_spec Real.sqrt param_ gV e v hV hlen hg
    refine ⟨v', hok, hl, fun i hi => ⟨hacc i hi, ?_, ?_⟩⟩
    · rw [hacc i hi]
      calc v.getD (i + param_.V_dim) 0 ≤ |v.getD (i + param_.V_dim) 0| := le_abs_self _
        _ = Real.sqrt (v.getD (i + param_.V_dim) 0 * v.getD (i + param_.V_dim) 0) :=
            (Real.sqrt_mul_self_eq_abs _).symm
        _ ≤ _ := Real.sqrt_le_sqrt (le_add_of_nonneg_right (mul_self_nonneg _))
    · rw [hacc i hi]
      exact Real.sqrt_nonneg _
  · intro gs1 gs2 hg
    obtain ⟨v1, hok1, hl1, hm1⟩ := UpdateVs_spec param_ gs1 e v hV hlen
      (fun g h => hg g (List.mem_append_left _ h))
    obtain ⟨v2, hok2, _, hm2⟩ := UpdateVs_spec param_ gs2 { e with V := some v1 } v1 rfl hl1
      (fun g h => hg g (List.mem_append_right _ h))
    refine ⟨v1, v2, hok1, ?_, fun i hi => ⟨hm1 i hi, hm2 i hi, fun h0 => ?_⟩⟩
    · rw [UpdateVs_append Real.sqrt param_ gs1 gs2 e _ hok1]
      exact hok2
    · exact le_trans h0 (le_trans (hm1 i hi) (hm2 i hi))

/-- Claim C15 for `V_dim = 1` on the embedding `(1)` with accumulator `2`: one
step with the gradient `(3)`, and two such steps in a row. -/
theorem adagrad_accumulator_monotone_witness :
    (∃ v', SGDOptimizer.UpdateV Real.sqrt (c11_param.map (Rat.cast : ℚ → ℝ)) [3]
          (c15_entry.map (Rat.cast : ℚ → ℝ))
          = .ok { c15_entry.map (Rat.cast : ℚ → ℝ) with V := some v' }
        ∧ v'.length = 2 * (c11_param.map (Rat.cast : ℚ → ℝ)).V_dim
        ∧ ∀ i, i < (c11_param.map (Rat.cast : ℚ → ℝ)).V_dim →
            v'.getD (i + (c11_param.map (Rat.cast : ℚ → ℝ)).V_dim) 0
              = Real.sqrt
                (([1, 2].map (Rat.cast : ℚ → ℝ)).getD
                    (i + (c11_param.map (Rat.cast : ℚ → ℝ)).V_dim) 0
                  * ([1, 2].map (Rat.cast : ℚ → ℝ)).getD
                    (i + (c11_param.map (Rat.cast : ℚ → ℝ)).V_dim) 0
                + (([3] : List ℝ).getD i 0 + (c11_param.map (Rat.cast : ℚ → ℝ)).V_l2
                      * ([1, 2].map (Rat.cast : ℚ → ℝ)).getD i 0)
                  * (([3] : List ℝ).getD i 0 + (c11_param.map (Rat.cast : ℚ → ℝ)).V_l2
                      * ([1, 2].map (Rat.cast : ℚ → ℝ)).getD i 0))
            ∧ ([1, 2].map (Rat.cast : ℚ → ℝ)).getD
                  (i + (c11_param.map (Rat.cast : ℚ → ℝ)).V_dim) 0
                ≤ v'.getD (i + (c11_param.map (Rat.cast : ℚ → ℝ)).V_dim) 0
            ∧ 0 ≤ v'.getD (i + (c11_param.map (Rat.cast : ℚ → ℝ)).V_dim) 0)
    ∧ (∃ v1 v2, SGDOptimizer.UpdateVs Real.sqrt (c11_param.map (Rat.cast : ℚ → ℝ)) [[3]]
          (c15_entry.map (Rat.cast : ℚ → ℝ))
          = .ok { c15_entry.map (Rat.cast : ℚ → ℝ) with V := some v1 }
        ∧ SGDOptimizer.UpdateVs Real.sqrt (c11_param.map (Rat.cast : ℚ → ℝ)) ([[3]] ++ [[3]])
          (c15_entry.map (Rat.cast : ℚ → ℝ))
          = .ok { c15_entry.map (Rat.cast : ℚ → ℝ) with V := some v2 }
        ∧ ∀ i, i < (c11_param.map (Rat.cast : ℚ → ℝ)).V_dim →
            ([1, 2].map (Rat.cast : ℚ → ℝ)).getD
                (i + (c11_param.map (Rat.cast : ℚ → ℝ)).V_dim) 0
              ≤ v1.getD (i + (c11_param.map (Rat.cast : ℚ → ℝ)).V_dim) 0
            ∧ v1.getD (i + (c11_param.map (Rat.cast : ℚ → ℝ)).V_dim) 0
              ≤ v2.getD (i + (c11_param.map (Rat.cast : ℚ → ℝ)).V_dim) 0
            ∧ (0 ≤ ([1, 2].map (Rat.cast : ℚ → ℝ)).getD
                  (i + (c11_param.map (Rat.cast : ℚ → ℝ)).V_dim) 0
                → 0 ≤ v2.getD (i + (c11_param.map (Rat.cast : ℚ → ℝ)).V_dim) 0)) :=
  ⟨(adagrad_accumulator_monotone (c11_param.map (Rat.cast : ℚ → ℝ))
      (c15_entry.map (Rat.cast : ℚ → ℝ)) ([1, 2].map (Rat.cast : ℚ → ℝ)) rfl rfl).1 [3]
      (by decide),
   (adagrad_accumulator_monotone (c11_param.map (Rat.cast : ℚ → ℝ))
      (c15_entry.map (Rat.cast : ℚ → ℝ)) ([1, 2].map (Rat.cast : ℚ → ℝ)) rfl rfl).2 [[3]]
      [[3]] (by
        intro g hg
        simp only [List.cons_append, List.nil_append, List.mem_cons, List.mem_singleton,
          List.not_mem_nil, or_false, or_self] at hg
        subst hg
        exact Nat.le_refl 1)⟩

/-- Claim C16 fails for a `Load` of records without aux: on the fresh store
over `[0, 1)` with `V_dim = 4`, loading the record `Save` without aux writes
for id 0 returns with `has_aux = false` and leaves entry 0 with an embedding of
`V_dim * (1 + has_aux) = 4` floats (sgd.cc 77-78), not `2 * V_dim = 8`. -/
theorem load_without_aux_allocates_half_embedding :
    SGDModel.Init 4 0 1 = .ok c16_store
    ∧ ∀ fresh, (SGDModel.Load fresh c16_store false c16_stream).toOption.map
        (fun r => ((r.1.entry 0).V.map List.length,
          (r.1.entry 0).V_len_ok [2 * r.1.V_dim], r.2))
      = some (some 4, false, false) :=
  ⟨rfl, fun _ => rfl⟩

/-- Claim C16, amended.  In every state reachable from a freshly constructed
store by `Get`, `AddCount`, `Update` and those `Load` calls that report
`has_aux = true`, the embedding of every entry is absent or has exactly
`2 * V_dim` floats; when every `Load` call is allowed, it is absent or has
`V_dim` or `2 * V_dim` floats.  An embedding that is present stays as it is
under `Get` and `AddCount`, stays present with the same number of floats under
`Update`, and neither the body of `AddCount` nor `UpdateW` calls `InitV` on
such an entry (the embedding and the count of `rand()` calls are unchanged). -/
theorem embedding_shape_reachable {R : Type} [LinearOrderedField R] (sqrt : R → R)
    (add : R → R → R) (rand : Nat → Nat) (RAND_MAX : Nat) (fresh : Nat → Nat) (enc : R → Nat)
    (dec : Nat → R) :
    (∀ o : SGDOptimizer R,
      SGDOptimizer.Reachable sqrt add rand RAND_MAX fresh enc dec (fun h => h = true) o →
      ∀ j e, o.model_.find j = some e → e.V_len_ok [2 * o.param_.V_dim] = true)
    ∧ (∀ o : SGDOptimizer R,
      SGDOptimizer.Reachable sqrt add rand RAND_MAX fresh enc dec (fun _ => True) o →
      ∀ j e, o.model_.find j = some e →
        e.V_len_ok [o.param_.V_dim, 2 * o.param_.V_dim] = true)
    ∧ (∀ (o o' : SGDOptimizer R) (j : Nat) (e : SGDEntry R) (v : List R),
      o.model_.find j = some e → e.V = some v →
      (∀ ids w wl w' wl', o.Get ids w wl = .ok (o', w', wl') → o'.model_.find j = some e)
      ∧ (∀ ids cnts, SGDOptimizer.AddCount add rand RAND_MAX o ids cnts = .ok o' →
          ∃ e', o'.model_.find j = some e' ∧ e'.V = some v)
      ∧ (∀ ids grads grad_lens,
          SGDOptimizer.Update sqrt rand RAND_MAX o ids grads grad_lens = .ok o' →
          ∃ e' v', o'.model_.find j = some e' ∧ e'.V = some v' ∧ v'.length = v.length))
    ∧ (∀ (param_ : SGDParam R) (nw : Int) (rc : Nat) (g : R) (e : SGDEntry R) (v : List R),
      e.V = some v →
      (SGDOptimizer.UpdateW sqrt rand RAND_MAX param_ nw rc g e).1.V = some v
      ∧ (SGDOptimizer.UpdateW sqrt rand RAND_MAX param_ nw rc g e).2.2 = rc
      ∧ (SGDOptimizer.AddCountEntry add rand RAND_MAX param_ rc e g).1.V = some v
      ∧ (SGDOptimizer.AddCountEntry add rand RAND_MAX param_ rc e g).2 = rc) := by
  refine ⟨?_, ?_, ?_, ?_⟩
  · intro o ho
    exact (Reachable_shape sqrt add rand RAND_MAX fresh enc dec (fun h => h = true)
      (fun n => [2 * n]) (fun n => List.mem_singleton.mpr rfl)
      (fun b n hb => by
        subst hb
        simp only [b2n, if_true, List.mem_singleton]
        omega) o ho).2
  · intro o ho
    exact (Reachable_shape sqrt add rand RAND_MAX fresh enc dec (fun _ => True)
      (fun n => [n, 2 * n]) (fun n => by simp)
      (fun b n _ => by
        cases b
        · simp [b2n]
        · simp only [b2n, if_true, List.mem_cons, List.mem_singleton]
          right
          left
          omega) o ho).2
  · intro o o' j e v hj hV
    refine ⟨?_, ?_, ?_⟩
    · intro ids w wl w' wl' h
      obtain ⟨_, _, _, _, _, a6, _⟩ := Get_props o o' _ _ _ _ _ h
      rw [a6 j]
      exact hj
    · intro ids cnts h
      obtain ⟨_, _, _, _, _, a6, _⟩ := AddCount_props add rand RAND_MAX
        (fun e e' => ∀ v, e.V = some v → e'.V = some v)
        (fun _ _ hh => hh) (fun _ _ _ hab hbc v hh => hbc v (hab v hh)) o o'
        (fun rc e cnt v hh => (AddCountEntry_keeps_V add rand RAND_MAX o.param_ rc e cnt v hh).1)
        _ _ h
      obtain ⟨e', he', hrel⟩ := SGDModel.related_fwd _ _ _ a6 j e hj
      exact ⟨e', he', hrel v hV⟩
    · intro ids grads grad_lens h
      obtain ⟨_, _, _, _, a6, _⟩ := Update_props sqrt rand RAND_MAX
        (fun e e' => ∀ v, e.V = some v → ∃ v', e'.V = some v' ∧ v'.length = v.length)
        (fun _ v hh => ⟨v, hh, rfl⟩)
        (fun _ _ _ hab hbc v hh => by
          obtain ⟨v1, h1, l1⟩ := hab v hh
          obtain ⟨v2, h2, l2⟩ := hbc v1 h1
          exact ⟨v2, h2, l2.trans l1⟩) o o'
        (fun nw rc gw e v hh =>
          ⟨v, (UpdateW_keeps_V sqrt rand RAND_MAX o.param_ nw rc gw e v hh).1, rfl⟩)
        (fun gV e e2 hU v hh => UpdateV_keeps_V sqrt o.param_ gV e e2 hU v hh)
        _ _ _ h
      obtain ⟨e', he', hrel⟩ := SGDModel.related_fwd _ _ _ a6 j e hj
      obtain ⟨v', hv', hl⟩ := hrel v hV
      exact ⟨e', v', he', hv', hl⟩
  · intro param_ nw rc g e v hV
    obtain ⟨h1, h2⟩ := UpdateW_keeps_V sqrt rand RAND_MAX param_ nw rc g e v hV
    obtain ⟨h3, h4⟩ := AddCountEntry_keeps_V add rand RAND_MAX param_ rc e g v hV
    exact ⟨h1, h2, h3, h4⟩

/-- Claim C16, amended, on the state reached from the fresh store over
`[0, 8)` with `V_dim = 2` by `AddCount([0], [5])` and `Update([0], [3], [])`:
entry 0 then has an embedding of 4 floats, and a later `AddCount([0], [1])`
leaves that embedding as it is. -/
theorem embedding_shape_reachable_witness :
    (∀ j e, c16_updated.model_.find j = some e →
        e.V_len_ok [2 * c16_updated.param_.V_dim] = true)
    ∧ (∃ e', c16_recounted.model_.find 0 = some e' ∧ e'.V = some [-1 / 5, -1 / 5, 0, 0]) :=
  ⟨(embedding_shape_reachable qsqrt (fun x y => x + y) (fun _ => 3) 10 (fun _ => 0) (fun _ => 0)
      (fun _ => 0)).1 c16_updated
      (SGDOptimizer.Reachable.update c16_counted c16_updated [0] [3] []
        (SGDOptimizer.Reachable.add_count c10_opt c16_counted [0] [5]
          (SGDOptimizer.Reachable.init c_param 0 8 c10_opt.model_ true 0
            (by with_unfolding_all decide))
          (by with_unfolding_all decide))
        (by with_unfolding_all decide)),
   ((embedding_shape_reachable qsqrt (fun x y => x + y) (fun _ => 3) 10 (fun _ => 0) (fun _ => 0)
      (fun _ => 0)).2.2.1 c16_updated c16_recounted 0
      { fea_cnt := 5, w := -1 / 2, sqrt_g := 3, z := -3, V := some [-1 / 5, -1 / 5, 0, 0] }
      [-1 / 5, -1 / 5, 0, 0] rfl rfl).2.1 [0] [1] (by with_unfolding_all decide)⟩

/-- Claim C17 fails for a negative count, which the signature of `AddCount`
(counts are `real_t`) accepts: `AddCount([1], [-2])` takes the `fea_cnt` of
entry 1 from 5 to 3. -/
theorem add_count_negative_count_decreases_fea_cnt :
    (c8_opt.model_.entry 1).fea_cnt = 5
    ∧ SGDOptimizer.AddCount (fun x y => x + y) (fun _ => 0) 1 c8_opt [1] [-2] = .ok c17_after
    ∧ (c17_after.model_.entry 1).fea_cnt = 3 :=
  ⟨rfl, by with_unfolding_all decide, rfl⟩

/-- Claim C17, amended.  For an entry `e` of the store (the slot of an id not
below `start_id_`): `Get` and `Update` leave its `fea_cnt` unchanged;
`AddCount` performs `fea_cnt += counts[i]` for the positions `i` with
`ids[i] = id`, in order, with the addition `add` of `real_t` (in exact
arithmetic the result is `fea_cnt` plus the sum of these counts); so `fea_cnt`
does not decrease when every count is at least 0, given that adding a number
that is at least 0 does not decrease a value (true of the rounded sum of two
floats, since rounding is monotone); and `AddCount` returns on every batch of
ids of the store with as many counts as ids. -/
theorem fea_cnt_change {R : Type} [LinearOrderedField R] (sqrt : R → R)
    (add : R → R → R) (rand : Nat → Nat) (RAND_MAX : Nat) (o : SGDOptimizer R) (id : Nat)
    (e : SGDEntry R) (hid : o.model_.start_id_ ≤ id)
    (he : o.model_.find (id - o.model_.start_id_) = some e) :
    (∀ o' ids w wl w' wl', o.Get ids w wl = .ok (o', w', wl') →
      ∃ e', o'.model_.find (id - o.model_.start_id_) = some e' ∧ e'.fea_cnt = e.fea_cnt)
    ∧ (∀ o' ids grads grad_lens,
      SGDOptimizer.Update sqrt rand RAND_MAX o ids grads grad_lens = .ok o' →
      ∃ e', o'.model_.find (id - o.model_.start_id_) = some e' ∧ e'.fea_cnt = e.fea_cnt)
    ∧ (∀ o' (ids : List Nat) (cnts : List R),
      SGDOptimizer.AddCount add rand RAND_MAX o ids cnts = .ok o' →
      ∃ e', o'.model_.find (id - o.model_.start_id_) = some e'
        ∧ e'.fea_cnt = (countsOf id ids cnts).foldl add e.fea_cnt
        ∧ ((∀ x y, add x y = x + y) → e'.fea_cnt = e.fea_cnt + (countsOf id ids cnts).sum)
        ∧ ((∀ x c, 0 ≤ c → x ≤ add x c) → (∀ c ∈ cnts, 0 ≤ c) → e.fea_cnt ≤ e'.fea_cnt))
    ∧ (∀ (ids : List Nat) (cnts : List R), ids.length = cnts.length →
      (∀ i ∈ ids, o.model_.start_id_ ≤ i
        ∧ (o.model_.find (i - o.model_.start_id_)).isSome = true) →
      ∃ o', SGDOptimizer.AddCount add rand RAND_MAX o ids cnts = .ok o') := by
  refine ⟨?_, ?_, ?_, ?_⟩
  · intro o' ids w wl w' wl' h
    obtain ⟨_, _, _, _, _, a6, _⟩ := Get_props o o' _ _ _ _ _ h
    exact ⟨e, by rw [a6]; exact he, rfl⟩
  · intro o' ids grads grad_lens h
    obtain ⟨_, _, _, _, a6, _⟩ := Update_props sqrt rand RAND_MAX
      (fun e e' => e'.fea_cnt = e.fea_cnt) (fun _ => rfl)
      (fun _ _ _ hab hbc => hbc.trans hab) o o'
      (fun nw rc gw e => (UpdateW_entry sqrt rand RAND_MAX o.param_ nw rc gw e).1)
      (fun gV e e2 hU => (UpdateV_inv sqrt o.param_ gV e e2 hU).1) _ _ _ h
    obtain ⟨e', he', hrel⟩ := SGDModel.related_fwd _ _ _ a6 _ e he
    exact ⟨e', he', hrel⟩
  · intro o' ids cnts h
    obtain ⟨e', he', q1, _⟩ := AddCount_entry add rand RAND_MAX o o' ids cnts h id e hid he
    refine ⟨e', he', q1, fun hex => ?_, fun hadd hnn => ?_⟩
    · rw [q1, foldl_add_exact add hex]
    · rw [q1]
      apply foldl_add_mono add hadd
      intro c hc
      unfold countsOf at hc
      obtain ⟨it, hit, rfl⟩ := List.mem_map.mp hc
      exact hnn _ (List.of_mem_zip (List.mem_of_mem_filter hit)).2
  · intro ids cnts hlen hids
    exact AddCount_ok add rand RAND_MAX o ids cnts hlen hids

/-- Claim C17, amended, on entry 0 of `c10_opt_w` and the call
`AddCount([0], [5])` in exact arithmetic: the `fea_cnt` goes from 0 to 5; and on
the entry of `c17_big` with `fea_cnt = 2^24` and the call `AddCount([0, 0],
[1, 1])` with an addition that rounds `2^24 + 1` to `2^24` as floats do: the
`fea_cnt` is `2^24` after the call, the counts added one after the other. -/
theorem fea_cnt_change_witness :
    (∃ e', c10_after.model_.find (0 - c10_opt_w.model_.start_id_) = some e'
      ∧ e'.fea_cnt = (countsOf 0 [0] [(5 : ℚ)]).foldl (fun x y => x + y)
          (SGDEntry.empty : SGDEntry ℚ).fea_cnt
      ∧ ((∀ x y : ℚ, (fun x y => x + y) x y = x + y) →
          e'.fea_cnt = (SGDEntry.empty : SGDEntry ℚ).fea_cnt + (countsOf 0 [0] [(5 : ℚ)]).sum)
      ∧ ((∀ x c : ℚ, 0 ≤ c → x ≤ (fun x y => x + y) x c) → (∀ c ∈ [(5 : ℚ)], 0 ≤ c) →
          (SGDEntry.empty : SGDEntry ℚ).fea_cnt ≤ e'.fea_cnt))
    ∧ (∃ e', c17_big.model_.find (0 - c17_big.model_.start_id_) = some e'
      ∧ e'.fea_cnt = (countsOf 0 [0, 0] [(1 : ℚ), 1]).foldl c17_add 16777216
      ∧ ((∀ x y : ℚ, c17_add x y = x + y) →
          e'.fea_cnt = 16777216 + (countsOf 0 [0, 0] [(1 : ℚ), 1]).sum)
      ∧ ((∀ x c : ℚ, 0 ≤ c → x ≤ c17_add x c) → (∀ c ∈ [(1 : ℚ), 1], 0 ≤ c) →
          (16777216 : ℚ) ≤ e'.fea_cnt)) :=
  ⟨(fea_cnt_change qsqrt (fun x y => x + y) (fun _ => 3) 10 c10_opt_w 0 SGDEntry.empty
      (by decide) rfl).2.2.1 c10_after [0] [5] (by with_unfolding_all decide),
   (fea_cnt_change qsqrt c17_add (fun _ => 3) 10 c17_big 0
      { fea_cnt := 16777216, w := 0, sqrt_g := 0, z := 0, V := none }
      (by decide) rfl).2.2.1 c17_big [0, 0] [1, 1] rfl⟩

/-- Claim C18 (exact `AddCount` trigger), with `add` the addition of `real_t`
that `fea_cnt += counts[i]` performs.  First part: on a batch of ids of the
store with as many counts as ids, `AddCount` returns, and for the entry `e` of
an id, with `cs` the counts of the positions of that id in order: `fea_cnt` is
the result of adding the counts `cs` to it one after the other; `w`, `sqrt_g`
and `z` are unchanged; the entry gains an embedding if and only if it had none
before, its `w` is not zero and `fea_cnt` is greater than `V_threshold` right
after one of these additions; otherwise the embedding (absent, or present
with all its values) is unchanged.  When the id occurs once in the batch, with
count `cnt`, this is: the new `fea_cnt` is `add e.fea_cnt cnt`, and the entry
gains an embedding if and only if it had none, `w` is not zero and the new
`fea_cnt` is greater than `V_threshold`.  Second part: the same for the body of
the loop on any entry and count. -/
theorem add_count_exact_trigger {R : Type} [LinearOrderedField R] (add : R → R → R)
    (rand : Nat → Nat) (RAND_MAX : Nat) :
    (∀ (o : SGDOptimizer R) (ids : List Nat) (cnts : List R), ids.length = cnts.length →
      (∀ i ∈ ids, o.model_.start_id_ ≤ i
        ∧ (o.model_.find (i - o.model_.start_id_)).isSome = true) →
      ∃ o', SGDOptimizer.AddCount add rand RAND_MAX o ids cnts = .ok o'
        ∧ o'.param_ = o.param_ ∧ o'.new_w_ = o.new_w_ ∧ o'.has_aux_ = o.has_aux_
        ∧ ∀ (id : Nat) (e : SGDEntry R), o.model_.start_id_ ≤ id →
          o.model_.find (id - o.model_.start_id_) = some e →
          ∃ e', o'.model_.find (id - o.model_.start_id_) = some e'
            ∧ e'.fea_cnt = (countsOf id ids cnts).foldl add e.fea_cnt
            ∧ e'.w = e.w ∧ e'.sqrt_g = e.sqrt_g ∧ e'.z = e.z
            ∧ ((e.V = none ∧ e'.V.isSome = true)
                ↔ (e.V = none ∧ e.w ≠ 0
                  ∧ ∃ k, k < (countsOf id ids cnts).length
                    ∧ ((countsOf id ids cnts).take (k + 1)).foldl add e.fea_cnt
                        > o.param_.V_threshold))
            ∧ (¬ (e.V = none ∧ e.w ≠ 0
                  ∧ ∃ k, k < (countsOf id ids cnts).length
                    ∧ ((countsOf id ids cnts).take (k + 1)).foldl add e.fea_cnt
                        > o.param_.V_threshold) → e'.V = e.V)
            ∧ ∀ cnt, countsOf id ids cnts = [cnt] →
                e'.fea_cnt = add e.fea_cnt cnt
                ∧ ((e.V = none ∧ e'.V.isSome = true)
                  ↔ (e.V = none ∧ e.w ≠ 0 ∧ add e.fea_cnt cnt > o.param_.V_threshold)))
    ∧ (∀ (param_ : SGDParam R) (rand_calls : Nat) (e : SGDEntry R) (cnt : R) (e' : SGDEntry R),
      e' = (SGDOptimizer.AddCountEntry add rand RAND_MAX param_ rand_calls e cnt).1 →
      e'.fea_cnt = add e.fea_cnt cnt ∧ e'.w = e.w ∧ e'.sqrt_g = e.sqrt_g ∧ e'.z = e.z
      ∧ ((e.V = none ∧ e'.V.isSome = true)
          ↔ (e.V = none ∧ e.w ≠ 0 ∧ add e.fea_cnt cnt > param_.V_threshold))
      ∧ (¬ (e.V = none ∧ e.w ≠ 0 ∧ add e.fea_cnt cnt > param_.V_threshold) → e'.V = e.V)) := by
  constructor
  · intro o ids cnts hlen hids
    obtain ⟨o', hok⟩ := AddCount_ok add rand RAND_MAX o ids cnts hlen hids
    obtain ⟨a1, a2, a3, _⟩ := AddCount_props add rand RAND_MAX (fun _ _ => True)
      (fun _ => trivial) (fun _ _ _ _ _ => trivial) o o' (fun _ _ _ => trivial) _ _ hok
    refine ⟨o', hok, a1, a2, a3, ?_⟩
    intro id e hid he
    obtain ⟨e', he', q1, q2, q3, q4, q5, q6, _⟩ :=
      AddCount_entry add rand RAND_MAX o o' ids cnts hok id e hid he
    have hiff : (e.V = none ∧ e'.V.isSome = true)
        ↔ (e.V = none ∧ e.w ≠ 0
          ∧ ∃ k, k < (countsOf id ids cnts).length
            ∧ ((countsOf id ids cnts).take (k + 1)).foldl add e.fea_cnt
                > o.param_.V_threshold) := by
      constructor
      · rintro ⟨hn, hs⟩
        exact ⟨hn, (q6 hn).mp hs⟩
      · rintro ⟨hn, hr⟩
        exact ⟨hn, (q6 hn).mpr hr⟩
    refine ⟨e', he', q1, q2, q3, q4, hiff, ?_, ?_⟩
    · intro hc
      cases hV : e.V with
      | some v => exact q5 v hV
      | none =>
        cases hV' : e'.V with
        | none => rfl
        | some v' =>
          exact absurd (hiff.mp ⟨hV, by rw [hV']; rfl⟩) hc
    · intro cnt hcs
      rw [hcs] at q1 hiff
      refine ⟨q1, ?_⟩
      rw [hiff]
      constructor
      · rintro ⟨hn, hw, k, hk, hgt⟩
        have hk0 : k = 0 := by simpa using hk
        subst hk0
        exact ⟨hn, hw, hgt⟩
      · rintro ⟨hn, hw, hgt⟩
        exact ⟨hn, hw, 0, by simp, hgt⟩
  · intro param_ rand_calls e cnt e' he'
    subst he'
    obtain ⟨p1, p2, p3, p4, pyes, pno⟩ :=
      AddCountEntry_props add rand RAND_MAX param_ rand_calls e cnt
    refine ⟨p1, p2, p3, p4, ?_, fun hc => (pno hc).1⟩
    constructor
    · rintro ⟨hn, hs⟩
      by_contra hc
      rw [(pno hc).1, hn] at hs
      cases hs
    · intro hc
      refine ⟨hc.1, ?_⟩
      rw [pyes hc]
      rfl

/-- Claim C18 on `c10_opt_w` (threshold 2) and the batch
`AddCount([0, 1, 1], [5, 1, 1])`: the call returns with the stated effect on
every entry, and one step of the loop on entry 1 (weight 1/2, count 2, no
embedding) with count 1 gives the count 3 and an embedding. -/
theorem add_count_exact_trigger_witness :
    (∃ o', SGDOptimizer.AddCount (fun x y => x + y) (fun _ => 3) 10 c10_opt_w
          [0, 1, 1] [5, 1, 1] = .ok o'
        ∧ o'.param_ = c10_opt_w.param_ ∧ o'.new_w_ = c10_opt_w.new_w_
        ∧ o'.has_aux_ = c10_opt_w.has_aux_
        ∧ ∀ (id : Nat) (e : SGDEntry ℚ), c10_opt_w.model_.start_id_ ≤ id →
          c10_opt_w.model_.find (id - c10_opt_w.model_.start_id_) = some e →
          ∃ e', o'.model_.find (id - c10_opt_w.model_.start_id_) = some e'
            ∧ e'.fea_cnt = (countsOf id [0, 1, 1] [5, 1, 1]).foldl (fun x y => x + y) e.fea_cnt
            ∧ e'.w = e.w ∧ e'.sqrt_g = e.sqrt_g ∧ e'.z = e.z
            ∧ ((e.V = none ∧ e'.V.isSome = true)
                ↔ (e.V = none ∧ e.w ≠ 0
                  ∧ ∃ k, k < (countsOf id [0, 1, 1] [(5 : ℚ), 1, 1]).length
                    ∧ ((countsOf id [0, 1, 1] [5, 1, 1]).take (k + 1)).foldl
                        (fun x y => x + y) e.fea_cnt > c10_opt_w.param_.V_threshold))
            ∧ (¬ (e.V = none ∧ e.w ≠ 0
                  ∧ ∃ k, k < (countsOf id [0, 1, 1] [(5 : ℚ), 1, 1]).length
                    ∧ ((countsOf id [0, 1, 1] [5, 1, 1]).take (k + 1)).foldl
                        (fun x y => x + y) e.fea_cnt > c10_opt_w.param_.V_threshold)
                → e'.V = e.V)
            ∧ ∀ cnt, countsOf id [0, 1, 1] [(5 : ℚ), 1, 1] = [cnt] →
                e'.fea_cnt = (fun x y => x + y) e.fea_cnt cnt
                ∧ ((e.V = none ∧ e'.V.isSome = true)
                  ↔ (e.V = none ∧ e.w ≠ 0
                    ∧ (fun x y => x + y) e.fea_cnt cnt > c10_opt_w.param_.V_threshold)))
    ∧ ((c18_entry_after.fea_cnt = (fun x y => x + y) (2 : ℚ) 1 ∧ c18_entry_after.w = 1 / 2
        ∧ c18_entry_after.sqrt_g = 1 ∧ c18_entry_after.z = -2
        ∧ (((none : Option (List ℚ)) = none ∧ c18_entry_after.V.isSome = true)
            ↔ ((none : Option (List ℚ)) = none ∧ (1 / 2 : ℚ) ≠ 0
              ∧ (fun x y => x + y) (2 : ℚ) 1 > c_param.V_threshold))
        ∧ (¬ ((none : Option (List ℚ)) = none ∧ (1 / 2 : ℚ) ≠ 0
              ∧ (fun x y => x + y) (2 : ℚ) 1 > c_param.V_threshold)
            → c18_entry_after.V = none))) :=
  ⟨(add_count_exact_trigger (fun x y => x + y) (fun _ => 3) 10).1 c10_opt_w
      [0, 1, 1] [5, 1, 1] rfl (by decide),
   (add_count_exact_trigger (fun x y => x + y) (fun _ => 3) 10).2 c_param 0
      { fea_cnt := 2, w := 1 / 2, sqrt_g := 1, z := -2, V := none } 1 c18_entry_after
      (by with_unfolding_all decide)⟩

/-- Claim C19 (embedding initialization range), over any ordered field: when
`rand()` returns values between 0 and `RAND_MAX`, `RAND_MAX` is positive and
the scale `s = init_scale` is at least 0, `InitV` gives the entry an array of
exactly `2 * V_dim` values, the first `V_dim` of them in `[-s/2, s/2]` and the
last `V_dim` all 0; it makes `V_dim` calls of `rand()` and changes nothing else
of the entry. -/
theorem init_v_shape_and_range {R : Type} [LinearOrderedField R] (rand : Nat → Nat)
    (RAND_MAX : Nat) (param_ : SGDParam R) (rand_calls : Nat) (e : SGDEntry R)
    (hM : 0 < RAND_MAX) (hr : ∀ k, rand k ≤ RAND_MAX) (hs : 0 ≤ param_.init_scale) :
    ∃ v, (SGDOptimizer.InitV rand RAND_MAX param_ rand_calls e).1
          = { e with V := some v }
      ∧ (SGDOptimizer.InitV rand RAND_MAX param_ rand_calls e).2 = rand_calls + param_.V_dim
      ∧ v.length = 2 * param_.V_dim
      ∧ (∀ x ∈ v.take param_.V_dim,
          -(param_.init_scale / 2) ≤ x ∧ x ≤ param_.init_scale / 2)
      ∧ v.drop param_.V_dim = List.replicate param_.V_dim 0 := by
  refine ⟨(List.range param_.V_dim).map (fun i =>
      ((rand (rand_calls + i) : R) / (RAND_MAX : R) - 1 / 2) * param_.init_scale)
      ++ List.replicate param_.V_dim 0, rfl, rfl, ?_, ?_, ?_⟩
  · simp only [List.length_append, List.length_map, List.length_range, List.length_replicate]
    omega
  · intro x hx
    rw [List.take_left' (by simp)] at hx
    obtain ⟨i, _, rfl⟩ := List.mem_map.mp hx
    exact InitV_range _ _ _ hM (hr _) hs
  · rw [List.drop_left' (by simp)]

/-- Claim C19 with `V_dim = 2`, scale 1, `RAND_MAX = 10` and `rand()` returning
3, then 7: the array is `(-1/5, 1/5, 0, 0)`. -/
theorem init_v_shape_and_range_witness :
    ∃ v, (SGDOptimizer.InitV (fun k => if k = 0 then 3 else 7) 10 c_param 0 SGDEntry.empty).1
          = { (SGDEntry.empty : SGDEntry ℚ) with V := some v }
      ∧ (SGDOptimizer.InitV (fun k => if k = 0 then 3 else 7) 10 c_param 0
          (SGDEntry.empty : SGDEntry ℚ)).2 = 0 + c_param.V_dim
      ∧ v.length = 2 * c_param.V_dim
      ∧ (∀ x ∈ v.take c_param.V_dim,
          -(c_param.init_scale / 2) ≤ x ∧ x ≤ c_param.init_scale / 2)
      ∧ v.drop c_param.V_dim = List.replicate c_param.V_dim 0 :=
  init_v_shape_and_range (fun k => if k = 0 then 3 else 7) 10 c_param 0 SGDEntry.empty
    (by decide) (fun k => by by_cases h : k = 0 <;> simp [h])
    (by with_unfolding_all decide)

/-- Claim C20 (nonzero counter as a store invariant).  If `new_w_` equals the
number of entries with `w != 0` before a call of `Get`, `AddCount` or `Update`
that returns, for any batch (ids may repeat), then it equals that number after
the call; and in every state reached from a fresh store with `new_w_ = 0` by
these three operations, `new_w_` is the number of entries with nonzero `w`, and
so is not negative. -/
theorem nonzero_counter_invariant {R : Type} [LinearOrderedField R] (sqrt : R → R)
    (add : R → R → R) (rand : Nat → Nat) (RAND_MAX : Nat) :
    (∀ o o' : SGDOptimizer R, o.new_w_ = (o.model_.nonzero : Int) →
      ((∃ ids w wl w' wl', o.Get ids w wl = .ok (o', w', wl'))
        ∨ (∃ ids cnts, SGDOptimizer.AddCount add rand RAND_MAX o ids cnts = .ok o')
        ∨ (∃ ids grads grad_lens,
            SGDOptimizer.Update sqrt rand RAND_MAX o ids grads grad_lens = .ok o')) →
      o'.new_w_ = (o'.model_.nonzero : Int))
    ∧ (∀ (fresh : Nat → Nat) (enc : R → Nat) (dec : Nat → R) (o : SGDOptimizer R),
      SGDOptimizer.Reachable sqrt add rand RAND_MAX fresh enc dec (fun _ => False) o →
      o.new_w_ = (o.model_.nonzero : Int) ∧ 0 ≤ o.new_w_) := by
  constructor
  · intro o o' hinv hcall
    rcases hcall with ⟨ids, w, wl, w', wl', h⟩ | ⟨ids, cnts, h⟩ | ⟨ids, grads, grad_lens, h⟩
    · obtain ⟨_, a2, _, _, _, _, a7⟩ := Get_props o o' _ _ _ _ _ h
      rw [a2, a7]
      exact hinv
    · obtain ⟨_, a2, _, _, _, _, a7⟩ := AddCount_props add rand RAND_MAX (fun _ _ => True)
        (fun _ => trivial) (fun _ _ _ _ _ => trivial) o o' (fun _ _ _ => trivial) _ _ h
      rw [a2, a7]
      exact hinv
    · obtain ⟨_, _, _, _, _, a6⟩ := Update_props sqrt rand RAND_MAX (fun _ _ => True)
        (fun _ => trivial) (fun _ _ _ _ _ => trivial) o o' (fun _ _ _ _ => trivial)
        (fun _ _ _ _ => trivial) _ _ _ h
      omega
  · intro fresh enc dec o ho
    have h := Reachable_counter sqrt add rand RAND_MAX fresh enc dec o ho
    exact ⟨h, by rw [h]; exact Int.ofNat_nonneg _⟩

/-- Claim C20 on the fresh store over `[0, 8)`: after `AddCount([0], [5])` the
counter is 0, and after `Update([0], [3], [])`, which makes the weight of entry
0 nonzero, it is 1, the number of nonzero weights. -/
theorem nonzero_counter_invariant_witness :
    c16_updated.new_w_ = (c16_updated.model_.nonzero : Int)
    ∧ (c16_updated.new_w_ = (c16_updated.model_.nonzero : Int) ∧ 0 ≤ c16_updated.new_w_) :=
  ⟨(nonzero_counter_invariant qsqrt (fun x y => x + y) (fun _ => 3) 10).1 c16_counted c16_updated
      (by with_unfolding_all decide)
      (Or.inr (Or.inr ⟨[0], [3], [], by with_unfolding_all decide⟩)),
   (nonzero_counter_invariant qsqrt (fun x y => x + y) (fun _ => 3) 10).2 (fun _ => 0)
      (fun _ => 0) (fun _ => 0)
      c16_updated
      (SGDOptimizer.Reachable.update c16_counted c16_updated [0] [3] []
        (SGDOptimizer.Reachable.add_count c10_opt c16_counted [0] [5]
          (SGDOptimizer.Reachable.init c_param 0 8 c10_opt.model_ true 0
            (by with_unfolding_all decide))
          (by with_unfolding_all decide))
        (by with_unfolding_all decide))⟩

end difacto
